import Mathlib

/-!
# Rivendell: string lists, application contexts and the playout console

A shallow embedding of parts of the Rivendell sources and theorems about them.
Strings are lists of characters, machine integers are integers (wrapped to 32
bits where a result may overflow), the calls a function makes to the database,
to Qt or to the operator are inputs.
-/

namespace Rivendell

/-! ## Definitions -/

/-- Qt library: a character of a `QString`. -/
abbrev QChar := Char

/-- Qt library: a string, as the sequence of its characters. -/
abbrev QString := List QChar

/-- Qt library: `QString::split(sep, QString::KeepEmptyParts)`. -/
def QString.split (sep : QChar) : QString → List QString
  | [] => [[]]
  | c :: cs =>
    if c = sep then [] :: QString.split sep cs
    else
      match QString.split sep cs with
      | [] => [[c]]
      | h :: t => (c :: h) :: t

/-- Qt library: `QStringList::join(sep)`. -/
def QStringList.join (sep : QChar) : List QString → QString
  | [] => []
  | [f] => f
  | f :: g :: t => f ++ sep :: QStringList.join sep (g :: t)

/-- `list.back()+=ch`. -/
def appendToBack : List QString → QChar → List QString
  | [], _ => []
  | [f], ch => [f ++ [ch]]
  | f :: g :: t, ch => f :: appendToBack (g :: t) ch

/-- The variables of the loop of `RDStringList::split`: the list built so far and the
escape flag. -/
structure SplitLoop where
  list : List QString
  escape : Bool
  deriving DecidableEq, Repr

/-- The body of the loop of `RDStringList::split`, for the character `ch = str.at(i)`. -/
def splitBody (sep e : QChar) (st : SplitLoop) (ch : QChar) : SplitLoop :=
  if ch = e then
    { st with escape := !st.escape }
  else
    if (!st.escape) && ch = sep then
      { st with list := st.list ++ [[]] }
    else
      { st with list := appendToBack st.list ch }

/-- `RDStringList::split(sep, str, esc)`. -/
def RDStringList.split (sep : QChar) (str : QString) (esc : QString) : List QString :=
  match esc with
  | [] => QString.split sep str
  | e :: _ => (str.foldl (splitBody sep e) { list := [[]], escape := false }).list

/-- The positions of `str` that hold a separator preceded by an even number of escape
characters. -/
def unescapedSeparators (sep e : QChar) (str : QString) : List Nat :=
  (List.range str.length).filter
    (fun i => str[i]? == some sep && (str.take i).count e % 2 == 0)

/-- The positions of `str` that hold a separator preceded by an odd number of escape
characters. -/
def escapedSeparators (sep e : QChar) (str : QString) : List Nat :=
  (List.range str.length).filter
    (fun i => str[i]? == some sep && (str.take i).count e % 2 == 1)

/-- The text of `str` from position `a` up to, not including, position `b`, without its
escape characters. -/
def fieldText (e : QChar) (str : QString) (a b : Nat) : QString :=
  ((str.take b).drop a).filter (fun ch => ch != e)

/-- Cut `str`, from position `start` on, at the given positions: one field before each cut
and one after the last, the characters at the cuts left out. -/
def cutFields (e : QChar) (str : QString) : Nat → List Nat → List QString
  | start, [] => [fieldText e str start str.length]
  | start, p :: ps => fieldText e str start p :: cutFields e str (p + 1) ps

/-- The split as the specification words it: the separators inside an escaped run are
literal text, the others delimit the fields, in source order. -/
def splitSpec (sep e : QChar) (str : QString) : List QString :=
  cutFields e str 0 (unescapedSeparators sep e str)

/-- Prepend a character to the first field. -/
def consHead (c : QChar) : List QString → List QString
  | [] => [[c]]
  | h :: t => (c :: h) :: t

/-- Recursive reading of the split loop, front to back. -/
def splitRec (sep e : QChar) : Bool → QString → List QString
  | _, [] => [[]]
  | escape, c :: cs =>
    if c = e then splitRec sep e (!escape) cs
    else if (!escape) && c = sep then [] :: splitRec sep e escape cs
    else consHead c (splitRec sep e escape cs)

/-- Concatenate the fields found so far with the fields of the rest, the last field of the
first list continuing into the first field of the second. -/
def glue : List QString → List QString → List QString
  | [], r => r
  | [f], [] => [f]
  | [f], h :: t => (f ++ h) :: t
  | f :: g :: l, r => f :: glue (g :: l) r

/-- Positions of the separators of `str` at which the number of escape characters seen,
counting `k` of them before `str`, has remainder `r` modulo 2. -/
def separatorsFrom (sep e : QChar) (r k : Nat) (str : QString) : List Nat :=
  (List.range str.length).filter
    (fun i => str[i]? == some sep && ((str.take i).count e + k) % 2 == r)

/-- What `RDOpenDb` hands back to `RDCoreApplication::open`: whether the connection opened,
the schema version stored through `&schema` (an `int`), and the text stored through `&db_err`. -/
structure DbOpen where
  opened : Bool
  schema : Int
  db_err : String
  deriving DecidableEq, Repr

/-- `RDCoreApplication::ErrorType`, the values used by `open`. -/
inductive ErrorType where
  | ErrorOk
  | ErrorDbVersionSkew
  | ErrorNoHostEntry
  | ErrorNoService
  deriving DecidableEq, Repr

/-- `printf`'s `%u` applied to a 32-bit `int` argument. -/
def fmtU (n : Int) : String :=
  toString (n % 4294967296).toNat

/-- The loop over the command switches that looks for `--skip-db-check`. -/
def skipDbCheck (keys : List String) : Bool :=
  keys.foldl (fun skip key => if key = "--skip-db-check" then true else skip) false

/-- Text of the schema-version-mismatch error; `found` is the `%u` rendering of `schema`. -/
def versionMismatchMsg (tr : String → String) (RD_VERSION_DATABASE : Nat) (found : String) :
    String :=
  tr "Database version mismatch, should be" ++ (" " ++ toString RD_VERSION_DATABASE ++ ", ") ++
    tr "is" ++ (" " ++ found)

/-- Text of the database-unavailable error. -/
def dbUnavailableMsg (tr : String → String) (db_err : String) : String :=
  tr "Unable to open database" ++ " [" ++ db_err ++ "]"

/-- `RDApplication::open(QString *err_msg)`: the returned flag and the final `*err_msg`.
`keys` are the keys of the command switches, `opened` tells whether `RDInitDb` returned a
connection, `schema` (an `unsigned`) and `db_err` are what it stored. The accessors built on
success are left out. -/
def RDApplication.open (tr : String → String) (RD_VERSION_DATABASE : Nat) (keys : List String)
    (opened : Bool) (schema : Nat) (db_err : String) (err_msg : String) : Bool × String :=
  let skip_db_check := skipDbCheck keys
  if !opened then
    (false, dbUnavailableMsg tr db_err)
  else if (RD_VERSION_DATABASE != schema) && !skip_db_check then
    (false, versionMismatchMsg tr RD_VERSION_DATABASE (toString schema))
  else
    (true, err_msg)

/-- The surroundings `RDCoreApplication::open` consults: the keys of the command switches, the
outcome of `CheckService` (its result, and the text it leaves in `*err_msg` when it returns
false), the outcome of `RDOpenDb`, the station name of `rd.conf` and whether that station has
a row. -/
structure CoreEnv where
  keys : List String
  svc_ok : Bool
  svc_msg : String
  db : DbOpen
  stationName : String
  station_exists : Bool
  deriving DecidableEq, Repr

/-- What `RDCoreApplication::open` leaves behind: the returned flag, `*err_msg`, and `*err_type`
(`none` when `err_type` is NULL). -/
structure OpenResult where
  ret : Bool
  err_msg : String
  err_type : Option ErrorType
  deriving DecidableEq, Repr

/-- Text of the missing-host error. -/
def noHostEntryMsg (tr : String → String) (stationName : String) : String :=
  tr "This host" ++ " (\"" ++ stationName ++ "\") " ++
    tr "does not have a Hosts entry in the database." ++ "\n" ++
    tr "Open RDAdmin->ManageHosts->Add to create one."

/-- `RDCoreApplication::CheckService(err_msg)`: the returned flag and the text left in
`*err_msg`. Every pass of its loop writes `*err_msg`, and a pass that finds the service
active writes `tr("OK")` last. -/
def RDCoreApplication.CheckService (tr : String → String) (env : CoreEnv) : Bool × String :=
  if env.svc_ok then (true, tr "OK") else (false, env.svc_msg)

/-- `RDCoreApplication::open(err_msg, err_type, check_svc)`. `err_type` is `none` for a NULL
pointer, otherwise the value it points to. Logging, the `--ticket` and
`--persistent-dropbox-id` switches and the accessors built on the way are left out. -/
def RDCoreApplication.open (tr : String → String) (RD_VERSION_DATABASE : Nat) (env : CoreEnv)
    (err_msg : String) (err_type : Option ErrorType) (check_svc : Bool) : OpenResult :=
  let err_type := err_type.map (fun _ => ErrorType.ErrorOk)
  let skip_db_check := skipDbCheck env.keys
  let err_msg := if check_svc then (RDCoreApplication.CheckService tr env).2 else err_msg
  if check_svc && !(RDCoreApplication.CheckService tr env).1 then
    { ret := false, err_msg := err_msg,
      err_type := err_type.map (fun _ => ErrorType.ErrorNoService) }
  else if !env.db.opened then
    { ret := false, err_msg := dbUnavailableMsg tr env.db.db_err, err_type := err_type }
  else if ((RD_VERSION_DATABASE : Int) != env.db.schema) && !skip_db_check then
    { ret := false,
      err_msg := versionMismatchMsg tr RD_VERSION_DATABASE (fmtU env.db.schema),
      err_type := err_type.map (fun _ => ErrorType.ErrorDbVersionSkew) }
  else if !env.station_exists then
    { ret := false, err_msg := noHostEntryMsg tr env.stationName,
      err_type := err_type.map (fun _ => ErrorType.ErrorNoHostEntry) }
  else
    { ret := true, err_msg := err_msg, err_type := err_type }

/-- `RDCoreApplication::ExitCode`, as listed by `exitCodeText`. -/
inductive ExitCode where
  | ExitOk
  | ExitPriorInstance
  | ExitNoDb
  | ExitSvcFailed
  | ExitInvalidOption
  | ExitOutputProtected
  | ExitNoSvc
  | ExitNoLog
  | ExitNoReport
  | ExitLogGenFailed
  | ExitLogLinkFailed
  | ExitNoPerms
  | ExitReportFailed
  | ExitImportFailed
  | ExitNoDropbox
  | ExitNoGroup
  | ExitInvalidCart
  | ExitNoSchedCode
  | ExitBadTicket
  | ExitLast
  deriving DecidableEq, Repr

/-- A row of the `WEBAPI_AUTHS` table; the expiration is a point on the database clock. -/
structure WebapiAuth where
  TICKET : QString
  IPV4_ADDRESS : QString
  EXPIRATION_DATETIME : Int
  LOGIN_NAME : QString
  deriving DecidableEq, Repr

/-- Modelled from the spec: the database lookup behind `RDSqlQuery` and `RDEscapeString`, which
are not part of the sources at hand. The `where` clause of `userChangedData` selects the rows
holding an un-expired `(ticket, source address)` pair: the ticket and the address are those
given, and the expiration lies after `now()`. -/
def ticketRowMatches (ticket addr : QString) (now : Int) (row : WebapiAuth) : Bool :=
  row.TICKET = ticket && row.IPV4_ADDRESS = addr && decide (now < row.EXPIRATION_DATETIME)

/-- The part of the application that `userChangedData` touches: the name held by `app_user`
and the number of times `userChanged()` was emitted. -/
structure CoreApp where
  user_name : QString
  userChanged_emitted : Nat
  deriving DecidableEq, Repr

/-- How a slot ends: it returns, or the process exits with a code. -/
inductive Outcome (σ : Type) where
  | returned (s : σ)
  | exited (code : ExitCode) (s : σ)
  deriving DecidableEq, Repr

/-- `RDCoreApplication::userChangedData()`. `ripc_user` is `app_ripc->user()`, `table` the
rows of `WEBAPI_AUTHS` in the order the query yields them, `now` the database clock. -/
def RDCoreApplication.userChangedData (app_ticket ripc_user : QString)
    (table : List WebapiAuth) (now : Int) (app : CoreApp) : Outcome CoreApp :=
  if app_ticket.isEmpty then
    .returned { user_name := ripc_user, userChanged_emitted := app.userChanged_emitted + 1 }
  else
    match QString.split ':' app_ticket with
    | [f0_0, f0_1] =>
      match table.find? (ticketRowMatches f0_0 f0_1 now) with
      | some q =>
        .returned { user_name := q.LOGIN_NAME,
                    userChanged_emitted := app.userChanged_emitted + 1 }
      | none => .exited ExitCode.ExitBadTicket app
    | _ => .exited ExitCode.ExitBadTicket app

/-- A ticket table with an expired and a current row for the same ticket and address. -/
def sampleAuths : List WebapiAuth :=
  [ { TICKET := "abc".toList, IPV4_ADDRESS := "10.0.0.5".toList, EXPIRATION_DATETIME := 50,
      LOGIN_NAME := "old".toList },
    { TICKET := "abc".toList, IPV4_ADDRESS := "10.0.0.5".toList, EXPIRATION_DATETIME := 200,
      LOGIN_NAME := "alice".toList } ]

/-- Qt library: the part of a `QTimer` the channel locks use. `start(msec)` activates the
timer with the given interval, `stop()` deactivates it. -/
structure QTimer where
  active : Bool
  interval : Int
  deriving DecidableEq, Repr

/-- Qt library: `QTimer::start(msec)`. -/
def QTimer.start (_t : QTimer) (msec : Int) : QTimer :=
  { active := true, interval := msec }

/-- Qt library: `QTimer::stop()`. -/
def QTimer.stop (t : QTimer) : QTimer :=
  { t with active := false }

/-- The table `air_channel_timers[dir][achan]`; `none` stands for a NULL entry. -/
abbrev ChannelTimers := Int → Int → Option QTimer

/-- Store a timer at `air_channel_timers[dir][achan]`. -/
def ChannelTimers.set (ts : ChannelTimers) (dir achan : Int) (t : QTimer) : ChannelTimers :=
  fun d a => if d = dir ∧ a = achan then some t else ts d a

/-- The value a 32-bit `int` holds after an operation whose exact result is `z`: the result
wrapped into -2147483648 .. 2147483647. -/
def int32 (z : Int) : Int :=
  (z + 2147483648) % 4294967296 - 2147483648

/-- `MainWidget::AudioChannel(card, port)`, computed in 32-bit `int`s. -/
def AudioChannel (RD_MAX_PORTS : Int) (card port : Int) : Int :=
  int32 (int32 (RD_MAX_PORTS * card) + port)

/-- `MainWidget::AssertChannelLock(int dir, int achan)`: the returned flag and the timers
afterwards. The result is `none` when the call goes through a NULL timer. -/
def AssertChannelLock (AIR_CHANNEL_LOCKOUT_INTERVAL : Int) (ts : ChannelTimers)
    (dir achan : Int) : Option (Bool × ChannelTimers) :=
  if achan ≥ 0 then
    let odir : Int := if dir = 0 then 1 else 0
    match ts odir achan with
    | none => none
    | some ot =>
      if ot.active then
        some (false, ts.set odir achan ot.stop)
      else
        match ts dir achan with
        | none => none
        | some t => some (true, ts.set dir achan (t.start AIR_CHANNEL_LOCKOUT_INTERVAL))
  else
    some (false, ts)

/-- `MainWidget::AssertChannelLock(int dir, int card, int port)`. -/
def AssertChannelLockPort (RD_MAX_PORTS AIR_CHANNEL_LOCKOUT_INTERVAL : Int) (ts : ChannelTimers)
    (dir card port : Int) : Option (Bool × ChannelTimers) :=
  AssertChannelLock AIR_CHANNEL_LOCKOUT_INTERVAL ts dir (AudioChannel RD_MAX_PORTS card port)

/-- `RDAirPlayConf::Channel`. -/
inductive Channel where
  | MainLog1Channel
  | MainLog2Channel
  | SoundPanel1Channel
  | CueChannel
  | AuxLog1Channel
  | AuxLog2Channel
  | SoundPanel2Channel
  | SoundPanel3Channel
  | SoundPanel4Channel
  | SoundPanel5Channel
  deriving DecidableEq, Repr

/-- `RDAirPlayConf::GpioType`. -/
inductive GpioType where
  | EdgeGpio
  | LevelGpio
  deriving DecidableEq, Repr

/-- The per-channel settings of `RDAirPlayConf` that the constructor of the playout console
reads. -/
structure ChannelConf where
  startGpiMatrix : Channel → Int
  startGpiLine : Channel → Int
  startGpoMatrix : Channel → Int
  startGpoLine : Channel → Int
  stopGpiMatrix : Channel → Int
  stopGpiLine : Channel → Int
  stopGpoMatrix : Channel → Int
  stopGpoLine : Channel → Int
  gpioType : Channel → GpioType
  card : Channel → Int
  port : Channel → Int

/-- The GPIO tables of `MainWidget`. -/
structure GpioTables where
  air_start_gpi_matrices : Channel → Int
  air_start_gpi_lines : Channel → Int
  air_start_gpo_matrices : Channel → Int
  air_start_gpo_lines : Channel → Int
  air_stop_gpi_matrices : Channel → Int
  air_stop_gpi_lines : Channel → Int
  air_stop_gpo_matrices : Channel → Int
  air_stop_gpo_lines : Channel → Int
  air_channel_gpio_types : Channel → GpioType

/-- The constructor's "Load GPIO Channel Configuration" loop. -/
def loadGpioConfiguration (conf : ChannelConf) : GpioTables :=
  { air_start_gpi_matrices := fun chan => conf.startGpiMatrix chan
    air_start_gpi_lines := fun chan => conf.startGpiLine chan - 1
    air_start_gpo_matrices := fun chan => conf.startGpoMatrix chan
    air_start_gpo_lines := fun chan => conf.startGpoLine chan - 1
    air_stop_gpi_matrices := fun chan => conf.stopGpiMatrix chan
    air_stop_gpi_lines := fun chan => conf.stopGpiLine chan - 1
    air_stop_gpo_matrices := fun chan => conf.stopGpoMatrix chan
    air_stop_gpo_lines := fun chan => conf.stopGpoLine chan - 1
    air_channel_gpio_types := fun chan => conf.gpioType chan }

/-- The condition of the constructor's "Fixup Main Log GPIO Channel Assignments". -/
def mainLog2Folded (conf : ChannelConf) : Bool :=
  (conf.card .MainLog1Channel == conf.card .MainLog2Channel &&
    conf.port .MainLog1Channel == conf.port .MainLog2Channel) ||
  decide (conf.card .MainLog2Channel < 0)

/-- Overwrite one entry of a per-channel table. -/
def setChan (f : Channel → Int) (chan : Channel) (v : Int) : Channel → Int :=
  fun c => if c = chan then v else f c

/-- The constructor's "Fixup Main Log GPIO Channel Assignments". -/
def fixupMainLogGpio (conf : ChannelConf) (t : GpioTables) : GpioTables :=
  if mainLog2Folded conf then
    { t with
      air_start_gpi_matrices := setChan t.air_start_gpi_matrices .MainLog2Channel (-1)
      air_start_gpo_matrices := setChan t.air_start_gpo_matrices .MainLog2Channel (-1)
      air_stop_gpi_matrices := setChan t.air_stop_gpi_matrices .MainLog2Channel
        (t.air_stop_gpi_matrices .MainLog1Channel)
      air_stop_gpo_matrices := setChan t.air_stop_gpo_matrices .MainLog2Channel (-1) }
  else t

/-- The GPIO tables as the constructor leaves them. -/
def initGpio (conf : ChannelConf) : GpioTables :=
  fixupMainLogGpio conf (loadGpioConfiguration conf)

/-- `QString().sprintf("GO %d %d <state> <length>!", matrix, line)`. -/
def goCommand (matrix line : Int) (tail : String) : String :=
  "GO " ++ toString matrix ++ " " ++ toString line ++ " " ++ tail

/-- The block repeated for each channel in the channel-started slots: the macros handed to
`air_event_player->exec`. -/
def startGpo (t : GpioTables) (chan : Channel) : List String :=
  if t.air_start_gpo_matrices chan ≥ 0 then
    match t.air_channel_gpio_types chan with
    | .LevelGpio =>
      [goCommand (t.air_start_gpo_matrices chan) (t.air_start_gpo_lines chan + 1) "1 0!"]
    | .EdgeGpio =>
      [goCommand (t.air_start_gpo_matrices chan) (t.air_start_gpo_lines chan + 1) "1 300!"]
  else []

/-- The block repeated for each channel in the channel-stopped slots. -/
def stopGpo (t : GpioTables) (chan : Channel) : List String :=
  if t.air_stop_gpo_matrices chan ≥ 0 then
    match t.air_channel_gpio_types chan with
    | .LevelGpio =>
      [goCommand (t.air_stop_gpo_matrices chan) (t.air_stop_gpo_lines chan + 1) "0 0!"]
    | .EdgeGpio =>
      [goCommand (t.air_stop_gpo_matrices chan) (t.air_stop_gpo_lines chan + 1) "1 300!"]
  else []

/-- `MainWidget::logChannelStartedData(id, mport, card, port)`: the timers afterwards and the
macros executed, `none` when the channel lock goes through a NULL timer. -/
def logChannelStartedData (RD_MAX_PORTS AIR_CHANNEL_LOCKOUT_INTERVAL : Int) (t : GpioTables)
    (ts : ChannelTimers) (id mport card port : Int) : Option (ChannelTimers × List String) :=
  match AssertChannelLockPort RD_MAX_PORTS AIR_CHANNEL_LOCKOUT_INTERVAL ts 0 card port with
  | none => none
  | some (false, ts1) => some (ts1, [])
  | some (true, ts1) =>
    some (ts1,
      match id with
      | 0 =>
        match mport with
        | 0 => startGpo t .MainLog1Channel
        | 1 => startGpo t .MainLog2Channel
        | _ => []
      | 1 => startGpo t .AuxLog1Channel
      | 2 => startGpo t .AuxLog2Channel
      | _ => [])

/-- `MainWidget::logChannelStoppedData(id, mport, card, port)`: the macros executed. -/
def logChannelStoppedData (t : GpioTables) (id mport _card _port : Int) : List String :=
  match id with
  | 0 =>
    match mport with
    | 0 => stopGpo t .MainLog1Channel
    | 1 => stopGpo t .MainLog2Channel
    | _ => []
  | 1 => stopGpo t .AuxLog1Channel
  | 2 => stopGpo t .AuxLog2Channel
  | _ => []

/-- `MainWidget::PanelChannel(mport)`. -/
def PanelChannel (mport : Int) : Channel :=
  match mport with
  | 0 => .SoundPanel1Channel
  | 1 => .SoundPanel2Channel
  | 2 => .SoundPanel3Channel
  | 3 => .SoundPanel4Channel
  | 4 => .SoundPanel5Channel
  | _ => .SoundPanel1Channel

/-- `MainWidget::panelChannelStartedData(mport, card, port)`. -/
def panelChannelStartedData (RD_MAX_PORTS AIR_CHANNEL_LOCKOUT_INTERVAL : Int) (t : GpioTables)
    (ts : ChannelTimers) (mport card port : Int) : Option (ChannelTimers × List String) :=
  match AssertChannelLockPort RD_MAX_PORTS AIR_CHANNEL_LOCKOUT_INTERVAL ts 0 card port with
  | none => none
  | some (false, ts1) => some (ts1, [])
  | some (true, ts1) => some (ts1, startGpo t (PanelChannel mport))

/-- `MainWidget::panelChannelStoppedData(mport, card, port)`. -/
def panelChannelStoppedData (t : GpioTables) (mport _card _port : Int) : List String :=
  stopGpo t (PanelChannel mport)

/-- The channel a log event `(id, mport)` addresses, as the slots switch on it. -/
def logChannel (id mport : Int) : Option Channel :=
  match id with
  | 0 =>
    match mport with
    | 0 => some .MainLog1Channel
    | 1 => some .MainLog2Channel
    | _ => none
  | 1 => some .AuxLog1Channel
  | 2 => some .AuxLog2Channel
  | _ => none

/-- The GPO trigger the specification describes for a channel start: a level-type GPIO is
asserted, an edge-type GPIO gets a 300 ms pulse; nothing when the matrix is negative. -/
def specStartRml (m l : Int) (ty : GpioType) : List String :=
  if m ≥ 0 then
    match ty with
    | .LevelGpio => ["GO " ++ toString m ++ " " ++ toString l ++ " 1 0!"]
    | .EdgeGpio => ["GO " ++ toString m ++ " " ++ toString l ++ " 1 300!"]
  else []

/-- The GPO trigger the specification describes for a channel stop: a level-type GPIO is
de-asserted, an edge-type GPIO gets a 300 ms pulse; nothing when the matrix is negative. -/
def specStopRml (m l : Int) (ty : GpioType) : List String :=
  if m ≥ 0 then
    match ty with
    | .LevelGpio => ["GO " ++ toString m ++ " " ++ toString l ++ " 0 0!"]
    | .EdgeGpio => ["GO " ++ toString m ++ " " ++ toString l ++ " 1 300!"]
  else []

/-- A configuration in which both main logs play on card 0, port 0, and every channel has
level-type GPIO on matrix 0, line 1. -/
def sharedPortConf : ChannelConf :=
  { startGpiMatrix := fun _ => 0, startGpiLine := fun _ => 1
    startGpoMatrix := fun _ => 0, startGpoLine := fun _ => 1
    stopGpiMatrix := fun _ => 0, stopGpiLine := fun _ => 1
    stopGpoMatrix := fun _ => 0, stopGpoLine := fun _ => 1
    gpioType := fun _ => .LevelGpio
    card := fun _ => 0, port := fun _ => 0 }

/-- Timers allocated for every channel, all of them idle. -/
def idleTimers : ChannelTimers := fun _ _ => some { active := false, interval := 0 }

/-- `StartButton::Mode`, the values the playout console names. -/
inductive Mode where
  | Stop
  | Play
  | AddFrom
  | AddTo
  | DeleteFrom
  | MoveFrom
  | MoveTo
  | CopyFrom
  | CopyTo
  deriving DecidableEq, Repr

/-- `RDAirPlayConf::ActionMode`, the values the playout console hands to its log lists. -/
inductive ActionMode where
  | Normal
  | AddTo
  | DeleteFrom
  | MoveFrom
  | MoveTo
  | CopyFrom
  | CopyTo
  deriving DecidableEq, Repr

/-- Flash colour of an action button: the two colour constants, or the colour the button was
built with. -/
inductive FlashColor where
  | unset
  | BUTTON_FROM_BACKGROUND_COLOR
  | BUTTON_TO_BACKGROUND_COLOR
  deriving DecidableEq, Repr

/-- The part of an `RDPushButton` that `setFlashColor` and `setFlashingEnabled` write. -/
structure FlashButton where
  flashing : Bool
  flash_color : FlashColor
  deriving DecidableEq, Repr

def FlashButton.setFlashingEnabled (b : FlashButton) (state : Bool) : FlashButton :=
  { b with flashing := state }

def FlashButton.setFlashColor (b : FlashButton) (color : FlashColor) : FlashButton :=
  { b with flash_color := color }

/-- The part of `MainWidget` the action buttons work on. `air_log_list` and `air_button_list`
hold the action mode last given to each log list and to the button log, `air_panel` the one
given to the sound panel (`none` when `air_panel` is NULL), `air_log` the lines of each log
machine. -/
structure ActionState where
  air_action_mode : Mode
  air_add_button : FlashButton
  air_delete_button : FlashButton
  air_move_button : FlashButton
  air_copy_button : FlashButton
  air_log_list : List ActionMode
  air_button_list : ActionMode
  air_panel : Option ActionMode
  air_clear_filter : Bool
  air_add_filter : String
  air_add_cart : Nat
  air_log : List (List Nat)
  deriving DecidableEq, Repr

/-- Give every log list, the button log and the sound panel the same action mode. -/
def ActionState.setListModes (w : ActionState) (m : ActionMode) : ActionState :=
  { w with
    air_log_list := w.air_log_list.map (fun _ => m)
    air_button_list := m
    air_panel := w.air_panel.map (fun _ => m) }

/-- Set the flashing of the four action buttons. -/
def ActionState.setFlashing (w : ActionState) (add delete move copy : Bool) : ActionState :=
  { w with
    air_add_button := w.air_add_button.setFlashingEnabled add
    air_delete_button := w.air_delete_button.setFlashingEnabled delete
    air_move_button := w.air_move_button.setFlashingEnabled move
    air_copy_button := w.air_copy_button.setFlashingEnabled copy }

/-- The `AddFrom` case of `SetActionMode`, from the assignment of `air_action_mode` up to the
point where the cart picker is opened. The collection of service names, which is not used
afterwards, is left out. -/
def enterAddFrom (w : ActionState) : ActionState :=
  let w := { w with air_action_mode := Mode.AddFrom }
  let w := if w.air_clear_filter then { w with air_add_filter := "" } else w
  let w := { w with air_add_cart := 0 }
  let w := { w with
    air_add_button := w.air_add_button.setFlashColor .BUTTON_FROM_BACKGROUND_COLOR }
  let w := w.setFlashing true false false false
  w.setListModes .Normal

/-- `MainWidget::SetActionMode(mode)` for the modes whose case makes no nested call (every
mode but `AddFrom`). -/
def SetActionModeDirect (mode : Mode) (w : ActionState) : ActionState :=
  if w.air_action_mode = mode then w
  else
    let w := { w with air_action_mode := mode }
    match mode with
    | .Stop => (w.setFlashing false false false false).setListModes .Normal
    | .AddTo =>
      let w := { w with
        air_add_button := w.air_add_button.setFlashColor .BUTTON_TO_BACKGROUND_COLOR }
      (w.setFlashing true false false false).setListModes .AddTo
    | .DeleteFrom =>
      let w := { w with
        air_delete_button := w.air_delete_button.setFlashColor .BUTTON_FROM_BACKGROUND_COLOR }
      (w.setFlashing false true false false).setListModes .DeleteFrom
    | .MoveFrom =>
      let w := { w with
        air_move_button := w.air_move_button.setFlashColor .BUTTON_FROM_BACKGROUND_COLOR }
      (w.setFlashing false false true false).setListModes .MoveFrom
    | .MoveTo =>
      let w := { w with
        air_move_button := w.air_move_button.setFlashColor .BUTTON_TO_BACKGROUND_COLOR }
      (w.setFlashing false false true false).setListModes .MoveTo
    | .CopyFrom =>
      let w := { w with
        air_copy_button := w.air_copy_button.setFlashColor .BUTTON_FROM_BACKGROUND_COLOR }
      (w.setFlashing false false false true).setListModes .CopyFrom
    | .CopyTo =>
      let w := { w with
        air_move_button := w.air_move_button.setFlashColor .BUTTON_TO_BACKGROUND_COLOR }
      (w.setFlashing false false false true).setListModes .CopyTo
    | _ => w

/-- `MainWidget::SetActionMode(mode)`. The cart picker opened in the `AddFrom` case answers
with `picked`: whether a cart was chosen, and the value it leaves in `air_add_cart`. The two
nested calls of the `AddFrom` case are to modes that make no further call. -/
def SetActionMode (picked : Bool × Nat) (mode : Mode) (w : ActionState) : ActionState :=
  match mode with
  | .AddFrom =>
    if w.air_action_mode = Mode.AddFrom then w
    else
      let w := enterAddFrom w
      let w := { w with air_add_cart := picked.2 }
      if picked.1 then SetActionModeDirect .AddTo w
      else SetActionModeDirect .Stop w
  | m => SetActionModeDirect m w

/-- `MainWidget::addButtonData()`. -/
def addButtonData (picked : Bool × Nat) (w : ActionState) : ActionState :=
  if w.air_action_mode = .AddFrom ∨ w.air_action_mode = .AddTo then
    SetActionMode picked .Stop w
  else
    SetActionMode picked .AddFrom w

/-- `MainWidget::deleteButtonData()`. -/
def deleteButtonData (picked : Bool × Nat) (w : ActionState) : ActionState :=
  if w.air_action_mode = .DeleteFrom then
    SetActionMode picked .Stop w
  else
    SetActionMode picked .DeleteFrom w

/-- `MainWidget::moveButtonData()`. -/
def moveButtonData (picked : Bool × Nat) (w : ActionState) : ActionState :=
  if w.air_action_mode = .MoveFrom ∨ w.air_action_mode = .MoveTo then
    SetActionMode picked .Stop w
  else
    SetActionMode picked .MoveFrom w

/-- `MainWidget::copyButtonData()`. -/
def copyButtonData (picked : Bool × Nat) (w : ActionState) : ActionState :=
  if w.air_action_mode = .CopyFrom ∨ w.air_action_mode = .CopyTo then
    SetActionMode picked .Stop w
  else
    SetActionMode picked .CopyFrom w

/-- A console in the middle of a move, after the source line was picked. -/
def movingConsole : ActionState :=
  { air_action_mode := .MoveTo
    air_add_button := ⟨false, .unset⟩
    air_delete_button := ⟨false, .unset⟩
    air_move_button := ⟨true, .BUTTON_TO_BACKGROUND_COLOR⟩
    air_copy_button := ⟨false, .unset⟩
    air_log_list := [.MoveTo, .MoveTo, .MoveTo]
    air_button_list := .MoveTo
    air_panel := some .MoveTo
    air_clear_filter := true
    air_add_filter := "jingle"
    air_add_cart := 0
    air_log := [[10001, 10002], [], [30001]] }

/-- `RDAirPlayConf::ExitCode`. -/
inductive AirExitCode where
  | ExitClean
  | ExitDirty
  deriving DecidableEq, Repr

/-- The part of the playout console that startup and shutdown work on: the exit code
persisted through `rda->airplayConf()`, the exit code read at startup, whether the instance
lock is held, and whether the process is still running. -/
structure Console where
  exit_code : AirExitCode
  rdairplay_previous_exit_code : AirExitCode
  air_lock_held : Bool
  running : Bool
  deriving DecidableEq, Repr

/-- The constructor of `MainWidget`, as far as the exit code goes: the instance lock is
taken, the stored exit code is remembered and the persisted one is set to dirty. -/
def MainWidget.startup (stored : AirExitCode) : Console :=
  { exit_code := .ExitDirty
    rdairplay_previous_exit_code := stored
    air_lock_held := true
    running := true }

/-- Modelled from the spec: the password prompt `RDGetPasswd`, which is not part of the sources
at hand. A confirmed prompt stores the text typed in `passwd`; a cancelled prompt (`none`)
leaves `passwd` as it was, the empty string. -/
def RDGetPasswd.exec (entered : Option String) : String :=
  match entered with
  | some typed => typed
  | none => ""

/-- The tail shared by both exits of `closeEvent`: mark the session clean, release the
instance lock, `exit(0)`. -/

def Console.exitClean (c : Console) : Console :=
  { c with exit_code := .ExitClean, air_lock_held := false, running := false }

/-- `MainWidget::closeEvent(e)`. `exitPasswordValid` is the check of `RDAirPlayConf`,
`entered` what the operator does with the password prompt, `answer_yes` whether the
"Exit RDAirPlay?" question is answered with Yes. -/
def MainWidget.closeEvent (exitPasswordValid : String → Bool) (entered : Option String)
    (answer_yes : Bool) (c : Console) : Console :=
  if !exitPasswordValid "" then
    let passwd := RDGetPasswd.exec entered
    if !exitPasswordValid passwd then c
    else c.exitClean
  else
    if !answer_yes then c
    else c.exitClean

/-- What can happen to a running console: a close request, or any other slot (none of which
writes the exit code). -/
inductive ConsoleEvent where
  | close (entered : Option String) (answer_yes : Bool)
  | otherSlot
  deriving DecidableEq, Repr

/-- One event; a process that has exited handles no more events. -/
def Console.step (exitPasswordValid : String → Bool) (c : Console) (ev : ConsoleEvent) :
    Console :=
  if !c.running then c
  else
    match ev with
    | .close entered answer_yes => MainWidget.closeEvent exitPasswordValid entered answer_yes c
    | .otherSlot => c

/-- A session: startup followed by a sequence of events. -/
def Console.session (exitPasswordValid : String → Bool) (stored : AirExitCode)
    (evs : List ConsoleEvent) : Console :=
  evs.foldl (Console.step exitPasswordValid) (MainWidget.startup stored)

/-- A close request that gets through: the password typed is valid when one is configured,
the exit is confirmed when none is. -/
def closeGranted (exitPasswordValid : String → Bool) (entered : Option String)
    (answer_yes : Bool) : Bool :=
  if exitPasswordValid "" then answer_yes
  else
    match entered with
    | some typed => exitPasswordValid typed
    | none => false

/-- Invariant of a session: the persisted exit code is dirty exactly while the console runs. -/
def Console.inv (c : Console) : Prop :=
  (c.running = true ∧ c.exit_code = .ExitDirty) ∨
  (c.running = false ∧ c.exit_code = .ExitClean)

/-- The exit password check of a console whose exit password is "s3cret". -/
def secretValid (passwd : String) : Bool := passwd == "s3cret"

/-- `RDAirPlayConf::StartMode`. -/
inductive StartMode where
  | StartEmpty
  | StartPrevious
  | StartSpecified
  deriving DecidableEq, Repr

/-- The startup request of one log machine: `air_start_logname[i]` (`none` for a null
`QString`), `air_start_line[i]` and `air_start_start[i]`. -/
structure LogStart where
  air_start_logname : Option QString
  air_start_line : Int
  air_start_start : Bool
  deriving DecidableEq, Repr

/-- Qt library: `QString::isEmpty()`, true for a null string as well. -/
def isEmptyName (name : Option QString) : Bool :=
  match name with
  | none => true
  | some s => s.isEmpty

/-- The settings of `RDAirPlayConf` that `ripcConnectedData` reads for log machine `i`. -/
structure LogStartConf where
  startMode : Nat → StartMode
  currentLog : Nat → QString
  logName : Nat → QString
  logCurrentLine : Nat → Int
  autoRestart : Nat → Bool
  logRunning : Nat → Bool

/-- `QString().sprintf("--log%u", i+1)`. -/
def logSwitchKey (i : Nat) : QString :=
  ("--log" ++ toString (i + 1)).toList

/-- The body of the constructor's loop over the characters of a `--logN` value: what a colon
at position `k` does to the request. -/
def readLogColon (RDDateTimeDecode : QString → Option QString) (toInt : QString → Int)
    (value : QString) (st : LogStart) (k : Nat) : LogStart :=
  if value[k]? = some ':' then
    let st := { st with air_start_logname := RDDateTimeDecode (value.take k) }
    let lineno := value.drop (k + 1)
    if lineno.getLast? = some '+' then
      { st with air_start_start := true, air_start_line := toInt lineno.dropLast }
    else
      { st with air_start_line := toInt lineno }
  else st

/-- The constructor's "Read Command Options" loop for log machine `i`, over the command
switches as `(key, value)` pairs (the values being non-null strings). -/
def readLogOption (RDDateTimeDecode : QString → Option QString) (toInt : QString → Int)
    (switches : List (QString × QString)) (i : Nat) : LogStart :=
  switches.foldl
    (fun st kv =>
      if kv.1 = logSwitchKey i then
        (List.range kv.2.length).foldl (readLogColon RDDateTimeDecode toInt kv.2)
          { st with air_start_logname := some kv.2 }
      else st)
    { air_start_logname := none, air_start_line := 0, air_start_start := false }

/-- The "Load Initial Logs" step of `MainWidget::ripcConnectedData` for log machine `i`, up
to the point where the Load Log macro is sent. -/
def ripcConnectedLog (conf : LogStartConf) (RDDateTimeDecode : QString → Option QString)
    (rdairplay_previous_exit_code : AirExitCode) (i : Nat) (st : LogStart) : LogStart :=
  if st.air_start_logname.isNone then
    match conf.startMode i with
    | .StartEmpty => st
    | .StartPrevious =>
      let st := { st with air_start_logname := RDDateTimeDecode (conf.currentLog i) }
      if !isEmptyName st.air_start_logname then
        if rdairplay_previous_exit_code = .ExitDirty then
          let st := { st with air_start_line := conf.logCurrentLine i }
          if st.air_start_line ≥ (0 : Int) then
            { st with air_start_start := conf.autoRestart i && conf.logRunning i }
          else st
        else
          { st with air_start_line := 0, air_start_start := false }
      else st
    | .StartSpecified =>
      let st := { st with air_start_logname := RDDateTimeDecode (conf.logName i) }
      if !isEmptyName st.air_start_logname then
        if rdairplay_previous_exit_code = .ExitDirty then
          if st.air_start_logname.getD [] = conf.currentLog i then
            let st := { st with air_start_line := conf.logCurrentLine i }
            if st.air_start_line ≥ (0 : Int) then
              { st with air_start_start := conf.autoRestart i && conf.logRunning i }
            else
              { st with air_start_line := 0, air_start_start := false }
          else st
        else st
      else st
  else st

/-- The Load Log macro `ripcConnectedData` sends for log machine `i`: machine number and log
name, when the name is not empty and the log exists. -/
def ripcConnectedRml (logExists : QString → Bool) (i : Nat) (st : LogStart) :
    Option (Nat × QString) :=
  if !isEmptyName st.air_start_logname then
    if logExists (st.air_start_logname.getD []) then some (i + 1, st.air_start_logname.getD [])
    else none
  else none

/-- `MainWidget::ripcConnectedData`: the startup requests of all log machines afterwards and
the Load Log macros sent. -/
def ripcConnectedData (RDAIRPLAY_LOG_QUANTITY : Nat) (conf : LogStartConf)
    (RDDateTimeDecode : QString → Option QString) (logExists : QString → Bool)
    (rdairplay_previous_exit_code : AirExitCode) (air_start : Nat → LogStart) :
    (Nat → LogStart) × List (Nat × QString) :=
  let after : Nat → LogStart := fun i =>
    if i < RDAIRPLAY_LOG_QUANTITY then
      ripcConnectedLog conf RDDateTimeDecode rdairplay_previous_exit_code i (air_start i)
    else air_start i
  (after, (List.range RDAIRPLAY_LOG_QUANTITY).filterMap
    (fun i => ripcConnectedRml logExists i (after i)))

/-- A stored configuration that resumes the previous log of every machine: the log "morning"
was running at line 4 with auto-restart on. -/
def resumeConf : LogStartConf :=
  { startMode := fun _ => .StartPrevious
    currentLog := fun _ => "morning".toList
    logName := fun _ => []
    logCurrentLine := fun _ => 4
    autoRestart := fun _ => true
    logRunning := fun _ => true }

/-- The part of an `RDBusyBar` that `activate` and `strobe` work on: the position of the
segment, whether the label is shown, the strobe timer, and the geometry last given to the
label by `Update()` (x, y, width, height). -/
structure RDBusyBar where
  bar_pos : Int
  bar_label_visible : Bool
  bar_timer : QTimer
  bar_label_geometry : Int × Int × Int × Int
  deriving DecidableEq, Repr

/-- `RDBusyBar::Update()`, for a frame of width `w`, height `h` and frame width `fw`. -/
def RDBusyBar.Update (w h fw : Int) (b : RDBusyBar) : RDBusyBar :=
  { b with bar_label_geometry :=
      ((b.bar_pos * w).tdiv 5 + fw, fw, (w - 2 * fw).tdiv 5, h - 2 * fw) }

/-- `RDBusyBar::activate(state)`. -/
def RDBusyBar.activate (w h fw : Int) (state : Bool) (b : RDBusyBar) : RDBusyBar :=
  if state then
    let b := b.Update w h fw
    { b with bar_label_visible := true, bar_timer := b.bar_timer.start 200 }
  else
    { b with bar_label_visible := false, bar_timer := b.bar_timer.stop }

/-- `RDBusyBar::strobe()`. -/
def RDBusyBar.strobe (w h fw : Int) (b : RDBusyBar) : RDBusyBar :=
  let b := { b with bar_pos := b.bar_pos + 1 }
  let b := { b with bar_pos := b.bar_pos.tmod 5 }
  if b.bar_label_visible then b.Update w h fw else b

/-- One period of the strobe timer: its `timeout()` reaches `strobe()` only while the timer
is active. -/
def RDBusyBar.tick (w h fw : Int) (b : RDBusyBar) : RDBusyBar :=
  if b.bar_timer.active then b.strobe w h fw else b

/-- `n` periods of the strobe timer. -/
def RDBusyBar.ticks (w h fw : Int) : Nat → RDBusyBar → RDBusyBar
  | 0, b => b
  | n + 1, b => RDBusyBar.ticks w h fw n (b.tick w h fw)

/-- A busy bar as the constructor leaves it. -/
def RDBusyBar.init : RDBusyBar :=
  { bar_pos := 0, bar_label_visible := false, bar_timer := { active := false, interval := 0 },
    bar_label_geometry := (0, 0, 0, 0) }

/-- `RDCoreApplication::syslog(priority, fmt, ...) const`: the priority handed to `vsyslog`,
`facility` being `app_config->syslogFacility()`. An `int` is given by its 32-bit pattern, on
which `&` and `|` work bit by bit and `<<` drops the bits shifted out. -/
def RDCoreApplication.syslog (facility : Nat) (priority : Nat) : Nat :=
  if priority &&& 248 = 0 then priority ||| ((facility <<< 3) % 4294967296) else priority

/-- The static overload `RDCoreApplication::syslog(config, priority, fmt, ...)`: the priority
handed to `vsyslog`, `facility` being `config->syslogFacility()`. -/
def RDCoreApplication.syslogWithConfig (facility : Nat) (priority : Nat) : Nat :=
  if priority &&& 248 = 0 then priority ||| ((facility <<< 3) % 4294967296) else priority

/-- Modelled from the spec: the text validator `RDTextValidator`, which is not part of the
sources at hand. It holds a set of banned characters, to which `addBannedChar` adds, and the
input field it is installed on rejects every text that contains a banned character. -/
structure RDTextValidator where
  banned_chars : List QChar
  deriving DecidableEq, Repr

/-- Modelled from the spec: the constructor `RDTextValidator::RDTextValidator()`, which is
not part of the sources at hand. The spec has the name field reject every punctuation and
symbol character, the quotes among them, and `AddClock` itself adds neither the single quote
nor the backtick: the validator bans the quote characters on its own, the double quote (34),
the single quote (39) and the backtick (96). -/
def RDTextValidator.new : RDTextValidator :=
  { banned_chars := [Char.ofNat 34, Char.ofNat 39, Char.ofNat 96] }

/-- Modelled from the spec: `RDTextValidator::addBannedChar(c)`. -/
def RDTextValidator.addBannedChar (v : RDTextValidator) (c : QChar) : RDTextValidator :=
  { banned_chars := v.banned_chars ++ [c] }

/-- Modelled from the spec: `RDTextValidator::validate`, true when the text is acceptable,
that is, free of banned characters. -/
def RDTextValidator.validate (v : RDTextValidator) (input : QString) : Bool :=
  input.all (fun c => !v.banned_chars.contains c)

/-- The characters `AddClock::AddClock` hands to `addBannedChar`, in source order. -/
def AddClock.bannedChars : List QChar :=
  ['(', ')', '!', '@', '#', '$', '%', '^', '&', '*', Char.ofNat 123, Char.ofNat 125, '[', ']',
   ':', ';', Char.ofNat 34, '<', '>', '.', ',', Char.ofNat 92, '-', '_', '/', '+', '=', '~',
   '?', '|']

/-- The validator `AddClock::AddClock` installs on the name field: the validator as its own
constructor builds it (`built`, which is `RDTextValidator.new`), with the banned characters
of the dialog added. -/
def AddClock.newValidator (built : RDTextValidator) : RDTextValidator :=
  AddClock.bannedChars.foldl RDTextValidator.addBannedChar built

/-- The part of the Add Clock dialog that the name field and the OK button work on: the text
of `clock_name_edit`, the string `*clock_name` of the caller, and the code given to `done`
(`none` while the dialog is open). -/
structure AddClock where
  validator : RDTextValidator
  clock_name_edit : QString
  clock_name : QString
  result : Option Int
  deriving DecidableEq, Repr

/-- `AddClock::AddClock(logname, parent)`: the validator is installed and the field is filled
with `*clock_name`. -/
def AddClock.new (built : RDTextValidator) (logname : QString) : AddClock :=
  { validator := AddClock.newValidator built
    clock_name_edit := logname
    clock_name := logname
    result := none }

/-- Qt library: the operator edits the name field so that it would read `candidate`; a line
edit with a validator and a maximum length keeps its text unless the new text is acceptable
and within the length. -/
def AddClock.edit (candidate : QString) (d : AddClock) : AddClock :=
  if d.validator.validate candidate && decide (candidate.length ≤ 58) then
    { d with clock_name_edit := candidate }
  else d

/-- `AddClock::okData()`. -/
def AddClock.okData (d : AddClock) : AddClock :=
  { d with clock_name := d.clock_name_edit, result := some 0 }

/-- `AddClock::cancelData()`. -/
def AddClock.cancelData (d : AddClock) : AddClock :=
  { d with result := some (-1) }

/-- The ASCII punctuation and symbol characters: the printable ASCII characters other than
the space, the letters and the digits. -/
def isAsciiPunctuation (c : QChar) : Bool :=
  decide (33 ≤ c.toNat) && decide (c.toNat ≤ 126) && !c.isAlphanum

/-- The flashing of the Add, Delete, Move and Copy buttons, in this order. -/
def ActionState.flashing (w : ActionState) : Bool × Bool × Bool × Bool :=
  (w.air_add_button.flashing, w.air_delete_button.flashing, w.air_move_button.flashing,
    w.air_copy_button.flashing)

/-- A console at rest, as it stands before any action button was used. -/
def idleConsole : ActionState :=
  { air_action_mode := .Stop
    air_add_button := ⟨false, .unset⟩
    air_delete_button := ⟨false, .unset⟩
    air_move_button := ⟨false, .unset⟩
    air_copy_button := ⟨false, .unset⟩
    air_log_list := [.Normal, .Normal, .Normal]
    air_button_list := .Normal
    air_panel := some .Normal
    air_clear_filter := false
    air_add_filter := ""
    air_add_cart := 0
    air_log := [[10001, 10002], [], []] }

/-- Main Log 1 and Main Log 2 on card 0, port 0, with stop GPI on matrix 0 line 1 for Main
Log 1 and on matrix 1 line 2 for Main Log 2; every other channel on its own card. -/
def foldedStopConf : ChannelConf :=
  { startGpiMatrix := fun _ => 0, startGpiLine := fun _ => 3
    startGpoMatrix := fun _ => 0, startGpoLine := fun _ => 1
    stopGpiMatrix := fun chan => if chan = .MainLog2Channel then 1 else 0
    stopGpiLine := fun chan => if chan = .MainLog2Channel then 2 else 1
    stopGpoMatrix := fun _ => 0, stopGpoLine := fun _ => 1
    gpioType := fun _ => .LevelGpio
    card := fun chan => if chan = .MainLog1Channel ∨ chan = .MainLog2Channel then 0 else 1
    port := fun _ => 0 }

/-- Qt library: a `QTime`, by its milliseconds since midnight; a null time holds -1. -/
structure QTime where
  mds : Int
  deriving DecidableEq, Repr

/-- Qt library: the null `QTime`, as the default constructor builds it. -/
def QTime.null : QTime := { mds := -1 }

/-- Qt library: `QTime::isValid()`. -/
def QTime.isValid (t : QTime) : Bool :=
  decide (0 ≤ t.mds) && decide (t.mds < 86400000)

/-- Qt library: `QTime::addMSecs(ms)`, which wraps at midnight and keeps an invalid time
null. -/
def QTime.addMSecs (t : QTime) (ms : Int) : QTime :=
  if t.isValid then { mds := (t.mds + ms) % 86400000 } else QTime.null

/-- `RDLogLine::Type`. -/
inductive LineType where
  | Cart
  | Marker
  | Macro
  | OpenBracket
  | CloseBracket
  | Chain
  | Track
  | MusicLink
  | TrafficLink
  | UnknownType
  deriving DecidableEq, Repr

/-- The part of an `RDLogLine` that the scan of `transportChangedData` reads: its type, its
actual start time, its effective length and the last start position of its play deck. -/
structure RDLogLine where
  type : LineType
  startTime : QTime
  effectiveLength : Int
  lastStartPosition : Int
  deriving DecidableEq, Repr

/-- The projected end of a running cart, as `transportChangedData` computes it:
`startTime(Actual).addMSecs(effectiveLength() - lastStartPosition())`. -/
def RDLogLine.projectedEnd (ll : RDLogLine) : QTime :=
  ll.startTime.addMSecs (ll.effectiveLength - ll.lastStartPosition)

/-- The variables of the scan of `transportChangedData`: the line chosen so far and the
latest end time seen. -/
structure PieScan where
  line : Int
  end_time : QTime
  deriving DecidableEq, Repr

/-- The body of the loop of `transportChangedData` over the running lines, for the running
line `l = lines[i]`; `logLine` is `air_log[0]->logLine` (`none` for NULL). -/
def pieScanStep (logLine : Int → Option RDLogLine) (st : PieScan) (l : Int) : PieScan :=
  match logLine l with
  | none => st
  | some logline =>
    match logline.type with
    | .Cart =>
      if logline.projectedEnd.mds > st.end_time.mds then
        { line := l, end_time := logline.projectedEnd }
      else st
    | .Macro => { st with line := l }
    | _ => st

/-- The first part of `MainWidget::transportChangedData()`: the line chosen as the target of
the pie counter among the running lines `lines` (the list filled by `runningEvents`). -/
def pieTargetLine (logLine : Int → Option RDLogLine) (lines : List Int) : Int :=
  (lines.foldl (pieScanStep logLine) { line := 0, end_time := QTime.null }).line

/-- The projected end of line `l` in milliseconds since midnight, -1 when there is none. -/
def lineEnd (logLine : Int → Option RDLogLine) (l : Int) : Int :=
  match logLine l with
  | none => -1
  | some logline => logline.projectedEnd.mds

/-- Line `l` is a Cart line. -/
def isCartLine (logLine : Int → Option RDLogLine) (l : Int) : Bool :=
  match logLine l with
  | none => false
  | some logline => logline.type = .Cart

/-- Line `l` has a valid actual start time. -/
def hasValidStart (logLine : Int → Option RDLogLine) (l : Int) : Bool :=
  match logLine l with
  | none => false
  | some logline => logline.startTime.isValid

/-- Line `l` is a Macro line. -/
def isMacroLine (logLine : Int → Option RDLogLine) (l : Int) : Bool :=
  match logLine l with
  | none => false
  | some logline => logline.type = .Macro

/-- A log in which line 3 is a running macro and line 4 a cart started at 12:00:00 with 30
seconds to play; line 5 is a cart started at 12:00:10 with 60 seconds to play. -/
def sampleLog (l : Int) : Option RDLogLine :=
  if l = 3 then some { type := .Macro, startTime := ⟨43200000⟩, effectiveLength := 0,
                       lastStartPosition := 0 }
  else if l = 4 then some { type := .Cart, startTime := ⟨43200000⟩, effectiveLength := 30000,
                            lastStartPosition := 0 }
  else if l = 5 then some { type := .Cart, startTime := ⟨43210000⟩, effectiveLength := 60000,
                            lastStartPosition := 0 }
  else none

/-- Qt library: a `QRect`, by `x()`, `y()`, `width()` and `height()`. -/
structure QRect where
  x : Int
  y : Int
  width : Int
  height : Int
  deriving DecidableEq, Repr

/-- `RDSlider::Orientation`. -/
inductive Orientation where
  | Up
  | Down
  | Left
  | Right
  deriving DecidableEq, Repr

/-- The signals `RDSlider::mouseMoveEvent` emits itself. -/
inductive SliderSignal where
  | valueChanged (value : Int)
  | sliderMoved (value : Int)
  deriving DecidableEq, Repr

/-- The part of an `RDSlider` that `mouseMoveEvent` works on: the members of `RDSlider`, the
value and range kept by `QAbstractSlider`, the geometry of the widget, and the signals
emitted so far. -/
structure RDSlider where
  rdslider_orient : Orientation
  rdslider_moving : Bool
  tracking_enabled : Bool
  deferred_change : Bool
  curr_knob : QRect
  prev_knob : QRect
  base_x : Int
  base_y : Int
  value : Int
  minimum : Int
  maximum : Int
  geometry : QRect
  emitted : List SliderSignal
  deriving DecidableEq, Repr

/-- Qt library: `QAbstractSlider::setValue(v)`, which bounds the value to the range; the
signals it emits on its own are left out. -/
def RDSlider.QAbstractSlider_setValue (s : RDSlider) (v : Int) : RDSlider :=
  { s with value := max s.minimum (min s.maximum v) }

/-- `emit` of a signal. -/
def RDSlider.emit (s : RDSlider) (sig : SliderSignal) : RDSlider :=
  { s with emitted := s.emitted ++ [sig] }

/-- The block `mouseMoveEvent` repeats in each case: `if(value()!=v)` the value is set and
either announced or marked as a deferred change. -/
def RDSlider.changeValue (s : RDSlider) (v : Int) : RDSlider :=
  if s.value ≠ v then
    let s := s.QAbstractSlider_setValue v
    if s.tracking_enabled then s.emit (.valueChanged s.value)
    else { s with deferred_change := true }
  else s

/-- The tail `mouseMoveEvent` repeats in each case: `emit sliderMoved(value())`. -/
def RDSlider.moved (s : RDSlider) : RDSlider :=
  s.emit (.sliderMoved s.value)

/-- `RDSlider::mouseMoveEvent(mouse)`, for a mouse position `(mouse_x, mouse_y)`. Integer
division truncates toward zero. The arithmetic is exact, which is what the 32-bit `int`s of
the source give while no intermediate result overflows; the divisor is the extent of the
widget less that of the knob (or its negative), and the source cannot divide when it is zero,
so the model stands for a knob smaller than the widget. -/
def RDSlider.mouseMoveEvent (s : RDSlider) (mouse_x mouse_y : Int) : RDSlider :=
  if s.rdslider_moving then
    let s := { s with prev_knob := s.curr_knob }
    if s.rdslider_orient = .Up ∨ s.rdslider_orient = .Down then
      if mouse_y < 0 then
        let s := { s with curr_knob := ⟨s.curr_knob.x, 0, s.curr_knob.width, s.curr_knob.height⟩ }
        if s.prev_knob ≠ s.curr_knob then
          match s.rdslider_orient with
          | .Up => (s.changeValue s.maximum).moved
          | .Down => (s.changeValue s.minimum).moved
          | _ => s.moved
        else s
      else if mouse_y > s.geometry.height then
        let s := { s with curr_knob :=
          ⟨s.curr_knob.x, s.geometry.height - s.curr_knob.height, s.curr_knob.width,
            s.curr_knob.height⟩ }
        if s.prev_knob ≠ s.curr_knob then
          match s.rdslider_orient with
          | .Up => (s.changeValue s.minimum).moved
          | .Down => (s.changeValue s.maximum).moved
          | _ => s.moved
        else s
      else
        let curr_y := s.curr_knob.y - s.base_y + mouse_y
        let curr_y := if curr_y < 0 then 0 else curr_y
        let curr_y :=
          if curr_y > s.geometry.height - s.curr_knob.height then
            s.geometry.height - s.curr_knob.height
          else curr_y
        let s := { s with
          curr_knob := ⟨s.curr_knob.x, curr_y, s.curr_knob.width, s.curr_knob.height⟩
          base_y := mouse_y }
        match s.rdslider_orient with
        | .Up =>
          (s.changeValue
            (((s.maximum - s.minimum) *
                (s.geometry.height - s.curr_knob.y - s.curr_knob.height)).tdiv
              (s.geometry.height - s.curr_knob.height) + s.minimum)).moved
        | .Down =>
          (s.changeValue
            (((s.minimum - s.maximum) * s.curr_knob.y + s.curr_knob.height
                - s.geometry.height).tdiv
              (s.curr_knob.height - s.geometry.height) + s.minimum)).moved
        | _ => s.moved
    else
      if mouse_x < 0 then
        let s := { s with curr_knob := ⟨0, s.curr_knob.y, s.curr_knob.width, s.curr_knob.height⟩ }
        if s.prev_knob ≠ s.curr_knob then
          match s.rdslider_orient with
          | .Left => (s.changeValue s.maximum).moved
          | .Right => (s.changeValue s.minimum).moved
          | _ => s.moved
        else s
      else if mouse_x > s.geometry.width then
        let s := { s with curr_knob :=
          ⟨s.geometry.width - s.curr_knob.width, s.curr_knob.y, s.curr_knob.width,
            s.curr_knob.height⟩ }
        if s.prev_knob ≠ s.curr_knob then
          match s.rdslider_orient with
          | .Left => (s.changeValue s.minimum).moved
          | .Right => (s.changeValue s.maximum).moved
          | _ => s.moved
        else s
      else
        let curr_x := s.curr_knob.x - s.base_x + mouse_x
        let curr_x := if curr_x < 0 then 0 else curr_x
        let curr_x :=
          if curr_x > s.geometry.width - s.curr_knob.width then
            s.geometry.width - s.curr_knob.width
          else curr_x
        let s := { s with
          curr_knob := ⟨curr_x, s.curr_knob.y, s.curr_knob.width, s.curr_knob.height⟩
          base_x := mouse_x }
        match s.rdslider_orient with
        | .Left =>
          (s.changeValue
            (((s.maximum - s.minimum) *
                (s.geometry.width - s.curr_knob.x - s.curr_knob.width)).tdiv
              (s.geometry.width - s.curr_knob.width) + s.minimum)).moved
        | .Right =>
          (s.changeValue
            (((s.minimum - s.maximum) * s.curr_knob.x + s.curr_knob.width
                - s.geometry.width).tdiv
              (s.curr_knob.width - s.geometry.width) + s.minimum)).moved
        | _ => s.moved
  else s

/-- A slider 200 pixels wide with range 0..100 and a knob 20 pixels wide standing at x = 50,
its value 28, in the middle of a drag that began at mouse position x = 60. -/
def draggedSlider (orient : Orientation) : RDSlider :=
  { rdslider_orient := orient
    rdslider_moving := true
    tracking_enabled := true
    deferred_change := false
    curr_knob := ⟨50, 5, 20, 10⟩
    prev_knob := ⟨50, 5, 20, 10⟩
    base_x := 60
    base_y := 10
    value := 28
    minimum := 0
    maximum := 100
    geometry := ⟨0, 0, 200, 20⟩
    emitted := [] }

/-- Qt library: `QString::left(n)`. -/
def QString.left (n : Nat) (s : QString) : QString := s.take n

/-- Qt library: `QString::mid(pos, n)`. -/
def QString.mid (pos n : Nat) (s : QString) : QString := (s.drop pos).take n

/-- Qt library: `QString::right(n)`. -/
def QString.right (n : Nat) (s : QString) : QString := s.drop (s.length - n)

/-- Qt library: `QChar::isSpace()`, the white space characters of Unicode. -/
def QChar.isSpace (c : QChar) : Bool :=
  let n := c.toNat
  (9 ≤ n && n ≤ 13) || n == 32 || n == 133 || n == 160 || n == 5760 ||
  (8192 ≤ n && n ≤ 8202) || n == 8232 || n == 8233 || n == 8239 || n == 8287 || n == 12288

/-- Qt library: `QString::trimmed()`. -/
def QString.trimmed (s : QString) : QString :=
  ((s.dropWhile QChar.isSpace).reverse.dropWhile QChar.isSpace).reverse

/-- The value of a string of decimal digits, `none` when a character is not a digit. -/
def parseDigits : QString → Nat → Option Nat
  | [], acc => some acc
  | c :: cs, acc => if c.isDigit then parseDigits cs (10 * acc + (c.toNat - 48)) else none

/-- Qt library: `QString::toInt(&ok)` in base 10, `none` when `ok` is false: white space
around the number is ignored, a sign may precede the digits, and the value has to fit an
`int`. -/
def QString.toInt (s : QString) : Option Int :=
  let parse (ds : QString) (neg : Bool) : Option Int :=
    match ds with
    | [] => none
    | _ =>
      match parseDigits ds 0 with
      | none => none
      | some n =>
        let v : Int := if neg then -(n : Int) else (n : Int)
        if -2147483648 ≤ v ∧ v ≤ 2147483647 then some v else none
  match QString.trimmed s with
  | '-' :: ds => parse ds true
  | '+' :: ds => parse ds false
  | ds => parse ds false

/-- Qt library: `QTime(h, m, s)`, null when a field is out of range. -/
def QTime.ofHMS (h m s : Int) : QTime :=
  if 0 ≤ h ∧ h ≤ 23 ∧ 0 ≤ m ∧ m ≤ 59 ∧ 0 ≤ s ∧ s ≤ 59 then
    { mds := (h * 3600 + m * 60 + s) * 1000 }
  else QTime.null

/-- Two decimal digits of a number below 100. -/
def twoDigits (n : Nat) : QString :=
  [Nat.digitChar (n / 10 % 10), Nat.digitChar (n % 10)]

/-- Qt library: `QTime::toString("hh:mm:ss")`, empty for an invalid time. -/
def QTime.toString_hhmmss (t : QTime) : QString :=
  if t.isValid then
    let secs := t.mds.toNat / 1000
    twoDigits (secs / 3600) ++ [':'] ++ twoDigits (secs / 60 % 60) ++ [':'] ++
      twoDigits (secs % 60)
  else []

/-- `MainWidget::GetTime(str)` of the traffic import utility. -/
def GetTime (str : QString) : QTime :=
  match QString.split ':' str with
  | [f0, f1, f2] =>
    match QString.toInt f0 with
    | some hour =>
      if 0 ≤ hour ∧ hour ≤ 23 then
        match QString.toInt f1 with
        | some minute =>
          if 0 ≤ minute ∧ minute ≤ 59 then
            match QString.toInt f2 with
            | some second =>
              if 0 ≤ second ∧ second ≤ 59 then QTime.ofHMS hour minute second
              else QTime.null
            | none => QTime.null
          else QTime.null
        | none => QTime.null
      else QTime.null
    | none => QTime.null
  | _ => QTime.null

/-- `MainWidget::GetLength(str)` of the traffic import utility. -/
def GetLength (str : QString) : Int :=
  if QString.left 1 str = [':'] then
    match QString.toInt (QString.right 2 str) with
    | some len => if 0 ≤ len ∧ len ≤ 60 then len * 1000 else 0
    | none => 0
  else 0

/-- `MainWidget::GetIsci(str)` of the traffic import utility. -/
def GetIsci (str : QString) : QString :=
  if (QString.trimmed str).length = 15 then QString.trimmed str else []

/-- Modelled from the spec: the event record `Event` of the traffic import utility, which
is not part of the sources at hand: the time, length, ISCI code, title and client of a
parsed line, each written by its setter and read by its getter. -/
structure Event where
  time : QTime
  length : Int
  isci : QString
  title : QString
  client : QString
  deriving DecidableEq, Repr

/-- The part of the traffic import utility that `LoadEvents` works on: the event list, the
cart map (ISCI code to cart number) and the messages logged. -/
structure DgImport where
  dg_events : List Event
  dg_carts : QString → Option Nat
  messages : List QString

/-- `dg_carts[isci]=cartnum`. -/
def DgImport.setCart (st : DgImport) (isci : QString) (cartnum : Nat) : DgImport :=
  { st with dg_carts := fun k => if k = isci then some cartnum else st.dg_carts k }

/-- `MainWidget::LogMessage(str)`. -/
def DgImport.LogMessage (st : DgImport) (str : QString) : DgImport :=
  { st with messages := st.messages ++ [str ++ ['\n']] }

/-- The warning `LoadEvents` logs for a length other than 30 or 60 seconds. -/
def nonStandardLengthWarning (tr : String → String) (isci : QString) : QString :=
  (tr "WARNING: Non-standard length for ISCI code").toList ++ " \"".toList ++ isci ++
    "\".".toList

/-- The body of the loop of `MainWidget::LoadEvents` for one line read by `fgets`; `fresh` is
the event `new Event()` builds. -/
def loadLine (tr : String → String) (fresh : Event) (st : DgImport) (line : QString) :
    DgImport :=
  let time := GetTime (QString.left 8 line)
  if time.isValid then
    let length := GetLength (QString.mid 80 3 line)
    if length > 0 then
      let isci := GetIsci (QString.mid 10 15 line)
      if !isci.isEmpty then
        let evt := { fresh with time := time }
        let (evt, st) :=
          if length = 30000 then ({ evt with length := 29000 }, st)
          else if length = 60000 then ({ evt with length := 58000 }, st)
          else (evt, st.LogMessage (nonStandardLengthWarning tr isci))
        let evt := { evt with isci := isci }
        let evt := { evt with title := QString.mid 48 25 line }
        let evt := { evt with client := QString.mid 32 11 line }
        { st with dg_events := st.dg_events ++ [evt] }.setCart isci 0
      else st
    else st
  else st

/-- `MainWidget::LoadEvents()`: the returned flag and the utility afterwards. `file` holds the
lines of the source file as `fgets` delivers them, `none` when the file does not open. -/
def LoadEvents (tr : String → String) (fresh : Event) (file : Option (List QString))
    (st : DgImport) : Bool × DgImport :=
  let st := { st with dg_events := [] }
  match file with
  | none => (false, st)
  | some lines => (true, lines.foldl (loadLine tr fresh) st)

/-- A traffic line: the text of columns 0-7, 10-24, 32-42, 48-72 and 80-82 set at their
columns, blanks between them, a line feed at the end. -/
def trafficLine (time isci client title length : String) : QString :=
  let pad (n : Nat) (s : QString) : QString := s ++ List.replicate (n - s.length) ' '
  pad 10 time.toList ++ pad 22 isci.toList ++ pad 16 client.toList ++ pad 32 title.toList ++
    length.toList ++ ['\n']

/-- An import utility that has not processed anything yet. -/
def DgImport.empty : DgImport :=
  { dg_events := [], dg_carts := fun _ => none, messages := [] }

/-- An event as a constructor that clears every field would build it. -/
def clearedEvent : Event :=
  { time := QTime.null, length := 0, isci := [], title := [], client := [] }

/-- The text parses as a whole number from 0 to `hi`. -/
def parsesInRange (lo hi : Int) (s : QString) : Bool :=
  match QString.toInt s with
  | some v => decide (lo ≤ v) && decide (v ≤ hi)
  | none => false

/-- The text parses as an `hh:mm:ss` time: three fields between colons, an hour from 0 to 23,
a minute and a second from 0 to 59. -/
def specTimeField (s : QString) : Bool :=
  match QString.split ':' s with
  | [h, m, sec] => parsesInRange 0 23 h && parsesInRange 0 59 m && parsesInRange 0 59 sec
  | _ => false

/-- The text is a colon followed by a length in seconds from `lo` to `hi` (its last two
characters parse as that number). -/
def specLengthField (lo hi : Int) (s : QString) : Bool :=
  decide (QString.left 1 s = [':']) && parsesInRange lo hi (QString.right 2 s)

/-- The text trims to exactly 15 characters. -/
def specIsciField (s : QString) : Bool :=
  decide ((QString.trimmed s).length = 15)

/-- The source line is a valid event: columns 0-7 are a time, columns 80-82 a length from 1
to 60 seconds, columns 10-24 an ISCI code. -/
def validEventLine (line : QString) : Bool :=
  specTimeField (QString.left 8 line) && specLengthField 1 60 (QString.mid 80 3 line) &&
    specIsciField (QString.mid 10 15 line)

/-- The event recorded for a valid line. -/
def eventOfLine (fresh : Event) (line : QString) : Event :=
  { time := GetTime (QString.left 8 line)
    length :=
      if GetLength (QString.mid 80 3 line) = 30000 then 29000
      else if GetLength (QString.mid 80 3 line) = 60000 then 58000
      else fresh.length
    isci := QString.trimmed (QString.mid 10 15 line)
    title := QString.mid 48 25 line
    client := QString.mid 32 11 line }

/-- The number of bytes of `s.toUtf8()`. -/
def utf8Length (s : QString) : Nat :=
  (s.map Char.utf8Size).sum

/-- C library: `printf("%-<width>s", s.toUtf8().constData())`: the text, followed by blanks
when it has fewer than `width` bytes. -/
def leftJustify (width : Nat) (s : QString) : QString :=
  s ++ List.replicate (width - utf8Length s) ' '

/-- C library: `printf("%0<width>u", n)`: the decimal digits of `n`, preceded by zeros when
they are fewer than `width`. -/
def zeroPad (width : Nat) (n : Nat) : QString :=
  List.replicate (width - (Nat.repr n).length) '0' ++ (Nat.repr n).toList

/-- `dg_carts[isci]` read through `operator[]`: zero when the key is new. -/
def DgImport.cart (st : DgImport) (isci : QString) : Nat :=
  (st.dg_carts isci).getD 0

/-- The texts the `fprintf` calls of `WriteTrafficFile` write for event `i`, one per call.
`RDGetTimeLength` renders the length (with hours, without tenths). -/
def trafficFields (RDGetTimeLength : Int → QString) (st : DgImport) (i : Nat) (evt : Event) :
    List QString :=
  [ evt.time.toString_hhmmss ++ "  ".toList,
    zeroPad 6 (st.cart evt.isci) ++ "         ".toList,
    leftJustify 34 evt.title ++ " ".toList,
    if evt.length < 600000 then "0".toList else [],
    RDGetTimeLength evt.length ++ " ".toList,
    leftJustify 32 evt.isci ++ " ".toList,
    zeroPad 32 i,
    "\n".toList ]

/-- The record `WriteTrafficFile` writes for event `i`. -/
def trafficRecord (RDGetTimeLength : Int → QString) (st : DgImport) (i : Nat) (evt : Event) :
    QString :=
  (trafficFields RDGetTimeLength st i evt).flatten

/-- The records of the events from index `i` on. -/
def trafficRecordsFrom (RDGetTimeLength : Int → QString) (st : DgImport) :
    Nat → List Event → List QString
  | _, [] => []
  | i, evt :: rest =>
    trafficRecord RDGetTimeLength st i evt :: trafficRecordsFrom RDGetTimeLength st (i + 1) rest

/-- `MainWidget::WriteTrafficFile()`: the returned flag and the records written to the
traffic file, in the order written; `opens` tells whether the destination opens. The index
`i` is an `unsigned`, which an event list never outgrows. -/
def WriteTrafficFile (RDGetTimeLength : Int → QString) (opens : Bool) (st : DgImport) :
    Bool × List QString :=
  if !opens then (false, [])
  else (true, trafficRecordsFrom RDGetTimeLength st 0 st.dg_events)

/-- A rendering of a length as `h:mm:ss`, standing in for `RDGetTimeLength`. -/
def sampleTimeLength (msecs : Int) : QString :=
  let secs := msecs.toNat / 1000
  (Nat.repr (secs / 3600)).toList ++ [':'] ++ twoDigits (secs / 60 % 60) ++ [':'] ++
    twoDigits (secs % 60)

/-- A traffic line whose title is 25 times the letter e with an acute accent. -/
def accentedLine : QString :=
  trafficLine "12:00:00" "ABCDEFGHIJKLMNO" "ACME MOTORS"
    (String.mk (List.replicate 25 (Char.ofNat 233))) ":30"

/-- The two function-local statics of `MainWidget::masterTimerData`: `counter` (an
`unsigned`), and `last_time`, which the first call initialises from the clock (`none` before
that call). -/
structure MasterTimer where
  counter : Nat
  last_time : Option QTime
  deriving DecidableEq, Repr

/-- The statics of `masterTimerData` before the first tick. -/
def MasterTimer.init : MasterTimer :=
  { counter := 0, last_time := none }

/-- `MainWidget::masterTimerData()` for one tick of the master timer: the statics afterwards
and the log machines whose `resync()` was called, in order. `now` is what
`QTime::currentTime()` returns during the call. -/
def masterTimerData (RDAIRPLAY_LOG_QUANTITY : Nat) (now : QTime) (st : MasterTimer) :
    MasterTimer × List Nat :=
  let last_time := st.last_time.getD now
  if st.counter ≥ 5 then
    let current_time := now
    let resynced :=
      if current_time.mds < last_time.mds then List.range RDAIRPLAY_LOG_QUANTITY else []
    ({ counter := 0, last_time := some current_time }, resynced)
  else
    ({ counter := (st.counter + 1) % 4294967296, last_time := some last_time }, [])

/-- The statics of `masterTimerData` after the first `n` ticks of the master timer, tick `k`
(counted from 1) reading the time `now k` from the clock. -/
def masterTimerTicks (RDAIRPLAY_LOG_QUANTITY : Nat) (now : Nat → QTime) : Nat → MasterTimer
  | 0 => MasterTimer.init
  | n + 1 =>
    (masterTimerData RDAIRPLAY_LOG_QUANTITY (now (n + 1))
      (masterTimerTicks RDAIRPLAY_LOG_QUANTITY now n)).1

/-- The log machines resynchronised by tick `n` of the master timer (counted from 1). -/
def masterTimerResync (RDAIRPLAY_LOG_QUANTITY : Nat) (now : Nat → QTime) : Nat → List Nat
  | 0 => []
  | n + 1 =>
    (masterTimerData RDAIRPLAY_LOG_QUANTITY (now (n + 1))
      (masterTimerTicks RDAIRPLAY_LOG_QUANTITY now n)).2

/-- The time `last_time` is expected to hold after `n ≥ 1` ticks: the time read by the latest
tick whose number is a multiple of six, or by the first tick when there is none yet. -/
def lastObserved (now : Nat → QTime) (n : Nat) : QTime :=
  if n < 6 then now 1 else now (n / 6 * 6)

/-- A clock that reads 12:00:00 on the first four ticks and 11:58:20 from the fifth tick on. -/
def rolledBackClock (k : Nat) : QTime :=
  if k < 5 then { mds := 43200000 } else { mds := 43100000 }

/-- Qt library: the key codes `MainWidget::keyReleaseEvent` tells apart, any other key by its
code. -/
inductive QtKey where
  | Key_Space
  | Key_Shift
  | Key_Up
  | Key_Left
  | Key_Right
  | Key_Down
  | Key_Alt
  | Key_Control
  | other (code : Nat)
  deriving DecidableEq, Repr

/-- Qt library: the part of a `QKeyEvent` that `keyReleaseEvent` reads. -/
structure QKeyEvent where
  key : QtKey
  isAutoRepeat : Bool
  deriving DecidableEq, Repr

/-- `RDAirPlayConf::BarAction`. -/
inductive BarAction where
  | NoAction
  | StartNext
  deriving DecidableEq, Repr

/-- The calls `keyReleaseEvent` makes on other parts of the console. -/
inductive KeyCall where
  | playNext
  | addButtonData
  | deleteButtonData
  | copyButtonData
  | moveButtonData
  | panelButtonData
  | fullLogButtonData (id : Int)
  | startButton (line : Int)
  | stopButtonHotkey (line : Int)
  | pauseButtonHotkey (line : Int)
  | QWidget_keyReleaseEvent
  deriving DecidableEq, Repr

/-- The variables the key handlers share: `keystrokecount`, `AltKeyHit` and `CtrlKeyHit`. -/
structure HotKeyState where
  keystrokecount : Int
  AltKeyHit : Bool
  CtrlKeyHit : Bool
  deriving DecidableEq, Repr

/-- What `keyReleaseEvent` consults: `air_keylist->GetKeyCode`, `air_hotkeys->GetRowLabel`
for this station and the module "airplay", the action of the space bar and
`RDAirPlayConf::showAuxButton`. -/
structure HotKeyEnv where
  GetKeyCode : QtKey → QString
  GetRowLabel : QString → QString
  air_bar_action : BarAction
  showAuxButton : Nat → Bool

/-- The texts `QString().sprintf("Start Line %d", i)`, `"Stop Line %d"` and
`"Pause Line %d"`, by their first word. -/
def lineLabel (what : String) (i : Nat) : QString :=
  (what ++ " Line " ++ toString i).toList

/-- The loop `for (int i = 1; i < 8; i++)` at the end of `keyReleaseEvent`: the calls on the
button log for the label `hot_label`. -/
def lineHotkeys (hot_label : QString) : List KeyCall :=
  (List.range' 1 7).foldl
    (fun calls i =>
      let calls :=
        if hot_label = lineLabel "Start" i then calls ++ [.startButton ((i : Int) - 1)]
        else calls
      let calls :=
        if hot_label = lineLabel "Stop" i then calls ++ [.stopButtonHotkey ((i : Int) - 1)]
        else calls
      if hot_label = lineLabel "Pause" i then calls ++ [.pauseButtonHotkey ((i : Int) - 1)]
      else calls)
    []

/-- The call `keyReleaseEvent` makes first, for the space bar under the action StartNext. -/
def spaceBarCalls (env : HotKeyEnv) (e : QKeyEvent) : List KeyCall :=
  match e.key with
  | .Key_Space =>
    match env.air_bar_action with
    | .StartNext => if !e.isAutoRepeat then [.playNext] else []
    | _ => []
  | _ => []

/-- The chord `hotkeystrokes` that `keyReleaseEvent` builds for a released key that is no
modifier and no arrow: the names of the modifiers that are down and of the key, empty for an
auto-repeated release. -/
def hotChord (env : HotKeyEnv) (st : HotKeyState) (e : QKeyEvent) : QString :=
  if !e.isAutoRepeat then
    let hotkeystrokes : QString := []
    let hotkeystrokes :=
      if st.AltKeyHit then env.GetKeyCode .Key_Alt ++ " + ".toList else hotkeystrokes
    let hotkeystrokes :=
      if st.CtrlKeyHit then
        if st.AltKeyHit then hotkeystrokes ++ env.GetKeyCode .Key_Control ++ " + ".toList
        else env.GetKeyCode .Key_Control ++ " + ".toList
      else hotkeystrokes
    hotkeystrokes ++ env.GetKeyCode e.key
  else []

/-- `MainWidget::keyReleaseEvent(e)`: the shared variables afterwards and the calls made, in
order. -/
def keyReleaseEvent (env : HotKeyEnv) (st : HotKeyState) (e : QKeyEvent) :
    HotKeyState × List KeyCall :=
  let calls := spaceBarCalls env e
  if e.key = .Key_Shift ∨ e.key = .Key_Up ∨ e.key = .Key_Left ∨ e.key = .Key_Right ∨
      e.key = .Key_Down then
    ({ st with keystrokecount := 0 }, calls ++ [.QWidget_keyReleaseEvent])
  else if e.key = .Key_Alt ∨ e.key = .Key_Control then
    let st :=
      if st.AltKeyHit then
        { st with
          AltKeyHit := false
          keystrokecount :=
            if st.keystrokecount > 0 then st.keystrokecount - 1 else st.keystrokecount }
      else st
    let st :=
      if st.CtrlKeyHit then
        { st with
          CtrlKeyHit := false
          keystrokecount :=
            if st.keystrokecount > 0 then st.keystrokecount - 1 else st.keystrokecount }
      else st
    (st, calls)
  else
    let hotkeystrokes := hotChord env st e
    let st := if !e.isAutoRepeat then { st with keystrokecount := 0 } else st
    if hotkeystrokes.length > 0 then
      let hot_label := env.GetRowLabel hotkeystrokes
      if hot_label.length > 0 then
        if hot_label = "Add".toList then (st, calls ++ [.addButtonData])
        else if hot_label = "Delete".toList then (st, calls ++ [.deleteButtonData])
        else if hot_label = "Copy".toList then (st, calls ++ [.copyButtonData])
        else if hot_label = "Move".toList then (st, calls ++ [.moveButtonData])
        else if hot_label = "Sound Panel".toList then (st, calls ++ [.panelButtonData])
        else if hot_label = "Main Log".toList then (st, calls ++ [.fullLogButtonData 0])
        else if hot_label = "Aux Log 1".toList ∧ env.showAuxButton 0 = true then
          (st, calls ++ [.fullLogButtonData 1])
        else if hot_label = "Aux Log 2".toList ∧ env.showAuxButton 1 = true then
          (st, calls ++ [.fullLogButtonData 2])
        else (st, calls ++ lineHotkeys hot_label ++ [.QWidget_keyReleaseEvent])
      else (st, calls ++ [.QWidget_keyReleaseEvent])
    else (st, calls ++ [.QWidget_keyReleaseEvent])

/-- The released key is none of those `keyReleaseEvent` sets apart before it looks for a hot
key: Shift, the arrows, Alt and Control. -/
def isChordKey (k : QtKey) : Bool :=
  match k with
  | .Key_Shift | .Key_Up | .Key_Left | .Key_Right | .Key_Down | .Key_Alt | .Key_Control => false
  | _ => true

/-- A key list and a hot-key table in which F1 to F8 (codes 16777264 to 16777271) are named
"F1" to "F8", Alt is named "Alt", and the chord "Alt + Fn" is mapped to "Start Line n". -/
def functionKeyEnv : HotKeyEnv :=
  { GetKeyCode := fun k =>
      match k with
      | .Key_Alt => "Alt".toList
      | .Key_Control => "Ctrl".toList
      | .other code => if 16777264 ≤ code ∧ code ≤ 16777271 then
          ("F" ++ toString (code - 16777263)).toList else []
      | _ => []
    GetRowLabel := fun chord =>
      if chord = "Alt + F1".toList then lineLabel "Start" 1
      else if chord = "Alt + F7".toList then lineLabel "Start" 7
      else if chord = "Alt + F8".toList then lineLabel "Start" 8
      else []
    air_bar_action := .NoAction
    showAuxButton := fun _ => false }

/-- Qt library: the bytes of the UTF-8 form of a character. -/
def QChar.toUtf8 (c : QChar) : List Nat :=
  let n := c.toNat
  if n < 128 then [n]
  else if n < 2048 then [192 + n / 64, 128 + n % 64]
  else if n < 65536 then [224 + n / 4096, 128 + n / 64 % 64, 128 + n % 64]
  else [240 + n / 262144, 128 + n / 4096 % 64, 128 + n / 64 % 64, 128 + n % 64]

/-- Qt library: `QString::toUtf8()`, as a list of bytes. -/
def QString.toUtf8 (s : QString) : List Nat :=
  (s.map QChar.toUtf8).flatten

/-- C library: `strncpy(dest, src, n)` on a `char` array `dest` of at least `n` bytes: the
bytes of `src` before its first NUL, at most `n` of them, are copied, the rest of the first
`n` bytes is filled with NUL, and the bytes of `dest` from index `n` on stay as they were. -/
def strncpy (dest : List Nat) (src : List Nat) (n : Nat) : List Nat :=
  let body := (src.takeWhile (fun b => b != 0)).take n
  body ++ List.replicate (n - body.length) 0 ++ dest.drop n

/-- C library: the string a `char` array holds, that is the bytes before its first NUL. -/
def cString (a : List Nat) : List Nat :=
  a.takeWhile (fun b => b != 0)

/-- Qt library: `QString::toUInt(&ok)` in base 10, `none` when `ok` is false: white space
around the number is ignored, a plus sign may precede the digits, and the value has to fit an
`unsigned int`. -/
def QString.toUInt (s : QString) : Option Nat :=
  let parse (ds : QString) : Option Nat :=
    match ds with
    | [] => none
    | _ =>
      match parseDigits ds 0 with
      | none => none
      | some n => if n ≤ 4294967295 then some n else none
  match QString.trimmed s with
  | '+' :: ds => parse ds
  | ds => parse ds

/-- The names an `RDCoreApplication` keeps: `app_command_name`, the `char` array
`app_syslog_name` and `app_ticket`. -/
structure CoreNames where
  app_command_name : QString
  app_syslog_name : List Nat
  app_ticket : QString
  deriving DecidableEq, Repr

/-- The part of the constructor `RDCoreApplication::RDCoreApplication(module_name, cmdname,
usage)` that sets the names. `mem` is what the array `app_syslog_name` of `PATH_MAX` bytes
held before. -/
def RDCoreApplication.construct (PATH_MAX : Nat) (mem : List Nat) (cmdname : QString) :
    CoreNames :=
  { app_command_name := cmdname
    app_syslog_name := strncpy mem (QString.toUtf8 cmdname) (PATH_MAX - 1)
    app_ticket := [] }

/-- The variables of the "Read command switches" loop of `RDCoreApplication::open`. -/
structure SwitchScan where
  skip_db_check : Bool
  persistent_dropbox_id : Int
  ok : Bool
  names : CoreNames
  deriving DecidableEq, Repr

/-- The body of the "Read command switches" loop of `RDCoreApplication::open` for one command
switch, given as `(key, value)`. The value of `--persistent-dropbox-id` is stored in an `int`
and printed with `%u`. -/
def readSwitch (sc : SwitchScan) (kv : QString × QString) : SwitchScan :=
  let sc := if kv.1 = "--skip-db-check".toList then { sc with skip_db_check := true } else sc
  let sc :=
    if kv.1 = "--ticket".toList then { sc with names := { sc.names with app_ticket := kv.2 } }
    else sc
  if kv.1 = "--persistent-dropbox-id".toList then
    let u : Nat := (QString.toUInt kv.2).getD 0
    let id : Int := if u < 2147483648 then (u : Int) else (u : Int) - 4294967296
    let sc := { sc with persistent_dropbox_id := id, ok := (QString.toUInt kv.2).isSome }
    if sc.ok then
      { sc with names := { sc.names with
          app_command_name := ("dropbox[" ++ fmtU sc.persistent_dropbox_id ++ "]").toList } }
    else sc
  else sc

/-- The "Read command switches" loop of `RDCoreApplication::open` over the command switches. -/
def readSwitches (names : CoreNames) (switches : List (QString × QString)) : SwitchScan :=
  switches.foldl readSwitch
    { skip_db_check := false, persistent_dropbox_id := -1, ok := false, names := names }

/-- The "Initialize Logging" step of `RDCoreApplication::open`: the `ident` that
`openlog(app_syslog_name, ...)` is given, for an application built for the command `cmdname`
and started with the command switches `switches`. -/
def RDCoreApplication.openlogIdent (PATH_MAX : Nat) (mem : List Nat) (cmdname : QString)
    (switches : List (QString × QString)) : List Nat :=
  cString (readSwitches (RDCoreApplication.construct PATH_MAX mem cmdname) switches).names.app_syslog_name

/-- `MainWidget::GetEvent(isci)`: the first event of `dg_events` with that ISCI code, `none`
for NULL. -/
def GetEvent (st : DgImport) (isci : QString) : Option Event :=
  st.dg_events.find? (fun evt => evt.isci = isci)

/-- What `CheckSpot` and `ImportSpot` consult outside the utility: the translations, the
directory of the source file, `RDDGIMPORT_FILE_EXTENSION` in lower and in upper case,
`QFile::exists`, the cart numbers of the cuts the query of `CheckSpot` returns for an ISCI
code, `dg_group->nextFreeCart()` at the time that ISCI code is imported, the result of
`RDCart::create` for a cart number and the text it leaves in `*err_msg`, the result of
`addCut` on a cart, and for the import of an audio file the text of
`RDAudioImport::errorText` (`none` when `runImport` returns `ErrorOk`). -/
structure SpotEnv where
  tr : String → String
  dir : QString
  extLower : QString
  extUpper : QString
  fileExists : QString → Bool
  spotCarts : QString → List Nat
  nextFreeCart : QString → Nat
  cartCreate : Nat → Nat
  cartCreateError : Nat → QString
  addCut : Nat → Int
  runImport : QString → Option QString

/-- `MainWidget::CheckSpot(isci)`: the returned flag and the utility afterwards. The updates
of the cut dates in the database are left out. -/
def CheckSpot (env : SpotEnv) (st : DgImport) (isci : QString) : Bool × DgImport :=
  (env.spotCarts isci).foldl (fun acc cartnum => (true, acc.2.setCart isci cartnum)) (false, st)

/-- The variables of a run of `ImportAudio`: the utility, the text `err_msg`, the warnings
shown in message boxes, the ISCI codes `CheckSpot` was called for and the ISCI codes whose
audio file was handed to `runImport`, each in order. -/
structure ImportRun where
  st : DgImport
  err_msg : QString
  warnings : List QString
  checked : List QString
  imported : List QString

/-- `LogMessage(str)` during a run of `ImportAudio`. -/
def ImportRun.LogMessage (run : ImportRun) (str : QString) : ImportRun :=
  { run with st := run.st.LogMessage str }

/-- The "Find File" step of `ImportSpot`: the audio file of an ISCI code, `none` when neither
spelling of the extension exists. -/
def findAudioFile (env : SpotEnv) (isci : QString) : Option QString :=
  let audiofile := env.dir ++ "/".toList ++ isci ++ ".".toList ++ env.extLower
  if !env.fileExists audiofile then
    let audiofile := env.dir ++ "/".toList ++ isci ++ ".".toList ++ env.extUpper
    if !env.fileExists audiofile then none else some audiofile
  else some audiofile

/-- The text in brackets that the messages of `ImportSpot` end with. -/
def spotTag (evt : Event) : QString :=
  " [".toList ++ evt.title ++ " / ".toList ++ evt.client ++ "].".toList

/-- `MainWidget::ImportSpot(evt, err_msg)` for a non-NULL event: the returned flag and the
variables of the run afterwards. The settings written to the new cart and cut are left out. -/
def ImportSpot (env : SpotEnv) (run : ImportRun) (evt : Event) : Bool × ImportRun :=
  match findAudioFile env evt.isci with
  | none =>
    (false, run.LogMessage
      ((env.tr "Missing audio for").toList ++ " ".toList ++ evt.isci ++ spotTag evt))
  | some audiofile =>
    let run := { run with st := run.st.setCart evt.isci (env.nextFreeCart evt.isci) }
    if run.st.cart evt.isci = 0 then
      (false, run.LogMessage
        ((env.tr "Unable to allocate new cart for").toList ++ " ".toList ++ evt.isci ++
          spotTag evt))
    else
      let cartnum := env.cartCreate (run.st.cart evt.isci)
      if cartnum = 0 then
        (false, { run with err_msg := env.cartCreateError (run.st.cart evt.isci) })
      else
        let cutnum := env.addCut (run.st.cart evt.isci)
        if cutnum < 0 then
          (false, run.LogMessage
            ((env.tr "WARNING: Unable to create cut for cart").toList ++ " \"".toList ++
              (toString (run.st.cart evt.isci)).toList ++ "\".".toList))
        else
          let run := { run with imported := run.imported ++ [evt.isci] }
          match env.runImport audiofile with
          | none => (true, run)
          | some errorText =>
            (true, run.LogMessage
              ((env.tr "Importer error").toList ++ " [".toList ++ audiofile ++ "]: ".toList ++
                errorText))

/-- The body of the loop of `MainWidget::ImportAudio` for the key `isci` of the cart map:
`none` when `GetEvent` returns NULL (the event is dereferenced at once), otherwise whether the
loop goes on, and the variables of the run afterwards. -/
def importKey (env : SpotEnv) (run : ImportRun) (isci : QString) : Option (Bool × ImportRun) :=
  match GetEvent run.st isci with
  | none => none
  | some evt =>
    let checked := CheckSpot env run.st evt.isci
    let run := { run with st := checked.2, checked := run.checked ++ [evt.isci] }
    if !checked.1 then
      let spot := ImportSpot env run evt
      if !spot.1 then
        some (false, { spot.2 with warnings := spot.2.warnings ++ [spot.2.err_msg] })
      else some (true, spot.2)
    else some (true, run)

/-- Surroundings in which the audio of "AAAAAAAAAAAAAAA" is missing, while the audio of
"BBBBBBBBBBBBBBB" is at hand as /in/BBBBBBBBBBBBBBB.mp2 and is imported with an error
reported by the importer. -/
def sampleSpotEnv : SpotEnv :=
  { tr := id
    dir := "/in".toList
    extLower := "mp2".toList
    extUpper := "MP2".toList
    fileExists := fun f => f = "/in/BBBBBBBBBBBBBBB.mp2".toList
    spotCarts := fun _ => []
    nextFreeCart := fun _ => 10001
    cartCreate := fun c => c
    cartCreateError := fun _ => []
    addCut := fun _ => 1
    runImport := fun _ => some "Unsupported format".toList }

/-- The utility after a first run of `LoadEvents` on a source file whose only spot has the
ISCI code "AAAAAAAAAAAAAAA". -/
def afterFirstRun : DgImport :=
  (LoadEvents id clearedEvent
    (some [trafficLine "12:00:00" "AAAAAAAAAAAAAAA" "ACME MOTORS" "SPRING SALE" ":30"])
    DgImport.empty).2

/-- A second source file, whose only spot has the ISCI code "BBBBBBBBBBBBBBB". -/
def secondFile : List QString :=
  [trafficLine "12:00:30" "BBBBBBBBBBBBBBB" "BOLT BAKERY" "FRESH BREAD" ":30"]

/-- Qt library: a `QVariant` as `RDLogImportModel` stores it: `none` for an invalid or null
variant, otherwise the text it holds. -/
abbrev QVariant := Option QString

/-- One row of the query of `RDLogImportModel::updateModel`, by the columns of `sqlFields()`
as `updateRow` reads them. `TYPE` is the value of column 9 seen as an `RDLogLine::Type`, a
number outside the enumeration standing as `UnknownType` (no case of the switch handles
either). -/
structure ImporterLine where
  ID : Nat
  START_HOUR : Int
  START_SECS : Int
  EXT_CART_NAME : QVariant
  LENGTH : Option Int
  EXT_DATA : QString
  EXT_EVENT_ID : QString
  EXT_ANNC_TYPE : QString
  TITLE : QString
  TYPE : LineType
  FILE_LINE : Nat
  deriving DecidableEq, Repr

/-- What `RDLogImportModel` consults outside itself: the translations, `RDSvc::timeString`,
`RDGetTimeLength` (without hours, without tenths) and the icon engine's `typeIcon`, an icon
being given by a number. -/
structure ImportModelEnv where
  tr : String → String
  timeString : Int → Int → QString
  RDGetTimeLength : Int → QString
  typeIcon : LineType → Nat

/-- The part of an `RDLogImportModel` that `updateModel` works on: the headers and the three
lists `d_texts`, `d_ids` and `d_icons` (an icon entry is `none` for `QVariant()`). -/
structure RDLogImportModel where
  d_headers : List QString
  d_texts : List (List QVariant)
  d_ids : List Nat
  d_icons : List (Option Nat)
  deriving DecidableEq, Repr

/-- `RDLogImportModel::columnCount()`. -/
def RDLogImportModel.columnCount (m : RDLogImportModel) : Nat :=
  m.d_headers.length

/-- The list `texts` that `updateRow` builds for a row of the query, for a model of `cols`
columns. -/
def rowTexts (env : ImportModelEnv) (cols : Nat) (q : ImporterLine) : List QVariant :=
  let texts : List QVariant := List.replicate cols none
  let texts := texts.set 0 (some (env.timeString q.START_HOUR q.START_SECS))
  let texts :=
    match q.LENGTH with
    | some len => texts.set 2 (some (env.RDGetTimeLength len))
    | none => texts
  let texts := texts.set 4 (some (QString.trimmed q.EXT_DATA))
  let texts := texts.set 5 (some (QString.trimmed q.EXT_EVENT_ID))
  let texts := texts.set 6 (some (QString.trimmed q.EXT_ANNC_TYPE))
  let texts := texts.set 7 (some (toString ((1 + q.FILE_LINE) % 4294967296)).toList)
  match q.TYPE with
  | .Cart => (texts.set 1 q.EXT_CART_NAME).set 3 (some (QString.trimmed q.TITLE))
  | .Marker => (texts.set 1 (some (env.tr "NOTE").toList)).set 3 (some (QString.trimmed q.TITLE))
  | .TrafficLink => texts.set 3 (some (env.tr "[spot break]").toList)
  | .Track => texts.set 3 (some (env.tr "[voice track]").toList)
  | _ => texts

/-- The icon `updateRow` stores for a row of the query, `none` when the switch stores none. -/
def rowIcon (env : ImportModelEnv) (q : ImporterLine) : Option Nat :=
  match q.TYPE with
  | .Cart => some (env.typeIcon .Cart)
  | .Marker => some (env.typeIcon .Marker)
  | .TrafficLink => some (env.typeIcon .TrafficLink)
  | .Track => some (env.typeIcon .Track)
  | _ => none

/-- `RDLogImportModel::updateRow(row, q)`. -/
def RDLogImportModel.updateRow (env : ImportModelEnv) (m : RDLogImportModel) (row : Nat)
    (q : ImporterLine) : RDLogImportModel :=
  let texts := rowTexts env m.columnCount q
  let m :=
    match rowIcon env q with
    | some icon => { m with d_icons := m.d_icons.set row (some icon) }
    | none => m
  { m with d_ids := m.d_ids.set row q.ID, d_texts := m.d_texts.set row texts }

/-- The body of the loop of `updateModel` for one row of the query. -/
def RDLogImportModel.appendRow (env : ImportModelEnv) (m : RDLogImportModel)
    (q : ImporterLine) : RDLogImportModel :=
  let m := { m with d_ids := m.d_ids ++ [0] }
  let m := { m with d_icons := m.d_icons ++ [none] }
  let m := { m with d_texts := m.d_texts ++ [[]] }
  m.updateRow env (m.d_texts.length - 1) q

/-- `RDLogImportModel::updateModel()`; `rows` are the rows the query returns for the station
and the process id of the model, in the order of `LINE_ID`. -/
def RDLogImportModel.updateModel (env : ImportModelEnv) (rows : List ImporterLine)
    (m : RDLogImportModel) : RDLogImportModel :=
  rows.foldl (RDLogImportModel.appendRow env) { m with d_texts := [] }

/-- The constructor `RDLogImportModel::RDLogImportModel(hostname, proc_id, parent)`, for the
rows its first query returns. -/
def RDLogImportModel.new (env : ImportModelEnv) (rows : List ImporterLine) : RDLogImportModel :=
  RDLogImportModel.updateModel env rows
    { d_headers := [(env.tr "Start Time").toList, (env.tr "Cart").toList, (env.tr "Len").toList,
                    (env.tr "Title").toList, (env.tr "GUID").toList,
                    (env.tr "Event ID").toList, (env.tr "Annc Type").toList,
                    (env.tr "Line").toList]
      d_texts := []
      d_ids := []
      d_icons := [] }

/-- `RDLogImportModel::refresh()`. -/
def RDLogImportModel.refresh (env : ImportModelEnv) (rows : List ImporterLine)
    (m : RDLogImportModel) : RDLogImportModel :=
  RDLogImportModel.updateModel env rows m

/-- Surroundings in which the icon of a type is the number of the type plus 100. -/
def sampleModelEnv : ImportModelEnv :=
  { tr := id
    timeString := fun hour secs => sampleTimeLength ((hour * 3600 + secs) * 1000)
    RDGetTimeLength := sampleTimeLength
    typeIcon := fun t =>
      match t with
      | .Cart => 100
      | .Marker => 101
      | .Track => 106
      | .TrafficLink => 108
      | _ => 109 }

/-- A row of the importer table with the given id and type, at line `ID` of its file. -/
def sampleLine (id : Nat) (type : LineType) : ImporterLine :=
  { ID := id, START_HOUR := 12, START_SECS := 0, EXT_CART_NAME := some "010001".toList,
    LENGTH := some 30000, EXT_DATA := [], EXT_EVENT_ID := [], EXT_ANNC_TYPE := [],
    TITLE := "SPRING SALE".toList, TYPE := type, FILE_LINE := id }

/-- The lockout part of the "Aux Logs" loop of `MainWidget::gpiStateChangedData` for a start
GPI that matches a channel whose audio channel is `achan`: whether `channelPlay` is called,
and the timers afterwards. The result is `none` when the call goes through a NULL timer. -/
def auxStartGpi (AIR_CHANNEL_LOCKOUT_INTERVAL : Int) (ts : ChannelTimers) (achan : Int) :
    Option (Bool × ChannelTimers) :=
  match ts 0 achan with
  | none => none
  | some t0 =>
    if t0.active then some (false, ts.set 0 achan t0.stop)
    else
      match ts 1 achan with
      | none => none
      | some t1 => some (true, ts.set 1 achan (t1.start AIR_CHANNEL_LOCKOUT_INTERVAL))

/-- Qt library: the timeout of a single-shot timer, after which the timer is no longer
active; a timer that is not running does not time out. -/
def timerExpired (ts : ChannelTimers) (dir achan : Int) : ChannelTimers :=
  match ts dir achan with
  | some t => if t.active then ts.set dir achan { t with active := false } else ts
  | none => ts

/-- `air_channel_timers[dir][achan]->isActive()`, false where there is no timer. -/
def timerActive (ts : ChannelTimers) (dir achan : Int) : Bool :=
  match ts dir achan with
  | some t => t.active
  | none => false

/-- What acts on the lockout timers: a call of `AssertChannelLock(dir, achan)`, a start GPI
of an Aux Log on the audio channel `achan`, and the timeout of a timer. -/
inductive LockEvent where
  | assertLock (dir achan : Int)
  | auxGpi (achan : Int)
  | timeout (dir achan : Int)
  deriving DecidableEq, Repr

/-- The timers after one event, `none` when the event goes through a NULL timer. -/
def lockStep (AIR_CHANNEL_LOCKOUT_INTERVAL : Int) (ts : ChannelTimers) :
    LockEvent → Option ChannelTimers
  | .assertLock dir achan =>
    (AssertChannelLock AIR_CHANNEL_LOCKOUT_INTERVAL ts dir achan).map (fun r => r.2)
  | .auxGpi achan => (auxStartGpi AIR_CHANNEL_LOCKOUT_INTERVAL ts achan).map (fun r => r.2)
  | .timeout dir achan => some (timerExpired ts dir achan)

/-- The timers after a sequence of events. -/
def lockRun (AIR_CHANNEL_LOCKOUT_INTERVAL : Int) :
    ChannelTimers → List LockEvent → Option ChannelTimers
  | ts, [] => some ts
  | ts, ev :: rest =>
    match lockStep AIR_CHANNEL_LOCKOUT_INTERVAL ts ev with
    | none => none
    | some ts' => lockRun AIR_CHANNEL_LOCKOUT_INTERVAL ts' rest

/-- At most one of the two directional lockout timers of audio channel `achan` is active. -/
def oneDirection (ts : ChannelTimers) (achan : Int) : Prop :=
  ¬ (timerActive ts 0 achan = true ∧ timerActive ts 1 achan = true)

/-- The macros `logReloadedData` sends: Make Next with a machine number and a line, and Start
Next with a machine number. -/
inductive StartRml where
  | MN (machine : Int) (line : Int)
  | PN (machine : Int)
  deriving DecidableEq, Repr

/-- The "Load Initial Log" part of `MainWidget::logReloadedData(log)`: the startup request of
the log machine afterwards and the macros sent, in order. `lineCount` is
`air_log[log]->lineCount()`; the message written to the standard error output for a line
that does not exist is left out. -/
def logReloadedData (log : Nat) (lineCount : Int) (st : LogStart) : LogStart × List StartRml :=
  if isEmptyName st.air_start_logname then (st, [])
  else
    let rmls : List StartRml :=
      if st.air_start_line < lineCount then
        [.MN ((log : Int) + 1) st.air_start_line] ++
          (if st.air_start_start then [.PN ((log : Int) + 1)] else [])
      else []
    ({ st with air_start_logname := some [] }, rmls)

/-- A stored configuration that resumes the previous log "morning" of every machine, no line
of which was current when the console went down (the stored current line is -1). -/
def resumeNoLineConf : LogStartConf :=
  { startMode := fun _ => .StartPrevious
    currentLog := fun _ => "morning".toList
    logName := fun _ => []
    logCurrentLine := fun _ => -1
    autoRestart := fun _ => true
    logRunning := fun _ => false }

/-- Subtraction of two `int`s. -/
def isub (a b : Int) : Int := int32 (a - b)

/-- Addition of two `int`s. -/
def iadd (a b : Int) : Int := int32 (a + b)

/-- Multiplication of two `int`s. -/
def imul (a b : Int) : Int := int32 (a * b)

/-- Negation of an `int`. -/
def ineg (a : Int) : Int := int32 (-a)

/-- Division of two `int`s, which truncates toward zero. -/
def idiv (a b : Int) : Int := int32 (a.tdiv b)

/-- Qt library: a `QSize`, by `width()` and `height()`. -/
structure QSize where
  width : Int
  height : Int
  deriving DecidableEq, Repr

/-- What `RDSlider::calcKnob` leaves: the slider (with `prev_knob`, `curr_knob` and the
signals emitted) and the two page areas. -/
structure KnobLayout where
  slider : RDSlider
  page_up : QRect
  page_down : QRect
  deriving DecidableEq, Repr

/-- `RDSlider::calcKnob(x, y, w, h)` for a slider whose knob has the size `knob_size`; the
page areas before the call are `page_up` and `page_down`. The painting of the knob cap is
left out. -/
def RDSlider.calcKnob (s : RDSlider) (knob_size : QSize) (page_up page_down : QRect)
    (x _y w h : Int) : KnobLayout :=
  match s.rdslider_orient with
  | .Up | .Down =>
    let knob_w := knob_size.width
    let knob_h := knob_size.height
    let knob_x := isub (idiv w 2) (idiv knob_w 2)
    let knob_y :=
      match s.rdslider_orient with
      | .Up =>
        isub (isub h knob_h)
          (idiv (imul (isub h knob_h) (isub s.value s.minimum)) (isub s.maximum s.minimum))
      | .Down =>
        idiv (ineg (isub (isub h knob_h) (imul (isub h knob_h) (isub s.value s.minimum))))
          (isub s.maximum s.minimum)
      | _ => 0
    let s := { s with prev_knob := s.curr_knob }
    let s :=
      if knob_w > 0 ∧ knob_h > 0 then { s with curr_knob := ⟨knob_x, knob_y, knob_w, knob_h⟩ }
      else { s with curr_knob := ⟨knob_x, knob_y, 1, 1⟩ }
    let s := if s.prev_knob ≠ s.curr_knob then s.emit (.sliderMoved s.value) else s
    match s.rdslider_orient with
    | .Up =>
      { slider := s
        page_up := ⟨knob_x, 0, knob_w, knob_y⟩
        page_down :=
          ⟨knob_x, iadd knob_y knob_h, knob_w, isub s.geometry.height (iadd knob_y knob_h)⟩ }
    | .Down =>
      { slider := s
        page_down := ⟨knob_x, 0, knob_w, knob_y⟩
        page_up :=
          ⟨knob_x, iadd knob_y knob_h, knob_w, isub s.geometry.height (iadd knob_y knob_h)⟩ }
    | _ => { slider := s, page_up := page_up, page_down := page_down }
  | .Left | .Right =>
    let knob_w := knob_size.width
    let knob_h := knob_size.height
    let knob_y := isub (idiv h 2) (idiv knob_h 2)
    let knob_x :=
      match s.rdslider_orient with
      | .Left =>
        isub (isub w knob_w)
          (idiv (imul (isub w knob_w) (isub s.value s.minimum)) (isub s.maximum s.minimum))
      | .Right =>
        idiv (ineg (isub (isub w knob_w) (imul (isub w knob_w) (isub s.value s.minimum))))
          (isub s.maximum s.minimum)
      | _ => 0
    let s := { s with prev_knob := s.curr_knob }
    let s :=
      if knob_w > 0 ∧ knob_h > 0 then { s with curr_knob := ⟨knob_x, knob_y, knob_w, knob_h⟩ }
      else { s with curr_knob := ⟨knob_x, knob_y, 1, 1⟩ }
    match s.rdslider_orient with
    | .Right =>
      { slider := s
        page_up := ⟨iadd knob_x knob_w, knob_y, iadd x w, knob_h⟩
        page_down := ⟨0, knob_y, knob_x, iadd knob_y knob_h⟩ }
    | .Left =>
      { slider := s
        page_down := ⟨iadd knob_x knob_w, knob_y, iadd x w, knob_h⟩
        page_up := ⟨0, knob_y, knob_x, iadd knob_y knob_h⟩ }
    | _ => { slider := s, page_up := page_up, page_down := page_down }

/-- The offset of the knob along the axis of the slider after `calcKnob(x, y, w, h)`: the
`y()` of the knob for Up and Down, its `x()` for Left and Right. -/
def knobOffset (s : RDSlider) (knob_size : QSize) (w h : Int) : Int :=
  match s.rdslider_orient with
  | .Up | .Down => (s.calcKnob knob_size ⟨0, 0, 0, 0⟩ ⟨0, 0, 0, 0⟩ 0 0 w h).slider.curr_knob.y
  | .Left | .Right => (s.calcKnob knob_size ⟨0, 0, 0, 0⟩ ⟨0, 0, 0, 0⟩ 0 0 w h).slider.curr_knob.x

/-- The travel of the knob along the axis of the slider: the extent of the widget less the
extent of the knob. -/
def knobTravel (s : RDSlider) (knob_size : QSize) (w h : Int) : Int :=
  match s.rdslider_orient with
  | .Up | .Down => h - knob_size.height
  | .Left | .Right => w - knob_size.width

/-- A slider of the given orientation and value with the range 0..100, not being dragged. -/
def restingSlider (orient : Orientation) (value : Int) : RDSlider :=
  { draggedSlider orient with rdslider_moving := false, value := value }

/-- The channels of `RDAirPlayConf::Channel` in the order of the enumeration, which the
constructor's "Load GPIO Channel Configuration" loop runs through. -/
def allChannels : List Channel :=
  [.MainLog1Channel, .MainLog2Channel, .SoundPanel1Channel, .CueChannel, .AuxLog1Channel,
   .AuxLog2Channel, .SoundPanel2Channel, .SoundPanel3Channel, .SoundPanel4Channel,
   .SoundPanel5Channel]

/-- Qt library: a timer as `new QTimer(this)` builds it, not running. -/
def QTimer.new : QTimer := { active := false, interval := 0 }

/-- The part of the body of the constructor's "Load GPIO Channel Configuration" loop that
creates the lockout timers of channel `chan`. -/
def createChannelTimers (RD_MAX_PORTS : Int) (conf : ChannelConf) (ts : ChannelTimers)
    (chan : Channel) : ChannelTimers :=
  if conf.card chan ≥ 0 ∧ conf.port chan ≥ 0 then
    let achan := AudioChannel RD_MAX_PORTS (conf.card chan) (conf.port chan)
    match ts 0 achan with
    | none => (ts.set 0 achan QTimer.new).set 1 achan QTimer.new
    | some _ => ts
  else ts

/-- The lockout timers as the constructor leaves them, every entry of `air_channel_timers`
being NULL before. -/
def initChannelTimers (RD_MAX_PORTS : Int) (conf : ChannelConf) : ChannelTimers :=
  allChannels.foldl (createChannelTimers RD_MAX_PORTS conf) (fun _ _ => none)

/-- A configuration in which Main Log 1 plays on card 1 with no port assigned (-1) and no
other channel has a card. -/
def portlessConf : ChannelConf :=
  { sharedPortConf with
    card := fun chan => if chan = .MainLog1Channel then 1 else -1
    port := fun _ => -1 }

/-! ## Theorems -/

theorem join_cons_cons (c : QChar) (f : QString) (l : List QString) (h : l ≠ []) :
    QStringList.join c (f :: l) = f ++ c :: QStringList.join c l := by
  cases l with
  | nil => exact absurd rfl h
  | cons g t => rfl

theorem join_appendToBack (c ch : QChar) (l : List QString) (h : l ≠ []) :
    QStringList.join c (appendToBack l ch) = QStringList.join c l ++ [ch] := by
  induction l with
  | nil => exact absurd rfl h
  | cons f t ih =>
    cases t with
    | nil => simp [appendToBack, QStringList.join]
    | cons g t =>
      have hne : appendToBack (g :: t) ch ≠ [] := by cases t <;> simp [appendToBack]
      simp only [appendToBack]
      rw [join_cons_cons c f _ hne, join_cons_cons c f _ (by simp), ih (by simp)]
      simp

theorem appendToBack_ne_nil (ch : QChar) (l : List QString) (h : l ≠ []) :
    appendToBack l ch ≠ [] := by
  cases l with
  | nil => exact absurd rfl h
  | cons f t => cases t <;> simp [appendToBack]

theorem join_snoc_nil (c : QChar) (l : List QString) (h : l ≠ []) :
    QStringList.join c (l ++ [[]]) = QStringList.join c l ++ [c] := by
  induction l with
  | nil => exact absurd rfl h
  | cons f t ih =>
    cases t with
    | nil => simp [QStringList.join]
    | cons g t =>
      have hne : (g :: t) ++ [[]] ≠ [] := by simp
      rw [List.cons_append, join_cons_cons c f _ hne, join_cons_cons c f _ (by simp), ih (by simp)]
      simp

theorem join_foldl_noEscape (c e : QChar) (s : QString) (he : e ∉ s) :
    ∀ l : List QString, l ≠ [] →
      QStringList.join c (s.foldl (splitBody c e) { list := l, escape := false }).list
        = QStringList.join c l ++ s := by
  induction s with
  | nil => intro l _; simp
  | cons ch cs ih =>
    intro l hl
    have hch : ch ≠ e := fun h => he (by simp [h])
    have hcs : e ∉ cs := fun h => he (by simp [h])
    by_cases hsep : ch = c
    · subst hsep
      have h1 : splitBody ch e { list := l, escape := false } ch
          = { list := l ++ [[]], escape := false } := by
        simp [splitBody, hch]
      rw [List.foldl_cons, h1, ih hcs (l ++ [[]]) (by simp), join_snoc_nil ch l hl]
      simp
    · have h1 : splitBody c e { list := l, escape := false } ch
          = { list := appendToBack l ch, escape := false } := by
        simp [splitBody, hch, hsep]
      rw [List.foldl_cons, h1, ih hcs _ (appendToBack_ne_nil ch l hl), join_appendToBack c ch l hl]
      simp

/-- C1: for every string `s`, separator `c` and non-empty escape string `e :: rest` whose first
character `e` does not occur in `s`, joining the fields of `RDStringList::split(c, s, esc)` with
`c` gives back exactly `s`. -/
theorem RDStringList_split_join_roundtrip (s : QString) (c e : QChar) (rest : QString)
    (h : e ∉ s) :
    QStringList.join c (RDStringList.split c s (e :: rest)) = s := by
  have := join_foldl_noEscape c e s h [[]] (by simp)
  simpa [RDStringList.split, QStringList.join] using this

theorem RDStringList_split_join_roundtrip_witness :
    QStringList.join ',' (RDStringList.split ',' "a,b,,c".toList "^".toList) = "a,b,,c".toList :=
  RDStringList_split_join_roundtrip "a,b,,c".toList ',' '^' [] (by decide)

theorem splitRec_ne_nil (sep e : QChar) (s : QString) :
    ∀ escape, splitRec sep e escape s ≠ [] := by
  induction s with
  | nil => intro _; simp [splitRec]
  | cons c cs ih =>
    intro escape
    unfold splitRec
    split
    · exact ih _
    · split
      · simp
      · cases h : splitRec sep e escape cs <;> simp [consHead]

theorem glue_nil_field (l : List QString) (hl : l ≠ []) : glue l [[]] = l := by
  induction l with
  | nil => exact absurd rfl hl
  | cons f t ih =>
    cases t with
    | nil => simp [glue]
    | cons g t => simp only [glue]; rw [ih (by simp)]

theorem glue_snoc_nil (l r : List QString) (hl : l ≠ []) (hr : r ≠ []) :
    glue (l ++ [[]]) r = glue l ([] :: r) := by
  induction l with
  | nil => exact absurd rfl hl
  | cons f t ih =>
    cases t with
    | nil =>
      cases r with
      | nil => exact absurd rfl hr
      | cons h t => simp [glue]
    | cons g t =>
      have : (f :: g :: t) ++ [[]] = f :: ((g :: t) ++ [[]]) := rfl
      rw [this]
      cases hgt : (g :: t) ++ [[]] with
      | nil => simp at hgt
      | cons a b =>
        simp only [glue]
        rw [← hgt, ih (by simp)]

theorem glue_appendToBack (l r : List QString) (ch : QChar) (hl : l ≠ []) (hr : r ≠ []) :
    glue (appendToBack l ch) r = glue l (consHead ch r) := by
  induction l with
  | nil => exact absurd rfl hl
  | cons f t ih =>
    cases t with
    | nil =>
      cases r with
      | nil => exact absurd rfl hr
      | cons h t => simp [appendToBack, glue, consHead]
    | cons g t =>
      simp only [appendToBack]
      cases hgt : appendToBack (g :: t) ch with
      | nil => exact absurd hgt (appendToBack_ne_nil ch _ (by simp))
      | cons a b =>
        simp only [glue]
        rw [← hgt, ih (by simp)]

theorem foldl_splitBody_eq_glue (sep e : QChar) (s : QString) :
    ∀ (l : List QString) (escape : Bool), l ≠ [] →
      (s.foldl (splitBody sep e) { list := l, escape := escape }).list
        = glue l (splitRec sep e escape s) := by
  induction s with
  | nil => intro l escape hl; simp [splitRec, glue_nil_field l hl]
  | cons c cs ih =>
    intro l escape hl
    rw [List.foldl_cons]
    unfold splitRec
    by_cases h1 : c = e
    · have hb : splitBody sep e { list := l, escape := escape } c
          = { list := l, escape := !escape } := by simp [splitBody, h1]
      rw [hb, if_pos h1, ih l _ hl]
    · by_cases h2 : ((!escape) && decide (c = sep)) = true
      · have hb : splitBody sep e { list := l, escape := escape } c
            = { list := l ++ [[]], escape := escape } := by
          simp only [splitBody, if_neg h1, if_pos h2]
        rw [hb, if_neg h1, if_pos h2, ih _ _ (by simp),
          glue_snoc_nil l _ hl (splitRec_ne_nil sep e cs escape)]
      · have hb : splitBody sep e { list := l, escape := escape } c
            = { list := appendToBack l c, escape := escape } := by
          simp only [splitBody, if_neg h1, if_neg h2]
        rw [hb, if_neg h1, if_neg h2, ih _ _ (appendToBack_ne_nil c l hl),
          glue_appendToBack l _ c hl (splitRec_ne_nil sep e cs escape)]

theorem glue_singleton_nil (r : List QString) (hr : r ≠ []) : glue [[]] r = r := by
  cases r with
  | nil => exact absurd rfl hr
  | cons h t => simp [glue]

theorem split_eq_splitRec (sep e : QChar) (rest str : QString) :
    RDStringList.split sep str (e :: rest) = splitRec sep e false str := by
  simp only [RDStringList.split]
  rw [foldl_splitBody_eq_glue sep e str [[]] false (by simp),
    glue_singleton_nil _ (splitRec_ne_nil sep e str false)]

theorem separatorsFrom_cons (sep e c : QChar) (r k : Nat) (cs : QString) :
    separatorsFrom sep e r k (c :: cs)
      = (if c = sep ∧ k % 2 = r then [0] else [])
        ++ (separatorsFrom sep e r (k + if c = e then 1 else 0) cs).map Nat.succ := by
  unfold separatorsFrom
  rw [List.length_cons, List.range_succ_eq_map, List.filter_cons, List.filter_map]
  have hpred : ((fun i => (c :: cs)[i]? == some sep &&
        (List.count e (List.take i (c :: cs)) + k) % 2 == r) ∘ Nat.succ)
      = (fun i => cs[i]? == some sep &&
        (List.count e (List.take i cs) + (k + if c = e then 1 else 0)) % 2 == r) := by
    funext i
    simp only [Function.comp, Nat.succ_eq_add_one, List.getElem?_cons_succ, List.take_succ_cons,
      List.count_cons]
    by_cases h : c = e
    · subst h
      simp only [beq_self_eq_true, if_true]
      rw [Nat.add_assoc, Nat.add_comm 1 k]
    · have h' : (c == e) = false := by simpa using h
      simp [h, h']
  rw [hpred]
  by_cases h0 : c = sep ∧ k % 2 = r
  · simp [h0]
  · rw [if_neg h0]
    have : ((c :: cs)[0]? == some sep && (List.count e (List.take 0 (c :: cs)) + k) % 2 == r)
        = false := by
      simp only [List.getElem?_cons_zero, List.take_zero, List.count_nil, Nat.zero_add]
      by_cases hc : c = sep
      · have : k % 2 ≠ r := fun hk => h0 ⟨hc, hk⟩
        simp [hc, this]
      · simp [hc]
    rw [this]
    simp

theorem unescapedSeparators_eq (sep e : QChar) (str : QString) :
    unescapedSeparators sep e str = separatorsFrom sep e 0 0 str := rfl

theorem escapedSeparators_eq (sep e : QChar) (str : QString) :
    escapedSeparators sep e str = separatorsFrom sep e 1 0 str := rfl

theorem fieldText_succ (e c : QChar) (cs : QString) (a b : Nat) :
    fieldText e (c :: cs) (a + 1) (b + 1) = fieldText e cs a b := by
  simp [fieldText]

theorem fieldText_zero_succ (e c : QChar) (cs : QString) (b : Nat) :
    fieldText e (c :: cs) 0 (b + 1)
      = (if c = e then [] else [c]) ++ fieldText e cs 0 b := by
  by_cases h : c = e <;> simp [fieldText, List.filter_cons, h]

theorem cutFields_succ (e c : QChar) (cs : QString) (ps : List Nat) :
    ∀ a, cutFields e (c :: cs) (a + 1) (ps.map Nat.succ) = cutFields e cs a ps := by
  induction ps with
  | nil => intro a; simp [cutFields, fieldText_succ]
  | cons p ps ih => intro a; simp [cutFields, fieldText_succ, ih]

theorem cutFields_zero_succ (e c : QChar) (cs : QString) (ps : List Nat) :
    cutFields e (c :: cs) 0 (ps.map Nat.succ)
      = if c = e then cutFields e cs 0 ps else consHead c (cutFields e cs 0 ps) := by
  cases ps with
  | nil =>
    by_cases h : c = e <;> simp [cutFields, fieldText_zero_succ, h, consHead]
  | cons p ps =>
    by_cases h : c = e <;>
      simp [cutFields, fieldText_zero_succ, h, consHead, cutFields_succ]

theorem splitRec_eq_cutFields (sep e : QChar) (hne : e ≠ sep) (s : QString) :
    ∀ k : Nat, splitRec sep e (k % 2 == 1) s
      = cutFields e s 0 (separatorsFrom sep e 0 k s) := by
  induction s with
  | nil => intro k; simp [splitRec, separatorsFrom, cutFields, fieldText]
  | cons c cs ih =>
    intro k
    rw [separatorsFrom_cons]
    unfold splitRec
    by_cases h1 : c = e
    · have hsep : ¬ (c = sep ∧ k % 2 = 0) := fun h => hne (h1 ▸ h.1)
      have hk : (!(k % 2 == 1)) = ((k + 1) % 2 == 1) := by
        rcases Nat.mod_two_eq_zero_or_one k with h | h <;> simp [h, Nat.add_mod]
      rw [if_pos h1, if_neg hsep, List.nil_append, cutFields_zero_succ, if_pos h1, if_pos h1, hk,
        ih (k + 1)]
    · rw [if_neg h1, if_neg h1, Nat.add_zero]
      by_cases h2 : c = sep ∧ k % 2 = 0
      · have hb : ((!(k % 2 == 1)) && decide (c = sep)) = true := by simp [h2.1, h2.2]
        rw [if_pos hb, if_pos h2, ih k]
        simp [cutFields, fieldText, cutFields_succ]
      · have hb : ¬ (((!(k % 2 == 1)) && decide (c = sep)) = true) := by
          intro hb
          simp only [Bool.and_eq_true, Bool.not_eq_true', beq_eq_false_iff_ne, ne_eq,
            decide_eq_true_eq] at hb
          exact h2 ⟨hb.2, by omega⟩
        rw [if_neg hb, if_neg h2, List.nil_append, cutFields_zero_succ, if_neg h1, ih k]

theorem split_eq_splitSpec (str : QString) (sep e : QChar) (rest : QString) (hne : e ≠ sep) :
    RDStringList.split sep str (e :: rest) = splitSpec sep e str := by
  rw [split_eq_splitRec, splitSpec, unescapedSeparators_eq]
  exact splitRec_eq_cutFields sep e hne str 0

theorem cutFields_length (e : QChar) (str : QString) (ps : List Nat) :
    ∀ a, (cutFields e str a ps).length = 1 + ps.length := by
  induction ps with
  | nil => intro a; simp [cutFields]
  | cons p ps ih => intro a; simp [cutFields, ih]; omega

theorem flatten_consHead (c : QChar) (l : List QString) :
    (consHead c l).flatten = c :: l.flatten := by
  cases l <;> simp [consHead]

theorem splitRec_count_sep (sep e : QChar) (hne : e ≠ sep) (s : QString) :
    ∀ k : Nat, (splitRec sep e (k % 2 == 1) s).flatten.count sep
      = (separatorsFrom sep e 1 k s).length := by
  induction s with
  | nil => intro k; simp [splitRec, separatorsFrom]
  | cons c cs ih =>
    intro k
    rw [separatorsFrom_cons]
    unfold splitRec
    by_cases h1 : c = e
    · have hsep : ¬ (c = sep ∧ k % 2 = 1) := fun h => hne (h1 ▸ h.1)
      have hk : (!(k % 2 == 1)) = ((k + 1) % 2 == 1) := by
        rcases Nat.mod_two_eq_zero_or_one k with h | h <;> simp [h, Nat.add_mod]
      rw [if_pos h1, if_neg hsep, if_pos h1, hk, ih (k + 1)]
      simp
    · rw [if_neg h1, if_neg h1, Nat.add_zero]
      by_cases hc : c = sep
      · rcases Nat.mod_two_eq_zero_or_one k with hk | hk
        · have hb : ((!(k % 2 == 1)) && decide (c = sep)) = true := by simp [hc, hk]
          have h2 : ¬ (c = sep ∧ k % 2 = 1) := by omega
          rw [if_pos hb, if_neg h2]
          simp [ih k]
        · have hb : ¬ (((!(k % 2 == 1)) && decide (c = sep)) = true) := by simp [hk]
          have h2 : c = sep ∧ k % 2 = 1 := ⟨hc, hk⟩
          rw [if_neg hb, if_pos h2, flatten_consHead]
          simp [ih k, hc]
      · have hb : ¬ (((!(k % 2 == 1)) && decide (c = sep)) = true) := by simp [hc]
        have h2 : ¬ (c = sep ∧ k % 2 = 1) := fun h => hc h.1
        have hc' : (c == sep) = false := by simpa using hc
        rw [if_neg hb, if_neg h2, flatten_consHead]
        simp [ih k, List.count_cons, hc']

/-- C2: for every string `str`, separator `sep` and non-empty escape string `e :: rest` with
`e ≠ sep`, `RDStringList::split(sep, str, esc)` cuts `str` exactly at the separators preceded
by an even number of `e` characters (`splitSpec`), each field being the text between two cuts
without its `e` characters; the number of fields is 1 + the number of those separators; and
every separator preceded by an odd number of `e` characters stays in the text of a field. -/
theorem RDStringList_split_fields (str : QString) (sep e : QChar) (rest : QString) (hne : e ≠ sep) :
    RDStringList.split sep str (e :: rest) = splitSpec sep e str ∧
    (RDStringList.split sep str (e :: rest)).length
      = 1 + (unescapedSeparators sep e str).length ∧
    (RDStringList.split sep str (e :: rest)).flatten.count sep
      = (escapedSeparators sep e str).length := by
  refine ⟨split_eq_splitSpec str sep e rest hne, ?_, ?_⟩
  · rw [split_eq_splitSpec str sep e rest hne, splitSpec, cutFields_length]
  · rw [split_eq_splitRec, escapedSeparators_eq]
    exact splitRec_count_sep sep e hne str 0

theorem RDStringList_split_fields_witness :
    RDStringList.split ',' "a,b^c,d^e,,f".toList "^".toList
        = splitSpec ',' '^' "a,b^c,d^e,,f".toList ∧
    splitSpec ',' '^' "a,b^c,d^e,,f".toList
        = ["a".toList, "bc,de".toList, [], "f".toList] ∧
    unescapedSeparators ',' '^' "a,b^c,d^e,,f".toList = [1, 9, 10] ∧
    escapedSeparators ',' '^' "a,b^c,d^e,,f".toList = [5] :=
  ⟨(RDStringList_split_fields "a,b^c,d^e,,f".toList ',' '^' [] (by decide)).1,
    by decide, by decide, by decide⟩

theorem skipDbCheck_foldl_true (keys : List String) :
    keys.foldl (fun skip key => if key = "--skip-db-check" then true else skip) true = true := by
  induction keys with
  | nil => rfl
  | cons k ks ih => simp only [List.foldl_cons]; split <;> exact ih

theorem skipDbCheck_iff (keys : List String) :
    skipDbCheck keys = true ↔ "--skip-db-check" ∈ keys := by
  unfold skipDbCheck
  induction keys with
  | nil => simp
  | cons k ks ih =>
    simp only [List.foldl_cons, List.mem_cons]
    by_cases h : k = "--skip-db-check"
    · rw [if_pos h]
      exact ⟨fun _ => Or.inl h.symm, fun _ => skipDbCheck_foldl_true ks⟩
    · rw [if_neg h, ih]
      constructor
      · exact fun hm => Or.inr hm
      · rintro (h' | h')
        · exact absurd h'.symm h
        · exact h'

theorem skipDbCheck_eq_false (keys : List String) (h : "--skip-db-check" ∉ keys) :
    skipDbCheck keys = false := by
  cases hs : skipDbCheck keys with
  | false => rfl
  | true => exact absurd ((skipDbCheck_iff keys).1 hs) h

/-- C3: when the database opens and reports schema version `v` (for
`RDCoreApplication::open`: the service check, if any, having passed): without
`--skip-db-check`, a `v` different from `RD_VERSION_DATABASE` makes both `open` functions
return false with the "Database version mismatch" message (and `ErrorDbVersionSkew` through
`err_type`); with `--skip-db-check`, both succeed whatever `v` is (`RDCoreApplication::open`
for a host that has its Hosts entry, the check that follows the schema gate), leaving in
`*err_msg` the text it held (the "OK" of the service check when that was run). -/
theorem open_schema_version_gate (tr : String → String) (RD_VERSION_DATABASE : Nat)
    (keys : List String) (schema : Nat) (db_err err_msg : String)
    (env : CoreEnv) (err_type : Option ErrorType) (check_svc : Bool)
    (hsvc : check_svc = false ∨ env.svc_ok = true) (hdb : env.db.opened = true) :
    ("--skip-db-check" ∉ keys → schema ≠ RD_VERSION_DATABASE →
      RDApplication.open tr RD_VERSION_DATABASE keys true schema db_err err_msg
        = (false, versionMismatchMsg tr RD_VERSION_DATABASE (toString schema))) ∧
    ("--skip-db-check" ∈ keys →
      RDApplication.open tr RD_VERSION_DATABASE keys true schema db_err err_msg
        = (true, err_msg)) ∧
    ("--skip-db-check" ∉ env.keys → env.db.schema ≠ (RD_VERSION_DATABASE : Int) →
      RDCoreApplication.open tr RD_VERSION_DATABASE env err_msg err_type check_svc
        = { ret := false,
            err_msg := versionMismatchMsg tr RD_VERSION_DATABASE (fmtU env.db.schema),
            err_type := err_type.map (fun _ => ErrorType.ErrorDbVersionSkew) }) ∧
    ("--skip-db-check" ∈ env.keys → env.station_exists = true →
      RDCoreApplication.open tr RD_VERSION_DATABASE env err_msg err_type check_svc
        = { ret := true, err_msg := if check_svc then tr "OK" else err_msg,
            err_type := err_type.map (fun _ => ErrorType.ErrorOk) }) := by
  have hs : (check_svc && !(RDCoreApplication.CheckService tr env).1) = false := by
    rcases hsvc with h | h <;> simp [h, RDCoreApplication.CheckService]
  have hm : (if check_svc then (RDCoreApplication.CheckService tr env).2 else err_msg) =
      if check_svc then tr "OK" else err_msg := by
    rcases hsvc with h | h <;> simp [h, RDCoreApplication.CheckService]
  refine ⟨?_, ?_, ?_, ?_⟩
  · intro hk hv
    have hv' : (RD_VERSION_DATABASE != schema) = true := by
      simpa using fun h => hv h.symm
    simp [RDApplication.open, skipDbCheck_eq_false keys hk, hv']
  · intro hk
    simp [RDApplication.open, (skipDbCheck_iff keys).2 hk]
  · intro hk hv
    have hv' : ((RD_VERSION_DATABASE : Int) != env.db.schema) = true := by
      simpa using fun h => hv h.symm
    cases err_type <;>
      simp [RDCoreApplication.open, hs, hdb, skipDbCheck_eq_false env.keys hk, hv']
  · intro hk hst
    simp only [RDCoreApplication.open, hs, hm]
    simp [hdb, (skipDbCheck_iff env.keys).2 hk, hst]

/-- C3, witness: with schema 300 where 347 is expected, `RDApplication::open` succeeds under
`--skip-db-check`; `RDCoreApplication::open` fails with the mismatch error without the
switch, and succeeds with it after a service check, leaving "OK" in the message. -/
theorem open_schema_version_gate_witness :
    (RDApplication.open id 347 ["--skip-db-check"] true 300 "" "" = (true, "")) ∧
    (RDCoreApplication.open id 347
        ⟨[], false, "Rivendell service is not active.", ⟨true, 300, ""⟩, "studio1", true⟩
        "" (some ErrorType.ErrorOk) false
      = { ret := false, err_msg := versionMismatchMsg id 347 (fmtU 300),
          err_type := some ErrorType.ErrorDbVersionSkew }) ∧
    (RDCoreApplication.open id 347
        ⟨["--skip-db-check"], true, "", ⟨true, 300, ""⟩, "studio1", true⟩
        "" (some ErrorType.ErrorNoService) true
      = { ret := true, err_msg := if true then id "OK" else "",
          err_type := some ErrorType.ErrorOk }) :=
  have h := open_schema_version_gate id 347 ["--skip-db-check"] 300 "" ""
    ⟨[], false, "Rivendell service is not active.", ⟨true, 300, ""⟩, "studio1", true⟩
    (some ErrorType.ErrorOk) false (Or.inl rfl) rfl
  have h' := open_schema_version_gate id 347 [] 300 "" ""
    ⟨["--skip-db-check"], true, "", ⟨true, 300, ""⟩, "studio1", true⟩
    (some ErrorType.ErrorNoService) true (Or.inr rfl) rfl
  ⟨h.2.1 (by decide), h.2.2.1 (by decide) (by decide), h'.2.2.2 (by decide) rfl⟩

/-- C4: what `RDCoreApplication::open` does when the database cannot be opened (the service
check, if any, having passed): it returns false with the "Unable to open database [...]"
message, and `*err_type` is left at `ErrorOk`, the value stored on entry. -/
theorem open_db_unavailable (tr : String → String) (RD_VERSION_DATABASE : Nat)
    (env : CoreEnv) (err_msg : String) (err_type : Option ErrorType) (check_svc : Bool)
    (hsvc : check_svc = false ∨ env.svc_ok = true) (hdb : env.db.opened = false) :
    RDCoreApplication.open tr RD_VERSION_DATABASE env err_msg err_type check_svc
      = { ret := false,
          err_msg := tr "Unable to open database" ++ " [" ++ env.db.db_err ++ "]",
          err_type := err_type.map (fun _ => ErrorType.ErrorOk) } := by
  have hs : (check_svc && !(RDCoreApplication.CheckService tr env).1) = false := by
    rcases hsvc with h | h <;> simp [h, RDCoreApplication.CheckService]
  simp [RDCoreApplication.open, hs, hdb, dbUnavailableMsg]

theorem open_db_unavailable_witness :
    RDCoreApplication.open id 347
        ⟨[], true, "OK", ⟨false, 0, "connection refused"⟩, "studio1", true⟩
        "" (some ErrorType.ErrorNoService) true
      = { ret := false, err_msg := "Unable to open database [connection refused]",
          err_type := some ErrorType.ErrorOk } :=
  open_db_unavailable id 347
    ⟨[], true, "OK", ⟨false, 0, "connection refused"⟩, "studio1", true⟩
    "" (some ErrorType.ErrorNoService) true (Or.inr rfl) rfl

theorem QString_split_of_not_mem (sep : QChar) (s : QString) (h : sep ∉ s) :
    QString.split sep s = [s] := by
  induction s with
  | nil => rfl
  | cons c cs ih =>
    have hc : c ≠ sep := fun hc => h (by simp [hc])
    have hcs : sep ∉ cs := fun hm => h (by simp [hm])
    simp [QString.split, hc, ih hcs]

theorem QString_split_append (sep : QChar) (T A : QString) (hT : sep ∉ T) :
    QString.split sep (T ++ sep :: A) = T :: QString.split sep A := by
  induction T with
  | nil => simp [QString.split]
  | cons c cs ih =>
    have hc : c ≠ sep := fun hc => hT (by simp [hc])
    have hcs : sep ∉ cs := fun hm => hT (by simp [hm])
    simp [QString.split, hc, ih hcs]

theorem QString_split_pair (sep : QChar) (T A : QString) (hT : sep ∉ T) (hA : sep ∉ A) :
    QString.split sep (T ++ sep :: A) = [T, A] := by
  rw [QString_split_append sep T A hT, QString_split_of_not_mem sep A hA]

theorem ticketRowMatches_iff (T A : QString) (now : Int) (row : WebapiAuth) :
    ticketRowMatches T A now row = true
      ↔ row.TICKET = T ∧ row.IPV4_ADDRESS = A ∧ now < row.EXPIRATION_DATETIME := by
  simp [ticketRowMatches, and_assoc]

/-- C5: `RDCoreApplication::userChangedData` with the non-empty ticket `T:A` (`T`, `A` free of
colons). If the ticket table holds a row with ticket `T`, address `A` and an expiration later
than `now`, the slot returns with the user name set to the login name of such a row (the first
one the query yields; that very row's login name when the matching rows agree on it) and
`userChanged` emitted once. If every row with ticket `T` and address `A` is expired, or there
is none, the process exits with `ExitBadTicket` and the application is unchanged. The same
exit is taken by every non-empty ticket that does not split into exactly two fields. -/
theorem userChangedData_ticket (T A ripc_user : QString) (table : List WebapiAuth) (now : Int)
    (app : CoreApp) (hT : ':' ∉ T) (hA : ':' ∉ A) :
    (∀ row ∈ table, row.TICKET = T → row.IPV4_ADDRESS = A → now < row.EXPIRATION_DATETIME →
      ∃ q ∈ table, q.TICKET = T ∧ q.IPV4_ADDRESS = A ∧ now < q.EXPIRATION_DATETIME ∧
        ((∀ r ∈ table, r.TICKET = T → r.IPV4_ADDRESS = A → now < r.EXPIRATION_DATETIME →
            r.LOGIN_NAME = row.LOGIN_NAME) → q.LOGIN_NAME = row.LOGIN_NAME) ∧
        RDCoreApplication.userChangedData (T ++ ':' :: A) ripc_user table now app
          = .returned { user_name := q.LOGIN_NAME,
                        userChanged_emitted := app.userChanged_emitted + 1 }) ∧
    ((∀ row ∈ table, row.TICKET = T → row.IPV4_ADDRESS = A →
        row.EXPIRATION_DATETIME ≤ now) →
      RDCoreApplication.userChangedData (T ++ ':' :: A) ripc_user table now app
        = .exited ExitCode.ExitBadTicket app) ∧
    (∀ ticket : QString, ticket ≠ [] → (QString.split ':' ticket).length ≠ 2 →
      RDCoreApplication.userChangedData ticket ripc_user table now app
        = .exited ExitCode.ExitBadTicket app) := by
  have hsplit := QString_split_pair ':' T A hT hA
  have hne : (T ++ ':' :: A).isEmpty = false := by cases T <;> rfl
  refine ⟨?_, ?_, ?_⟩
  · intro row hrow h1 h2 h3
    have hm : ticketRowMatches T A now row = true :=
      (ticketRowMatches_iff T A now row).2 ⟨h1, h2, h3⟩
    cases hf : table.find? (ticketRowMatches T A now) with
    | none =>
      have := List.find?_eq_none.1 hf row hrow
      exact absurd hm this
    | some q =>
      have hq := (ticketRowMatches_iff T A now q).1 (List.find?_some hf)
      have hqm : q ∈ table := List.mem_of_find?_eq_some hf
      refine ⟨q, hqm, hq.1, hq.2.1, hq.2.2, fun hall => hall q hqm hq.1 hq.2.1 hq.2.2, ?_⟩
      simp [RDCoreApplication.userChangedData, hne, hsplit, hf]
  · intro hall
    have hf : table.find? (ticketRowMatches T A now) = none := by
      rw [List.find?_eq_none]
      intro row hrow hm
      have h := (ticketRowMatches_iff T A now row).1 hm
      have := hall row hrow h.1 h.2.1
      omega
    simp [RDCoreApplication.userChangedData, hne, hsplit, hf]
  · intro ticket hne' hlen
    have he : ticket.isEmpty = false := by cases ticket <;> simp_all
    unfold RDCoreApplication.userChangedData
    rw [he]
    simp only [Bool.false_eq_true, if_false]
    split
    · rename_i h; rw [h] at hlen; simp at hlen
    · rfl

theorem userChangedData_ticket_witness :
    RDCoreApplication.userChangedData "abc:10.0.0.5".toList "user".toList sampleAuths 100
        ⟨"user".toList, 0⟩
      = .returned ⟨"alice".toList, 1⟩ ∧
    RDCoreApplication.userChangedData "abc:10.0.0.5".toList "user".toList sampleAuths 300
        ⟨"user".toList, 0⟩
      = .exited ExitCode.ExitBadTicket ⟨"user".toList, 0⟩ ∧
    RDCoreApplication.userChangedData "abc:10.0.0.5:x".toList "user".toList sampleAuths 100
        ⟨"user".toList, 0⟩
      = .exited ExitCode.ExitBadTicket ⟨"user".toList, 0⟩ := by
  have h := userChangedData_ticket "abc".toList "10.0.0.5".toList "user".toList sampleAuths 100
    ⟨"user".toList, 0⟩ (by decide) (by decide)
  have h' := userChangedData_ticket "abc".toList "10.0.0.5".toList "user".toList sampleAuths 300
    ⟨"user".toList, 0⟩ (by decide) (by decide)
  refine ⟨?_, ?_, ?_⟩
  · obtain ⟨q, _, _, _, _, hq, hr⟩ := h.1 _ (List.mem_cons_of_mem _ (List.mem_singleton.2 rfl))
      rfl rfl (by decide)
    rw [show ("abc:10.0.0.5".toList : QString) = "abc".toList ++ ':' :: "10.0.0.5".toList from rfl,
      hr, hq (by decide)]
  · exact h'.2.1 (by decide)
  · exact h.2.2 _ (by decide) (by decide)

/-- C6: for a direction `dir` (0 or 1) and an audio channel `achan ≥ 0` whose timers are
allocated: if the timer of the opposite direction is active, `AssertChannelLock` stops that
timer, returns false and leaves the timer of direction `dir` as it was; if it is not active,
the timer of direction `dir` is started with `AIR_CHANNEL_LOCKOUT_INTERVAL` and the result is
true. For `achan < 0` the result is false and no timer changes. -/
theorem AssertChannelLock_spec (AIR_CHANNEL_LOCKOUT_INTERVAL : Int) (ts : ChannelTimers)
    (dir achan : Int) (hdir : dir = 0 ∨ dir = 1) :
    (0 ≤ achan → ∀ ot, ts (1 - dir) achan = some ot → ot.active = true →
      AssertChannelLock AIR_CHANNEL_LOCKOUT_INTERVAL ts dir achan
        = some (false, ts.set (1 - dir) achan { ot with active := false }) ∧
      (ts.set (1 - dir) achan { ot with active := false }) dir achan = ts dir achan) ∧
    (0 ≤ achan → ∀ ot t, ts (1 - dir) achan = some ot → ot.active = false →
      ts dir achan = some t →
      AssertChannelLock AIR_CHANNEL_LOCKOUT_INTERVAL ts dir achan
        = some (true, ts.set dir achan
            { active := true, interval := AIR_CHANNEL_LOCKOUT_INTERVAL })) ∧
    (achan < 0 →
      AssertChannelLock AIR_CHANNEL_LOCKOUT_INTERVAL ts dir achan = some (false, ts)) := by
  have hodir : (if dir = 0 then (1 : Int) else 0) = 1 - dir := by
    rcases hdir with h | h <;> simp [h]
  have hne : 1 - dir ≠ dir := by omega
  refine ⟨?_, ?_, ?_⟩
  · intro ha ot hot hact
    constructor
    · simp [AssertChannelLock, ha, hodir, hot, hact, QTimer.stop]
    · simp [ChannelTimers.set, hne.symm]
  · intro ha ot t hot hact ht
    simp [AssertChannelLock, ha, hodir, hot, hact, ht, QTimer.start]
  · intro ha
    have : ¬ (achan ≥ 0) := by omega
    simp [AssertChannelLock, this]

theorem ChannelTimers_set_other (ts : ChannelTimers) (dir achan d a : Int) (t : QTimer)
    (h : ¬ (d = dir ∧ a = achan)) : (ts.set dir achan t) d a = ts d a := by
  simp [ChannelTimers.set, h]

theorem ChannelTimers_set_same (ts : ChannelTimers) (dir achan : Int) (t : QTimer) :
    (ts.set dir achan t) dir achan = some t := by
  simp [ChannelTimers.set]

theorem AssertChannelLock_spec_witness :
    AssertChannelLock 1000 (idleTimers.set 1 3 { active := true, interval := 1000 }) 0 3
      = some (false, (idleTimers.set 1 3 { active := true, interval := 1000 }).set (1 - 0) 3
          { active := false, interval := 1000 }) :=
  ((AssertChannelLock_spec 1000 (idleTimers.set 1 3 { active := true, interval := 1000 }) 0 3
    (Or.inl rfl)).1 (by decide) { active := true, interval := 1000 } rfl rfl).1

theorem startGpo_initGpio (conf : ChannelConf) (chan : Channel) :
    startGpo (initGpio conf) chan
      = if chan = .MainLog2Channel ∧ mainLog2Folded conf = true then []
        else specStartRml (conf.startGpoMatrix chan) (conf.startGpoLine chan)
          (conf.gpioType chan) := by
  by_cases hf : mainLog2Folded conf = true
  · by_cases hc : chan = .MainLog2Channel
    · simp [startGpo, initGpio, fixupMainLogGpio, loadGpioConfiguration, hf, hc, setChan]
    · simp only [startGpo, initGpio, fixupMainLogGpio, loadGpioConfiguration, hf, hc, setChan,
        specStartRml, goCommand, if_true, if_false, false_and, Int.sub_add_cancel]
      cases h : conf.gpioType chan <;> simp [h, String.append_assoc]
  · simp only [startGpo, initGpio, fixupMainLogGpio, loadGpioConfiguration, hf,
      specStartRml, goCommand, if_false, and_false, Int.sub_add_cancel]
    cases h : conf.gpioType chan <;> simp [h, String.append_assoc]

theorem stopGpo_initGpio (conf : ChannelConf) (chan : Channel) :
    stopGpo (initGpio conf) chan
      = if chan = .MainLog2Channel ∧ mainLog2Folded conf = true then []
        else specStopRml (conf.stopGpoMatrix chan) (conf.stopGpoLine chan)
          (conf.gpioType chan) := by
  by_cases hf : mainLog2Folded conf = true
  · by_cases hc : chan = .MainLog2Channel
    · simp [stopGpo, initGpio, fixupMainLogGpio, loadGpioConfiguration, hf, hc, setChan]
    · simp only [stopGpo, initGpio, fixupMainLogGpio, loadGpioConfiguration, hf, hc, setChan,
        specStopRml, goCommand, if_true, if_false, false_and, Int.sub_add_cancel]
      cases h : conf.gpioType chan <;> simp [h, String.append_assoc]
  · simp only [stopGpo, initGpio, fixupMainLogGpio, loadGpioConfiguration, hf,
      specStopRml, goCommand, if_false, and_false, Int.sub_add_cancel]
    cases h : conf.gpioType chan <;> simp [h, String.append_assoc]

theorem logChannelStartedData_of_lock (RD_MAX_PORTS AIR_CHANNEL_LOCKOUT_INTERVAL : Int)
    (t : GpioTables) (ts ts1 : ChannelTimers) (id mport card port : Int) (chan : Channel)
    (hchan : logChannel id mport = some chan)
    (hlock : AssertChannelLockPort RD_MAX_PORTS AIR_CHANNEL_LOCKOUT_INTERVAL ts 0 card port
      = some (true, ts1)) :
    logChannelStartedData RD_MAX_PORTS AIR_CHANNEL_LOCKOUT_INTERVAL t ts id mport card port
      = some (ts1, startGpo t chan) := by
  unfold logChannelStartedData
  rw [hlock]
  unfold logChannel at hchan
  split at hchan
  · split at hchan <;> simp_all
  · simp_all
  · simp_all
  · simp_all

theorem logChannelStoppedData_of_chan (t : GpioTables) (id mport card port : Int)
    (chan : Channel) (hchan : logChannel id mport = some chan) :
    logChannelStoppedData t id mport card port = stopGpo t chan := by
  unfold logChannelStoppedData
  unfold logChannel at hchan
  split at hchan
  · split at hchan <;> simp_all
  · simp_all
  · simp_all
  · simp_all

/-- C10, amended: for every log or sound-panel channel other than a Main Log 2 folded into Main
Log 1 by the constructor (same card and port as Main Log 1, or a negative card), with
configured start GPO matrix `m` and 1-based line `l`: a channel-started event that passes the
channel lock executes exactly `GO m l 1 0!` for a level-type GPIO and `GO m l 1 300!` for an
edge-type GPIO when `m ≥ 0`, and nothing when `m < 0`; a channel-stopped event does the same
with the stop GPO matrix and line and `GO m l 0 0!` for level type. For a folded Main Log 2
neither event executes anything. -/
theorem channel_gpo_trigger (RD_MAX_PORTS AIR_CHANNEL_LOCKOUT_INTERVAL : Int)
    (conf : ChannelConf) (ts ts1 : ChannelTimers) (chan : Channel) :
    (∀ id mport card port : Int, logChannel id mport = some chan →
      AssertChannelLockPort RD_MAX_PORTS AIR_CHANNEL_LOCKOUT_INTERVAL ts 0 card port
        = some (true, ts1) →
      logChannelStartedData RD_MAX_PORTS AIR_CHANNEL_LOCKOUT_INTERVAL (initGpio conf) ts
          id mport card port
        = some (ts1,
            if chan = .MainLog2Channel ∧ mainLog2Folded conf = true then []
            else specStartRml (conf.startGpoMatrix chan) (conf.startGpoLine chan)
              (conf.gpioType chan))) ∧
    (∀ id mport card port : Int, logChannel id mport = some chan →
      logChannelStoppedData (initGpio conf) id mport card port
        = if chan = .MainLog2Channel ∧ mainLog2Folded conf = true then []
          else specStopRml (conf.stopGpoMatrix chan) (conf.stopGpoLine chan)
            (conf.gpioType chan)) ∧
    (∀ mport card port : Int, PanelChannel mport = chan →
      AssertChannelLockPort RD_MAX_PORTS AIR_CHANNEL_LOCKOUT_INTERVAL ts 0 card port
        = some (true, ts1) →
      panelChannelStartedData RD_MAX_PORTS AIR_CHANNEL_LOCKOUT_INTERVAL (initGpio conf) ts
          mport card port
        = some (ts1, specStartRml (conf.startGpoMatrix chan) (conf.startGpoLine chan)
            (conf.gpioType chan))) ∧
    (∀ mport card port : Int, PanelChannel mport = chan →
      panelChannelStoppedData (initGpio conf) mport card port
        = specStopRml (conf.stopGpoMatrix chan) (conf.stopGpoLine chan)
            (conf.gpioType chan)) := by
  have hpanel : ∀ mport : Int, PanelChannel mport ≠ .MainLog2Channel := by
    intro mport
    unfold PanelChannel
    split <;> simp
  refine ⟨?_, ?_, ?_, ?_⟩
  · intro id mport card port hchan hlock
    rw [logChannelStartedData_of_lock _ _ _ _ _ _ _ _ _ chan hchan hlock, startGpo_initGpio]
  · intro id mport card port hchan
    rw [logChannelStoppedData_of_chan _ _ _ _ _ chan hchan, stopGpo_initGpio]
  · intro mport card port hchan hlock
    have hne : ¬ (chan = .MainLog2Channel ∧ mainLog2Folded conf = true) :=
      fun h => hpanel mport (hchan.trans h.1)
    simp only [panelChannelStartedData, hlock, hchan, startGpo_initGpio, if_neg hne]
  · intro mport card port hchan
    have hne : ¬ (chan = .MainLog2Channel ∧ mainLog2Folded conf = true) :=
      fun h => hpanel mport (hchan.trans h.1)
    simp only [panelChannelStoppedData, hchan, stopGpo_initGpio, if_neg hne]

theorem channel_gpo_trigger_witness :
    logChannelStartedData 2 1000 (initGpio sharedPortConf) idleTimers 1 0 0 0
        = some (idleTimers.set 0 0 { active := true, interval := 1000 }, ["GO 0 1 1 0!"]) ∧
    logChannelStoppedData (initGpio sharedPortConf) 1 0 0 0 = ["GO 0 1 0 0!"] :=
  have h := channel_gpo_trigger 2 1000 sharedPortConf idleTimers
    (idleTimers.set 0 0 { active := true, interval := 1000 }) .AuxLog1Channel
  ⟨h.1 1 0 0 0 rfl rfl, h.2.1 1 0 0 0 rfl⟩

/-- C10, counterexample: Main Log 2 is configured with start and stop GPO matrix 0, line 1,
level type, on the card and port of Main Log 1. Its channel-started event passes the channel
lock and its channel-stopped event arrives, and neither executes a command. -/
theorem mainLog2_gpo_counterexample :
    sharedPortConf.startGpoMatrix .MainLog2Channel = 0 ∧
    sharedPortConf.startGpoLine .MainLog2Channel = 1 ∧
    sharedPortConf.gpioType .MainLog2Channel = .LevelGpio ∧
    (AssertChannelLockPort 2 1000 idleTimers 0 0 0).map Prod.fst = some true ∧
    (logChannelStartedData 2 1000 (initGpio sharedPortConf) idleTimers 0 1 0 0).map Prod.snd
      = some [] ∧
    logChannelStoppedData (initGpio sharedPortConf) 0 1 0 0 = [] := by
  decide

theorem SetActionModeDirect_air_log (mode : Mode) (w : ActionState) :
    (SetActionModeDirect mode w).air_log = w.air_log := by
  unfold SetActionModeDirect
  split
  · rfl
  · cases mode <;> rfl

theorem enterAddFrom_air_log (w : ActionState) : (enterAddFrom w).air_log = w.air_log := by
  unfold enterAddFrom
  by_cases h : w.air_clear_filter <;> simp [h, ActionState.setListModes, ActionState.setFlashing]

theorem SetActionMode_air_log (picked : Bool × Nat) (mode : Mode) (w : ActionState) :
    (SetActionMode picked mode w).air_log = w.air_log := by
  cases mode <;> simp only [SetActionMode, SetActionModeDirect_air_log]
  split
  · rfl
  · split <;> simp [SetActionModeDirect_air_log, enterAddFrom_air_log]

theorem SetActionModeDirect_mode (mode : Mode) (w : ActionState) :
    (SetActionModeDirect mode w).air_action_mode = mode := by
  unfold SetActionModeDirect
  split
  · assumption
  · cases mode <;> rfl

theorem enterAddFrom_mode (w : ActionState) :
    (enterAddFrom w).air_action_mode = Mode.AddFrom := by
  unfold enterAddFrom
  by_cases h : w.air_clear_filter <;> simp [h, ActionState.setListModes, ActionState.setFlashing]

/-- C7: clicking an action button while its own phase is active (Add in `AddFrom` or `AddTo`,
Delete in `DeleteFrom`, Move in `MoveFrom` or `MoveTo`, Copy in `CopyFrom` or `CopyTo`) returns
the mode to `Stop`; from every other mode the click enters the button's From phase: Delete,
Move and Copy end in `DeleteFrom`, `MoveFrom`, `CopyFrom`, and Add enters `AddFrom`, in which
the cart picker runs, and goes on to `AddTo` when a cart was picked and to `Stop` when not. No
click changes a log. -/
theorem action_button_toggle (picked : Bool × Nat) (w : ActionState) :
    ((w.air_action_mode = .AddFrom ∨ w.air_action_mode = .AddTo) →
      (addButtonData picked w).air_action_mode = .Stop) ∧
    (w.air_action_mode = .DeleteFrom →
      (deleteButtonData picked w).air_action_mode = .Stop) ∧
    ((w.air_action_mode = .MoveFrom ∨ w.air_action_mode = .MoveTo) →
      (moveButtonData picked w).air_action_mode = .Stop) ∧
    ((w.air_action_mode = .CopyFrom ∨ w.air_action_mode = .CopyTo) →
      (copyButtonData picked w).air_action_mode = .Stop) ∧
    (¬ (w.air_action_mode = .AddFrom ∨ w.air_action_mode = .AddTo) →
      (enterAddFrom w).air_action_mode = .AddFrom ∧
      addButtonData picked w
        = (if picked.1 then SetActionModeDirect .AddTo
              { enterAddFrom w with air_add_cart := picked.2 }
           else SetActionModeDirect .Stop
              { enterAddFrom w with air_add_cart := picked.2 }) ∧
      (addButtonData picked w).air_action_mode = (if picked.1 then Mode.AddTo else Mode.Stop)) ∧
    (w.air_action_mode ≠ .DeleteFrom →
      (deleteButtonData picked w).air_action_mode = .DeleteFrom) ∧
    (¬ (w.air_action_mode = .MoveFrom ∨ w.air_action_mode = .MoveTo) →
      (moveButtonData picked w).air_action_mode = .MoveFrom) ∧
    (¬ (w.air_action_mode = .CopyFrom ∨ w.air_action_mode = .CopyTo) →
      (copyButtonData picked w).air_action_mode = .CopyFrom) ∧
    (addButtonData picked w).air_log = w.air_log ∧
    (deleteButtonData picked w).air_log = w.air_log ∧
    (moveButtonData picked w).air_log = w.air_log ∧
    (copyButtonData picked w).air_log = w.air_log := by
  refine ⟨?_, ?_, ?_, ?_, ?_, ?_, ?_, ?_, ?_, ?_, ?_, ?_⟩
  · intro h
    simp only [addButtonData, if_pos h, SetActionMode, SetActionModeDirect_mode]
  · intro h
    simp only [deleteButtonData, if_pos h, SetActionMode, SetActionModeDirect_mode]
  · intro h
    simp only [moveButtonData, if_pos h, SetActionMode, SetActionModeDirect_mode]
  · intro h
    simp only [copyButtonData, if_pos h, SetActionMode, SetActionModeDirect_mode]
  · intro h
    have h1 : w.air_action_mode ≠ .AddFrom := fun h' => h (Or.inl h')
    have heq : addButtonData picked w
        = (if picked.1 then SetActionModeDirect .AddTo
              { enterAddFrom w with air_add_cart := picked.2 }
           else SetActionModeDirect .Stop
              { enterAddFrom w with air_add_cart := picked.2 }) := by
      simp only [addButtonData, if_neg h, SetActionMode, if_neg h1]
    refine ⟨enterAddFrom_mode w, heq, ?_⟩
    rw [heq]
    split <;> exact SetActionModeDirect_mode _ _
  · intro h
    simp only [deleteButtonData, if_neg h, SetActionMode, SetActionModeDirect_mode]
  · intro h
    simp only [moveButtonData, if_neg h, SetActionMode, SetActionModeDirect_mode]
  · intro h
    simp only [copyButtonData, if_neg h, SetActionMode, SetActionModeDirect_mode]
  · unfold addButtonData; split <;> exact SetActionMode_air_log _ _ _
  · unfold deleteButtonData; split <;> exact SetActionMode_air_log _ _ _
  · unfold moveButtonData; split <;> exact SetActionMode_air_log _ _ _
  · unfold copyButtonData; split <;> exact SetActionMode_air_log _ _ _

theorem action_button_toggle_witness :
    (moveButtonData (false, 0) movingConsole).air_action_mode = .Stop ∧
    (deleteButtonData (false, 0) movingConsole).air_action_mode = .DeleteFrom ∧
    (addButtonData (true, 10003) movingConsole).air_action_mode = .AddTo :=
  have h := action_button_toggle (false, 0) movingConsole
  have h' := action_button_toggle (true, 10003) movingConsole
  ⟨h.2.2.1 (Or.inr rfl), h.2.2.2.2.2.1 (by decide), (h'.2.2.2.2.1 (by decide)).2.2⟩

theorem closeEvent_eq (valid : String → Bool) (entered : Option String)
    (answer_yes : Bool) (c : Console) :
    MainWidget.closeEvent valid entered answer_yes c
      = if closeGranted valid entered answer_yes then c.exitClean else c := by
  unfold MainWidget.closeEvent closeGranted
  cases h0 : valid ""
  · cases entered with
    | none => simp [RDGetPasswd.exec, h0]
    | some typed => cases h1 : valid typed <;> simp [RDGetPasswd.exec, h1]
  · cases answer_yes <;> simp

theorem Console_step_inv (valid : String → Bool) (c : Console) (ev : ConsoleEvent)
    (h : c.inv) : (Console.step valid c ev).inv := by
  unfold Console.step
  rcases h with ⟨hr, hd⟩ | ⟨hr, hc⟩
  · simp only [hr, Bool.not_true, Bool.false_eq_true, if_false]
    cases ev with
    | otherSlot => exact Or.inl ⟨hr, hd⟩
    | close entered answer_yes =>
      show (MainWidget.closeEvent valid entered answer_yes c).inv
      rw [closeEvent_eq]
      split
      · exact Or.inr ⟨rfl, rfl⟩
      · exact Or.inl ⟨hr, hd⟩
  · simp only [hr, Bool.not_false, if_true]
    exact Or.inr ⟨hr, hc⟩

theorem Console_foldl_inv (valid : String → Bool) (evs : List ConsoleEvent) :
    ∀ c : Console, c.inv → (evs.foldl (Console.step valid) c).inv := by
  induction evs with
  | nil => intro c h; exact h
  | cons ev evs ih => intro c h; exact ih _ (Console_step_inv valid c ev h)

theorem Console_foldl_granted (valid : String → Bool) (evs : List ConsoleEvent) :
    ∀ c : Console, c.running = true →
      (evs.foldl (Console.step valid) c).running = false →
      ∃ entered answer_yes, ConsoleEvent.close entered answer_yes ∈ evs ∧
        closeGranted valid entered answer_yes = true := by
  induction evs with
  | nil => intro c hr hf; simp only [List.foldl_nil] at hf; rw [hr] at hf; cases hf
  | cons ev evs ih =>
    intro c hr hf
    rw [List.foldl_cons] at hf
    cases ev with
    | otherSlot =>
      have hs : Console.step valid c .otherSlot = c := by simp [Console.step, hr]
      rw [hs] at hf
      obtain ⟨e, a, hm, hg⟩ := ih c hr hf
      exact ⟨e, a, List.mem_cons_of_mem _ hm, hg⟩
    | close entered answer_yes =>
      by_cases hg : closeGranted valid entered answer_yes = true
      · exact ⟨entered, answer_yes, List.mem_cons_self _ _, hg⟩
      · have hs : Console.step valid c (.close entered answer_yes) = c := by
          simp [Console.step, hr, closeEvent_eq, hg]
        rw [hs] at hf
        obtain ⟨e, a, hm, hg'⟩ := ih c hr hf
        exact ⟨e, a, List.mem_cons_of_mem _ hm, hg'⟩

/-- C8: startup sets the persisted exit code to dirty. `closeEvent` writes clean, releases the
lock and exits when an exit password is configured and the password typed is valid, or when
none is configured and the operator confirms the exit; an incorrect or cancelled password
attempt, and a declined confirmation, leave the console as it was. Over a whole session the
exit code is dirty as long as the console runs, and it is clean only after a close request
that was granted in one of these two ways. -/
theorem exit_code_clean_only_on_granted_close (valid : String → Bool) (stored : AirExitCode)
    (evs : List ConsoleEvent) (entered : Option String) (answer_yes : Bool) (c : Console) :
    (MainWidget.startup stored).exit_code = .ExitDirty ∧
    (valid "" = false → (∃ typed, entered = some typed ∧ valid typed = true) →
      MainWidget.closeEvent valid entered answer_yes c = c.exitClean) ∧
    (valid "" = false → ¬ (∃ typed, entered = some typed ∧ valid typed = true) →
      MainWidget.closeEvent valid entered answer_yes c = c) ∧
    (valid "" = true → answer_yes = true →
      MainWidget.closeEvent valid entered answer_yes c = c.exitClean) ∧
    (valid "" = true → answer_yes = false →
      MainWidget.closeEvent valid entered answer_yes c = c) ∧
    ((Console.session valid stored evs).running = true →
      (Console.session valid stored evs).exit_code = .ExitDirty) ∧
    ((Console.session valid stored evs).exit_code = .ExitClean →
      (Console.session valid stored evs).running = false ∧
      ∃ entered' answer', ConsoleEvent.close entered' answer' ∈ evs ∧
        ((valid "" = false ∧ ∃ typed, entered' = some typed ∧ valid typed = true) ∨
         (valid "" = true ∧ answer' = true))) := by
  have hinv : (Console.session valid stored evs).inv :=
    Console_foldl_inv valid evs _ (Or.inl ⟨rfl, rfl⟩)
  refine ⟨rfl, ?_, ?_, ?_, ?_, ?_, ?_⟩
  · rintro h0 ⟨typed, rfl, ht⟩
    simp [closeEvent_eq, closeGranted, h0, ht]
  · intro h0 hno
    have : closeGranted valid entered answer_yes = false := by
      unfold closeGranted
      cases entered with
      | none => simp [h0]
      | some typed =>
        cases ht : valid typed
        · simp [h0, ht]
        · exact absurd ⟨typed, rfl, ht⟩ hno
    simp [closeEvent_eq, this]
  · intro h0 ha
    simp [closeEvent_eq, closeGranted, h0, ha]
  · intro h0 ha
    simp [closeEvent_eq, closeGranted, h0, ha]
  · intro hr
    rcases hinv with ⟨_, hd⟩ | ⟨hr', _⟩
    · exact hd
    · rw [hr] at hr'; cases hr'
  · intro hc
    have hr : (Console.session valid stored evs).running = false := by
      rcases hinv with ⟨_, hd⟩ | ⟨hr', _⟩
      · rw [hc] at hd; cases hd
      · exact hr'
    refine ⟨hr, ?_⟩
    obtain ⟨e, a, hm, hg⟩ := Console_foldl_granted valid evs _ rfl hr
    refine ⟨e, a, hm, ?_⟩
    unfold closeGranted at hg
    cases h0 : valid ""
    · left
      refine ⟨rfl, ?_⟩
      cases e with
      | none => simp [h0] at hg
      | some typed => exact ⟨typed, rfl, by simpa [h0] using hg⟩
    · right
      exact ⟨rfl, by simpa [h0] using hg⟩

theorem exit_code_clean_only_on_granted_close_witness :
    MainWidget.closeEvent secretValid (some "s3cret") false (MainWidget.startup .ExitClean)
      = (MainWidget.startup .ExitClean).exitClean ∧
    MainWidget.closeEvent secretValid none false (MainWidget.startup .ExitClean)
      = MainWidget.startup .ExitClean ∧
    (Console.session secretValid .ExitClean
      [.otherSlot, .close (some "guess") true, .close none true]).exit_code = .ExitDirty :=
  ⟨(exit_code_clean_only_on_granted_close secretValid .ExitClean [] (some "s3cret") false
      (MainWidget.startup .ExitClean)).2.1 (by decide) ⟨"s3cret", rfl, by decide⟩,
   (exit_code_clean_only_on_granted_close secretValid .ExitClean [] none false
      (MainWidget.startup .ExitClean)).2.2.1 (by decide) (by simp),
   (exit_code_clean_only_on_granted_close secretValid .ExitClean
      [.otherSlot, .close (some "guess") true, .close none true] none false
      (MainWidget.startup .ExitClean)).2.2.2.2.2.1 (by decide)⟩

theorem readLogOption_no_override (decode : QString → Option QString) (toInt : QString → Int)
    (switches : List (QString × QString)) (i : Nat)
    (h : ∀ kv ∈ switches, kv.1 ≠ logSwitchKey i) :
    readLogOption decode toInt switches i
      = { air_start_logname := none, air_start_line := 0, air_start_start := false } := by
  unfold readLogOption
  generalize ({ air_start_logname := none, air_start_line := 0, air_start_start := false }
    : LogStart) = st
  induction switches generalizing st with
  | nil => rfl
  | cons kv rest ih =>
    rw [List.foldl_cons, if_neg (h kv (List.mem_cons_self _ _))]
    exact ih (fun kv' hm => h kv' (List.mem_cons_of_mem _ hm)) st

theorem ripcConnectedLog_start_of_clean (conf : LogStartConf)
    (decode : QString → Option QString) (i : Nat) (st : LogStart)
    (hst : st.air_start_start = false) :
    (ripcConnectedLog conf decode .ExitClean i st).air_start_start = false := by
  unfold ripcConnectedLog
  split
  · split
    · exact hst
    · simp only
      split
      · simp
      · exact hst
    · simp only
      split
      · simp; exact hst
      · exact hst
  · exact hst

/-- C9: for a log machine `i` without a `--logN` switch on the command line, the
`air_start_start[i]` left by `ripcConnectedData` is true only if the exit code of the previous
session was dirty; after a clean exit it is false, whatever the stored start mode, current
line, auto-restart and log-running flags are. -/
theorem autostart_only_after_dirty_exit (RDAIRPLAY_LOG_QUANTITY : Nat) (conf : LogStartConf)
    (decode : QString → Option QString) (toInt : QString → Int)
    (logExists : QString → Bool) (switches : List (QString × QString))
    (prev : AirExitCode) (i : Nat)
    (h : ∀ kv ∈ switches, kv.1 ≠ logSwitchKey i) :
    (((ripcConnectedData RDAIRPLAY_LOG_QUANTITY conf decode logExists prev
        (readLogOption decode toInt switches)).1 i).air_start_start = true →
      prev = .ExitDirty) ∧
    (prev = .ExitClean →
      ((ripcConnectedData RDAIRPLAY_LOG_QUANTITY conf decode logExists prev
        (readLogOption decode toInt switches)).1 i).air_start_start = false) := by
  have h0 := readLogOption_no_override decode toInt switches i h
  have hclean : prev = .ExitClean →
      ((ripcConnectedData RDAIRPLAY_LOG_QUANTITY conf decode logExists prev
        (readLogOption decode toInt switches)).1 i).air_start_start = false := by
    intro hp
    subst hp
    simp only [ripcConnectedData]
    split
    · exact ripcConnectedLog_start_of_clean conf decode i _ (by rw [h0])
    · rw [h0]
  refine ⟨?_, hclean⟩
  intro hs
  cases prev with
  | ExitDirty => rfl
  | ExitClean => rw [hclean rfl] at hs; cases hs

theorem autostart_only_after_dirty_exit_witness :
    ((ripcConnectedData 3 resumeConf some (fun _ => true) .ExitClean
        (readLogOption some (fun _ => 3) [("--log2".toList, "evening:3+".toList)])).1
      0).air_start_start = false ∧
    ((ripcConnectedData 3 resumeConf some (fun _ => true) .ExitDirty
        (readLogOption some (fun _ => 3) [("--log2".toList, "evening:3+".toList)])).1
      0).air_start_start = true :=
  ⟨(autostart_only_after_dirty_exit 3 resumeConf some (fun _ => 3) (fun _ => true)
      [("--log2".toList, "evening:3+".toList)] .ExitClean 0 (by decide)).2 rfl,
    by decide⟩

theorem RDBusyBar_strobe_pos (w h fw : Int) (b : RDBusyBar) :
    (b.strobe w h fw).bar_pos = (b.bar_pos + 1).tmod 5 := by
  unfold RDBusyBar.strobe
  simp only
  split <;> rfl

theorem RDBusyBar_strobe_timer (w h fw : Int) (b : RDBusyBar) :
    (b.strobe w h fw).bar_timer = b.bar_timer := by
  unfold RDBusyBar.strobe
  simp only
  split <;> rfl

theorem RDBusyBar_ticks_active (w h fw : Int) (n : Nat) :
    ∀ b : RDBusyBar, b.bar_timer.active = true → 0 ≤ b.bar_pos → b.bar_pos < 5 →
      (RDBusyBar.ticks w h fw n b).bar_pos = (b.bar_pos + n) % 5 ∧
      (RDBusyBar.ticks w h fw n b).bar_timer = b.bar_timer := by
  induction n with
  | zero =>
    intro b _ h0 h5
    simp only [RDBusyBar.ticks, Nat.cast_zero, add_zero, and_true]
    omega
  | succ n ih =>
    intro b ha h0 h5
    have hp : (b.tick w h fw).bar_pos = (b.bar_pos + 1) % 5 := by
      simp only [RDBusyBar.tick, ha, if_true, RDBusyBar_strobe_pos]
      rw [Int.tmod_eq_emod (by omega) (by omega)]
    have ht : (b.tick w h fw).bar_timer = b.bar_timer := by
      simp only [RDBusyBar.tick, ha, if_true, RDBusyBar_strobe_timer]
    have := ih (b.tick w h fw) (by rw [ht]; exact ha) (by rw [hp]; omega) (by rw [hp]; omega)
    simp only [RDBusyBar.ticks]
    rw [this.1, this.2, ht, hp]
    refine ⟨?_, rfl⟩
    push_cast
    omega

theorem RDBusyBar_ticks_inactive (w h fw : Int) (n : Nat) :
    ∀ b : RDBusyBar, b.bar_timer.active = false → RDBusyBar.ticks w h fw n b = b := by
  induction n with
  | zero => intro b _; rfl
  | succ n ih =>
    intro b ha
    have : b.tick w h fw = b := by simp [RDBusyBar.tick, ha]
    simp only [RDBusyBar.ticks, this]
    exact ih b ha

/-- C12: for an activated busy indicator at position `p` in 0..4, after `n` strobe ticks
`bar_pos` is `(p + n) mod 5`, which lies in 0..4, and five ticks bring it back to `p`; after
`activate(false)` no tick is delivered, so any number of timer periods leaves the indicator,
and with it the position, as it was. -/
theorem RDBusyBar_strobe_cycle (w h fw : Int) (b : RDBusyBar) (n : Nat)
    (h0 : 0 ≤ b.bar_pos) (h5 : b.bar_pos < 5) :
    ((b.activate w h fw true).bar_pos = b.bar_pos) ∧
    (RDBusyBar.ticks w h fw n (b.activate w h fw true)).bar_pos = (b.bar_pos + n) % 5 ∧
    0 ≤ (RDBusyBar.ticks w h fw n (b.activate w h fw true)).bar_pos ∧
    (RDBusyBar.ticks w h fw n (b.activate w h fw true)).bar_pos < 5 ∧
    (RDBusyBar.ticks w h fw 5 (b.activate w h fw true)).bar_pos = b.bar_pos ∧
    RDBusyBar.ticks w h fw n (b.activate w h fw false) = b.activate w h fw false := by
  have hact : (b.activate w h fw true).bar_timer.active = true := by
    simp [RDBusyBar.activate, RDBusyBar.Update, QTimer.start]
  have hpos : (b.activate w h fw true).bar_pos = b.bar_pos := by
    simp [RDBusyBar.activate, RDBusyBar.Update]
  have hn := (RDBusyBar_ticks_active w h fw n _ hact (by rw [hpos]; exact h0)
    (by rw [hpos]; exact h5)).1
  have h5' := (RDBusyBar_ticks_active w h fw 5 _ hact (by rw [hpos]; exact h0)
    (by rw [hpos]; exact h5)).1
  rw [hpos] at hn h5'
  refine ⟨hpos, hn, ?_, ?_, ?_, ?_⟩
  · rw [hn]; omega
  · rw [hn]; omega
  · rw [h5']; push_cast; omega
  · apply RDBusyBar_ticks_inactive
    simp [RDBusyBar.activate, QTimer.stop]

theorem RDBusyBar_strobe_cycle_witness :
    (RDBusyBar.ticks 100 20 2 7 (RDBusyBar.init.activate 100 20 2 true)).bar_pos = (0 + 7) % 5 ∧
    (RDBusyBar.ticks 100 20 2 5 (RDBusyBar.init.activate 100 20 2 true)).bar_pos = 0 :=
  have h := RDBusyBar_strobe_cycle 100 20 2 RDBusyBar.init 7 (by decide) (by decide)
  ⟨h.2.1, h.2.2.2.2.1⟩

theorem or_shiftLeft_three_and_seven (p f : Nat) :
    (p ||| ((f <<< 3) % 4294967296)) &&& 7 = p &&& 7 := by
  apply Nat.eq_of_testBit_eq
  intro i
  have h7 : (7 : Nat).testBit i = decide (i < 3) := Nat.testBit_two_pow_sub_one 3 i
  have h32 : (4294967296 : Nat) = 2 ^ 32 := by norm_num
  simp only [Nat.testBit_and, Nat.testBit_or, h32, Nat.testBit_mod_two_pow,
    Nat.testBit_shiftLeft, h7]
  by_cases hi : i < 3
  · have : ¬ (i ≥ 3) := by omega
    simp [hi, this]
  · simp [hi]

/-- C17: for every priority `p` and facility `f` both `syslog` overloads hand the same priority
to the system log: `p` itself when `p & 248` is not zero, `p | (f << 3)` otherwise (on 32-bit
patterns); the severity
bits `p & 7` are kept, and applying the rule to its own result changes nothing. -/
theorem syslog_effective_priority (p f : Nat) :
    RDCoreApplication.syslog f p = RDCoreApplication.syslogWithConfig f p ∧
    (p &&& 248 ≠ 0 → RDCoreApplication.syslog f p = p) ∧
    (p &&& 248 = 0 → RDCoreApplication.syslog f p = p ||| ((f <<< 3) % 4294967296)) ∧
    RDCoreApplication.syslog f p &&& 7 = p &&& 7 ∧
    RDCoreApplication.syslog f (RDCoreApplication.syslog f p) = RDCoreApplication.syslog f p := by
  refine ⟨rfl, ?_, ?_, ?_, ?_⟩
  · intro h; simp [RDCoreApplication.syslog, h]
  · intro h; simp [RDCoreApplication.syslog, h]
  · unfold RDCoreApplication.syslog
    split
    · exact or_shiftLeft_three_and_seven p f
    · rfl
  · by_cases h : p &&& 248 = 0
    · have h1 : RDCoreApplication.syslog f p = p ||| ((f <<< 3) % 4294967296) := by
        simp [RDCoreApplication.syslog, h]
      rw [h1]
      unfold RDCoreApplication.syslog
      split
      · rw [Nat.or_assoc, Nat.or_self]
      · rfl
    · have h1 : RDCoreApplication.syslog f p = p := by simp [RDCoreApplication.syslog, h]
      rw [h1, h1]

theorem syslog_effective_priority_witness :
    RDCoreApplication.syslog 1 6 = 14 ∧ RDCoreApplication.syslog 1 134 = 134 :=
  have h := syslog_effective_priority 6 1
  have h' := syslog_effective_priority 134 1
  ⟨h.2.2.1 (by decide), h'.2.1 (by decide)⟩

theorem foldl_addBannedChar_banned (cs : List QChar) :
    ∀ v : RDTextValidator,
      (cs.foldl RDTextValidator.addBannedChar v).banned_chars = v.banned_chars ++ cs := by
  induction cs with
  | nil => intro v; simp
  | cons c cs ih =>
    intro v
    rw [List.foldl_cons, ih]
    simp [RDTextValidator.addBannedChar]

theorem AddClock_validator_banned (built : RDTextValidator) :
    (AddClock.newValidator built).banned_chars = built.banned_chars ++ AddClock.bannedChars :=
  foldl_addBannedChar_banned _ built

theorem asciiPunctuation_cases :
    ∀ n : Fin 128, isAsciiPunctuation (Char.ofNat n) = true →
      Char.ofNat n = Char.ofNat 39 ∨ Char.ofNat n = Char.ofNat 96 ∨
      Char.ofNat n ∈ AddClock.bannedChars := by
  decide

theorem asciiPunctuation_banned (c : QChar) (h : isAsciiPunctuation c = true) :
    c = Char.ofNat 39 ∨ c = Char.ofNat 96 ∨ c ∈ AddClock.bannedChars := by
  have hlt : c.toNat < 128 := by
    simp only [isAsciiPunctuation, Bool.and_eq_true, decide_eq_true_eq] at h
    omega
  have := asciiPunctuation_cases ⟨c.toNat, hlt⟩
  simp only [Char.ofNat_toNat] at this
  exact this h

theorem validate_false_of_banned (v : RDTextValidator) (input : QString) (c : QChar)
    (hc : c ∈ input) (hb : c ∈ v.banned_chars) : v.validate input = false := by
  unfold RDTextValidator.validate
  rw [List.all_eq_false]
  exact ⟨c, hc, by simp [hb]⟩

/-- A letter, a digit or a space is none of the characters the name field bans. -/
theorem alphanum_not_banned :
    ∀ n : Fin 128, ((Char.ofNat n).isAlphanum = true ∨ Char.ofNat n = ' ') →
      Char.ofNat n ∉ (AddClock.newValidator RDTextValidator.new).banned_chars := by
  decide

/-- C13: every ASCII punctuation or symbol character (the single and double quotes and the
backtick among them) is in the banned set of the validator that `AddClock` installs on the
name field, so a candidate name containing such a character is rejected by the field and
`okData` commits the text the field held before; a candidate of at most 58 ASCII letters,
digits and spaces is accepted and committed. -/
theorem AddClock_banned_characters (logname candidate : QString) (c : QChar)
    (hp : isAsciiPunctuation c = true) :
    c ∈ (AddClock.new RDTextValidator.new logname).validator.banned_chars ∧
    (c ∈ candidate →
      (AddClock.new RDTextValidator.new logname).validator.validate candidate = false ∧
      ((AddClock.new RDTextValidator.new logname).edit candidate).clock_name_edit = logname ∧
      ((AddClock.new RDTextValidator.new logname).edit candidate).okData.clock_name =
        logname) ∧
    ((∀ x ∈ candidate, x.toNat < 128 ∧ (x.isAlphanum = true ∨ x = ' ')) →
      candidate.length ≤ 58 →
      ((AddClock.new RDTextValidator.new logname).edit candidate).okData.clock_name =
        candidate) := by
  have hb : c ∈ (AddClock.newValidator RDTextValidator.new).banned_chars := by
    rw [AddClock_validator_banned]
    rcases asciiPunctuation_banned c hp with h | h | h
    · rw [h]; exact List.mem_append_left _ (by decide)
    · rw [h]; exact List.mem_append_left _ (by decide)
    · exact List.mem_append_right _ h
  refine ⟨hb, ?_, ?_⟩
  · intro hc
    have hv : (AddClock.newValidator RDTextValidator.new).validate candidate = false :=
      validate_false_of_banned _ candidate c hc hb
    exact ⟨hv, by simp [AddClock.edit, AddClock.new, hv],
      by simp [AddClock.edit, AddClock.new, AddClock.okData, hv]⟩
  · intro hall hlen
    have hv : (AddClock.newValidator RDTextValidator.new).validate candidate = true := by
      unfold RDTextValidator.validate
      rw [List.all_eq_true]
      intro x hx
      obtain ⟨hlt, hx'⟩ := hall x hx
      have := alphanum_not_banned ⟨x.toNat, hlt⟩
      simp only [Char.ofNat_toNat] at this
      simpa using this hx'
    simp [AddClock.edit, AddClock.new, AddClock.okData, hv, hlen]

/-- C13, witness: the single quote is banned by the validator of the name field; the
candidate name "Bob" + single quote + "s" is rejected, and `okData` commits "Morning", the
text the field held. -/
theorem AddClock_banned_characters_witness :
    Char.ofNat 39 ∈ (AddClock.new RDTextValidator.new "Morning".toList).validator.banned_chars ∧
    ((AddClock.new RDTextValidator.new "Morning".toList).edit
      ['B', 'o', 'b', Char.ofNat 39, 's']).okData.clock_name = "Morning".toList :=
  have h := AddClock_banned_characters "Morning".toList ['B', 'o', 'b', Char.ofNat 39, 's']
    (Char.ofNat 39) (by decide)
  ⟨h.1, (h.2.1 (by decide)).2.2⟩

theorem SetActionModeDirect_flashing (mode : Mode) (w : ActionState)
    (h : w.air_action_mode ≠ mode) :
    (mode = .Stop → (SetActionModeDirect mode w).flashing = (false, false, false, false)) ∧
    (mode = .AddTo → (SetActionModeDirect mode w).flashing = (true, false, false, false) ∧
      (SetActionModeDirect mode w).air_add_button.flash_color = .BUTTON_TO_BACKGROUND_COLOR) ∧
    (mode = .DeleteFrom → (SetActionModeDirect mode w).flashing = (false, true, false, false) ∧
      (SetActionModeDirect mode w).air_delete_button.flash_color
        = .BUTTON_FROM_BACKGROUND_COLOR) ∧
    (mode = .MoveFrom → (SetActionModeDirect mode w).flashing = (false, false, true, false) ∧
      (SetActionModeDirect mode w).air_move_button.flash_color
        = .BUTTON_FROM_BACKGROUND_COLOR) ∧
    (mode = .MoveTo → (SetActionModeDirect mode w).flashing = (false, false, true, false) ∧
      (SetActionModeDirect mode w).air_move_button.flash_color = .BUTTON_TO_BACKGROUND_COLOR) ∧
    (mode = .CopyFrom → (SetActionModeDirect mode w).flashing = (false, false, false, true) ∧
      (SetActionModeDirect mode w).air_copy_button.flash_color
        = .BUTTON_FROM_BACKGROUND_COLOR) := by
  refine ⟨?_, ?_, ?_, ?_, ?_, ?_⟩ <;> intro hm <;> subst hm <;>
    simp [SetActionModeDirect, h, ActionState.flashing, ActionState.setFlashing,
      ActionState.setListModes, FlashButton.setFlashingEnabled, FlashButton.setFlashColor]

/-- C18: what `SetActionMode(CopyTo)` does from any other mode: only the Copy button flashes,
but the flash colour that is set to the "to" colour is that of the Move button; the Copy
button keeps the flash colour it had. -/
theorem SetActionMode_CopyTo_flash_color (picked : Bool × Nat) (w : ActionState)
    (h : w.air_action_mode ≠ .CopyTo) :
    (SetActionMode picked .CopyTo w).air_action_mode = .CopyTo ∧
    (SetActionMode picked .CopyTo w).flashing = (false, false, false, true) ∧
    (SetActionMode picked .CopyTo w).air_copy_button.flash_color
      = w.air_copy_button.flash_color ∧
    (SetActionMode picked .CopyTo w).air_move_button.flash_color
      = .BUTTON_TO_BACKGROUND_COLOR := by
  simp [SetActionMode, SetActionModeDirect, h, ActionState.flashing, ActionState.setFlashing,
    ActionState.setListModes, FlashButton.setFlashingEnabled, FlashButton.setFlashColor]

theorem SetActionMode_CopyTo_flash_color_witness :
    (SetActionMode (false, 0) .CopyTo (copyButtonData (false, 0) idleConsole)).air_action_mode
      = .CopyTo ∧
    (SetActionMode (false, 0) .CopyTo
      (copyButtonData (false, 0) idleConsole)).air_copy_button.flash_color
      = .BUTTON_FROM_BACKGROUND_COLOR :=
  have h := SetActionMode_CopyTo_flash_color (false, 0) (copyButtonData (false, 0) idleConsole)
    (by decide)
  ⟨h.1, h.2.2.1.trans (by decide)⟩

/-- C19: when Main Log 1 and Main Log 2 are configured on the same card and port, the tables
left by the constructor hold -1 as start GPI matrix of Main Log 2 and the stop GPI matrix of
Main Log 1 as stop GPI matrix of Main Log 2, while the stop GPI line of Main Log 2 stays the
one configured for Main Log 2 itself. -/
theorem mainLog2_fixup_gpi (conf : ChannelConf)
    (hcard : conf.card .MainLog1Channel = conf.card .MainLog2Channel)
    (hport : conf.port .MainLog1Channel = conf.port .MainLog2Channel) :
    (initGpio conf).air_start_gpi_matrices .MainLog2Channel = -1 ∧
    (initGpio conf).air_stop_gpi_matrices .MainLog2Channel
      = (initGpio conf).air_stop_gpi_matrices .MainLog1Channel ∧
    (initGpio conf).air_stop_gpi_matrices .MainLog1Channel = conf.stopGpiMatrix .MainLog1Channel ∧
    (initGpio conf).air_stop_gpi_lines .MainLog2Channel = conf.stopGpiLine .MainLog2Channel - 1 ∧
    (initGpio conf).air_stop_gpi_lines .MainLog1Channel
      = conf.stopGpiLine .MainLog1Channel - 1 := by
  have hf : mainLog2Folded conf = true := by simp [mainLog2Folded, hcard, hport]
  simp [initGpio, fixupMainLogGpio, loadGpioConfiguration, hf, setChan]

theorem mainLog2_fixup_gpi_witness :
    (initGpio foldedStopConf).air_stop_gpi_matrices .MainLog2Channel = 0 ∧
    (initGpio foldedStopConf).air_stop_gpi_lines .MainLog2Channel = 2 - 1 ∧
    (initGpio foldedStopConf).air_stop_gpi_lines .MainLog1Channel = 1 - 1 :=
  have h := mainLog2_fixup_gpi foldedStopConf rfl rfl
  ⟨h.2.1.trans h.2.2.1, h.2.2.2.1, h.2.2.2.2⟩

theorem projectedEnd_nonneg (ll : RDLogLine) (h : ll.startTime.isValid = true) :
    0 ≤ ll.projectedEnd.mds := by
  simp only [RDLogLine.projectedEnd, QTime.addMSecs, h, if_true]
  exact Int.emod_nonneg _ (by norm_num)

theorem pieScanStep_cart (logLine : Int → Option RDLogLine) (st : PieScan) (l : Int)
    (h : isCartLine logLine l = true) :
    pieScanStep logLine st l
      = if lineEnd logLine l > st.end_time.mds then
          { line := l, end_time := ⟨lineEnd logLine l⟩ }
        else st := by
  unfold isCartLine at h
  unfold pieScanStep lineEnd
  cases hl : logLine l with
  | none => simp [hl] at h
  | some ll =>
    simp only [hl, decide_eq_true_eq] at h
    simp only [h]

theorem pieScanStep_macroLine (logLine : Int → Option RDLogLine) (st : PieScan) (l : Int)
    (h : isMacroLine logLine l = true) :
    pieScanStep logLine st l = { st with line := l } := by
  unfold isMacroLine at h
  unfold pieScanStep
  cases hl : logLine l with
  | none => simp [hl] at h
  | some ll =>
    simp only [hl, decide_eq_true_eq] at h
    simp only [h]

theorem pieScanStep_other (logLine : Int → Option RDLogLine) (st : PieScan) (l : Int)
    (hc : isCartLine logLine l = false) (hm : isMacroLine logLine l = false) :
    pieScanStep logLine st l = st := by
  unfold isCartLine at hc
  unfold isMacroLine at hm
  unfold pieScanStep
  cases hl : logLine l with
  | none => rfl
  | some ll =>
    simp only [hl, decide_eq_false_iff_not] at hc hm
    cases ht : ll.type <;> simp_all

/-- Scanning cart lines only: either no line ends later than the latest end seen before, and
the scan state is unchanged, or the state holds the first line with the latest end. -/
theorem foldl_pieScanStep_carts (logLine : Int → Option RDLogLine) (lines : List Int) :
    ∀ st : PieScan, (∀ l ∈ lines, isCartLine logLine l = true) →
      ((∀ l ∈ lines, lineEnd logLine l ≤ st.end_time.mds) ∧
        lines.foldl (pieScanStep logLine) st = st) ∨
      (∃ pre c post, lines = pre ++ c :: post ∧
        lines.foldl (pieScanStep logLine) st = { line := c, end_time := ⟨lineEnd logLine c⟩ } ∧
        st.end_time.mds < lineEnd logLine c ∧
        (∀ l ∈ pre, lineEnd logLine l < lineEnd logLine c) ∧
        (∀ l ∈ post, lineEnd logLine l ≤ lineEnd logLine c)) := by
  induction lines with
  | nil => intro st _; left; simp
  | cons l rest ih =>
    intro st hall
    have hl := hall l (List.mem_cons_self _ _)
    have hrest : ∀ x ∈ rest, isCartLine logLine x = true :=
      fun x hx => hall x (List.mem_cons_of_mem _ hx)
    rw [List.foldl_cons, pieScanStep_cart logLine st l hl]
    by_cases hgt : lineEnd logLine l > st.end_time.mds
    · rw [if_pos hgt]
      right
      rcases ih { line := l, end_time := ⟨lineEnd logLine l⟩ } hrest with
        ⟨hle, heq⟩ | ⟨pre, c, post, hdec, heq, hlt, hpre, hpost⟩
      · exact ⟨[], l, rest, rfl, heq, hgt, by simp, hle⟩
      · refine ⟨l :: pre, c, post, by rw [hdec]; rfl, heq, ?_, ?_, hpost⟩
        · simp only at hlt; omega
        · intro x hx
          rcases List.mem_cons.1 hx with rfl | hx
          · exact hlt
          · exact hpre x hx
    · rw [if_neg hgt]
      rcases ih st hrest with ⟨hle, heq⟩ | ⟨pre, c, post, hdec, heq, hlt, hpre, hpost⟩
      · left
        refine ⟨?_, heq⟩
        intro x hx
        rcases List.mem_cons.1 hx with rfl | hx
        · omega
        · exact hle x hx
      · right
        refine ⟨l :: pre, c, post, by rw [hdec]; rfl, heq, hlt, ?_, hpost⟩
        intro x hx
        rcases List.mem_cons.1 hx with rfl | hx
        · omega
        · exact hpre x hx

theorem lineEnd_nonneg_of_valid (logLine : Int → Option RDLogLine) (l : Int)
    (h : hasValidStart logLine l = true) : 0 ≤ lineEnd logLine l := by
  unfold hasValidStart at h
  unfold lineEnd
  cases hl : logLine l with
  | none => simp [hl] at h
  | some ll =>
    simp only [hl] at h
    exact projectedEnd_nonneg ll h

/-- The latest end seen never decreases during the scan. -/
theorem pieScanStep_end_mono (logLine : Int → Option RDLogLine) (st : PieScan) (l : Int) :
    st.end_time.mds ≤ (pieScanStep logLine st l).end_time.mds := by
  by_cases hc : isCartLine logLine l = true
  · rw [pieScanStep_cart logLine st l hc]
    split
    · simp only; omega
    · exact le_refl _
  · by_cases hm : isMacroLine logLine l = true
    · rw [pieScanStep_macroLine logLine st l hm]
    · rw [pieScanStep_other logLine st l (by simpa using hc) (by simpa using hm)]

theorem foldl_pieScanStep_end_mono (logLine : Int → Option RDLogLine) (lines : List Int) :
    ∀ st : PieScan, st.end_time.mds ≤ (lines.foldl (pieScanStep logLine) st).end_time.mds := by
  induction lines with
  | nil => intro st; exact le_refl _
  | cons l rest ih =>
    intro st
    rw [List.foldl_cons]
    exact le_trans (pieScanStep_end_mono logLine st l) (ih _)

/-- After the scan of a list the latest end seen is at least the end of each of its carts. -/
theorem foldl_pieScanStep_end_ge (logLine : Int → Option RDLogLine) (lines : List Int) :
    ∀ st : PieScan, ∀ l ∈ lines, isCartLine logLine l = true →
      lineEnd logLine l ≤ (lines.foldl (pieScanStep logLine) st).end_time.mds := by
  induction lines with
  | nil => intro st l hl; cases hl
  | cons x rest ih =>
    intro st l hl hc
    rw [List.foldl_cons]
    rcases List.mem_cons.1 hl with rfl | hl
    · refine le_trans ?_ (foldl_pieScanStep_end_mono logLine rest _)
      rw [pieScanStep_cart logLine st l hc]
      split
      · exact le_refl _
      · omega
    · exact ih _ l hl hc

/-- Lines that are neither macros nor carts ending later than the latest end seen leave the
scan state as it is. -/
theorem foldl_pieScanStep_unchanged (logLine : Int → Option RDLogLine) (lines : List Int) :
    ∀ st : PieScan,
      (∀ l ∈ lines, isMacroLine logLine l = false ∧
        (isCartLine logLine l = true → lineEnd logLine l ≤ st.end_time.mds)) →
      lines.foldl (pieScanStep logLine) st = st := by
  induction lines with
  | nil => intro st _; rfl
  | cons x rest ih =>
    intro st hall
    have hx := hall x (List.mem_cons_self _ _)
    have hstep : pieScanStep logLine st x = st := by
      by_cases hc : isCartLine logLine x = true
      · rw [pieScanStep_cart logLine st x hc, if_neg (by have := hx.2 hc; omega)]
      · exact pieScanStep_other logLine st x (by simpa using hc) hx.1
    rw [List.foldl_cons, hstep]
    exact ih st (fun l hl => hall l (List.mem_cons_of_mem _ hl))

/-- While every cart scanned ends before `e`, so does the latest end seen. -/
theorem foldl_pieScanStep_end_lt (logLine : Int → Option RDLogLine) (e : Int)
    (lines : List Int) :
    ∀ st : PieScan, st.end_time.mds < e →
      (∀ l ∈ lines, isCartLine logLine l = true → lineEnd logLine l < e) →
      (lines.foldl (pieScanStep logLine) st).end_time.mds < e := by
  induction lines with
  | nil => intro st h _; exact h
  | cons x rest ih =>
    intro st h hall
    rw [List.foldl_cons]
    apply ih
    · by_cases hc : isCartLine logLine x = true
      · rw [pieScanStep_cart logLine st x hc]
        split
        · exact hall x (List.mem_cons_self _ _) hc
        · exact h
      · by_cases hm : isMacroLine logLine x = true
        · rw [pieScanStep_macroLine logLine st x hm]
          exact h
        · rw [pieScanStep_other logLine st x (by simpa using hc) (by simpa using hm)]
          exact h
    · exact fun l hl => hall l (List.mem_cons_of_mem _ hl)

/-- C20, amended: in the scan of `transportChangedData` over a non-empty list of running
lines, a Macro line is chosen as the pie-counter target when no Macro line follows it and
every Cart line after it ends no later than some Cart line before it (in particular when it
stands last). A Cart line with a valid start time that ends later than every Cart line
before it is chosen instead of whatever stands before it, a Macro line included, when no
Macro line follows it and no Cart line after it ends later. If the list holds only Cart
lines, one of them at least with a valid start time, the chosen line is the first Cart line
with the latest projected end time. -/
theorem pie_target_choice (logLine : Int → Option RDLogLine) (lines : List Int) :
    (∀ pre m post, lines = pre ++ m :: post → isMacroLine logLine m = true →
      (∀ l ∈ post, isMacroLine logLine l = false ∧
        (isCartLine logLine l = true →
          ∃ l0 ∈ pre, isCartLine logLine l0 = true ∧ lineEnd logLine l ≤ lineEnd logLine l0)) →
      pieTargetLine logLine lines = m) ∧
    (∀ pre c post, lines = pre ++ c :: post → isCartLine logLine c = true →
      hasValidStart logLine c = true →
      (∀ l ∈ pre, isCartLine logLine l = true → lineEnd logLine l < lineEnd logLine c) →
      (∀ l ∈ post, isMacroLine logLine l = false ∧
        (isCartLine logLine l = true → lineEnd logLine l ≤ lineEnd logLine c)) →
      pieTargetLine logLine lines = c) ∧
    ((∀ l ∈ lines, isCartLine logLine l = true) →
      (∃ l ∈ lines, hasValidStart logLine l = true) →
      ∃ pre post, lines = pre ++ pieTargetLine logLine lines :: post ∧
        (∀ l ∈ pre, lineEnd logLine l < lineEnd logLine (pieTargetLine logLine lines)) ∧
        (∀ l ∈ post, lineEnd logLine l ≤ lineEnd logLine (pieTargetLine logLine lines))) := by
  refine ⟨?_, ?_, ?_⟩
  · intro pre m post hdec hm hpost
    unfold pieTargetLine
    rw [hdec, List.foldl_append, List.foldl_cons, pieScanStep_macroLine logLine _ m hm]
    rw [foldl_pieScanStep_unchanged logLine post]
    intro l hl
    refine ⟨(hpost l hl).1, ?_⟩
    intro hc
    obtain ⟨l0, hl0, hc0, hle⟩ := (hpost l hl).2 hc
    have := foldl_pieScanStep_end_ge logLine pre { line := 0, end_time := QTime.null } l0 hl0 hc0
    simp only
    omega
  · intro pre c post hdec hc hv hpre hpost
    have h0 := lineEnd_nonneg_of_valid logLine c hv
    have hlt := foldl_pieScanStep_end_lt logLine (lineEnd logLine c) pre
      { line := 0, end_time := QTime.null } (by simp only [QTime.null]; omega) hpre
    unfold pieTargetLine
    rw [hdec, List.foldl_append, List.foldl_cons, pieScanStep_cart logLine _ c hc, if_pos hlt]
    rw [foldl_pieScanStep_unchanged logLine post]
    intro l hl
    exact ⟨(hpost l hl).1, fun hcl => (hpost l hl).2 hcl⟩
  · intro hall hvalid
    rcases foldl_pieScanStep_carts logLine lines { line := 0, end_time := QTime.null }
        hall with ⟨hle, _⟩ | ⟨pre, c, post, hdec, heq, _, hpre, hpost⟩
    · obtain ⟨l, hl, hv⟩ := hvalid
      have h1 := hle l hl
      have h2 := lineEnd_nonneg_of_valid logLine l hv
      simp only [QTime.null] at h1
      omega
    · have hline : pieTargetLine logLine lines = c := by
        unfold pieTargetLine
        rw [heq]
      rw [hline]
      exact ⟨pre, post, hdec, hpre, hpost⟩

/-- C20, witness: of the running lines 4, 5, 3 the Macro line 3, standing last, is chosen; of
the lines 3, 4 the Cart line 4, which follows the Macro line 3, is chosen; of the Cart lines
4, 5 the later-ending line is chosen. -/
theorem pie_target_choice_witness :
    pieTargetLine sampleLog [4, 5, 3] = 3 ∧
    pieTargetLine sampleLog [3, 4] = 4 ∧
    (∃ pre post, [4, 5] = pre ++ pieTargetLine sampleLog [4, 5] :: post ∧
      (∀ l ∈ pre, lineEnd sampleLog l < lineEnd sampleLog (pieTargetLine sampleLog [4, 5])) ∧
      (∀ l ∈ post, lineEnd sampleLog l ≤ lineEnd sampleLog (pieTargetLine sampleLog [4, 5]))) :=
  have h := pie_target_choice sampleLog [4, 5, 3]
  have h' := pie_target_choice sampleLog [4, 5]
  have h'' := pie_target_choice sampleLog [3, 4]
  ⟨h.1 [4, 5] 3 [] rfl (by decide) (by simp),
   h''.2.1 [3] 4 [] rfl (by decide) (by decide) (by decide) (by simp),
   h'.2.2 (by decide) (by decide)⟩

/-- C20, counterexample: the running lines are the Macro line 3 followed by the Cart line 4;
the line chosen as the pie-counter target is line 4, a Cart line. -/
theorem pie_target_macro_counterexample :
    isMacroLine sampleLog 3 = true ∧ isCartLine sampleLog 4 = true ∧
    pieTargetLine sampleLog [3, 4] = 4 := by
  decide

theorem RDSlider_changeValue_value (s : RDSlider) (v : Int)
    (hv : s.minimum ≤ v) (hv' : v ≤ s.maximum) : (s.changeValue v).value = v := by
  unfold RDSlider.changeValue
  by_cases h : s.value = v
  · simp [h]
  · simp only [ne_eq, h, not_false_eq_true, if_true]
    split <;> simp [RDSlider.QAbstractSlider_setValue, RDSlider.emit, hv, hv']

theorem RDSlider_changeValue_bound (s : RDSlider) (v : Int)
    (hne : s.value ≠ v) : (s.changeValue v).value = max s.minimum (min s.maximum v) := by
  unfold RDSlider.changeValue
  simp only [ne_eq, hne, not_false_eq_true, if_true]
  split <;> simp [RDSlider.QAbstractSlider_setValue, RDSlider.emit]

theorem RDSlider_changeValue_knob (s : RDSlider) (v : Int) :
    (s.changeValue v).moved.curr_knob = s.curr_knob := by
  unfold RDSlider.changeValue RDSlider.moved
  split
  · simp only []
    split <;> simp [RDSlider.QAbstractSlider_setValue, RDSlider.emit]
  · simp [RDSlider.emit]

theorem RDSlider_moved_value (s : RDSlider) : s.moved.value = s.value := rfl

/-- C11: a drag on a horizontal `RDSlider` with range 0..100 whose width exceeds the knob
width, with the mouse inside the widget. When the move places the knob at x = 0 the value
becomes 1 for orientation Right (not 0) and 100 for orientation Left; when it places the knob
at x = width - knob width the value becomes 100 for Right (the computed 101 is bounded by the
range) and 0 for Left. -/
theorem RDSlider_drag_extremes (s : RDSlider) (mouse_x mouse_y : Int)
    (hmoving : s.rdslider_moving = true)
    (hmin : s.minimum = 0) (hmax : s.maximum = 100)
    (hval : 0 ≤ s.value ∧ s.value ≤ 100)
    (hw : s.curr_knob.width < s.geometry.width)
    (hx0 : 0 ≤ mouse_x) (hx1 : mouse_x ≤ s.geometry.width) :
    (s.rdslider_orient = .Right → s.curr_knob.x - s.base_x + mouse_x ≤ 0 →
      (s.mouseMoveEvent mouse_x mouse_y).curr_knob.x = 0 ∧
      (s.mouseMoveEvent mouse_x mouse_y).value = 1) ∧
    (s.rdslider_orient = .Right →
      s.geometry.width - s.curr_knob.width ≤ s.curr_knob.x - s.base_x + mouse_x →
      (s.mouseMoveEvent mouse_x mouse_y).curr_knob.x = s.geometry.width - s.curr_knob.width ∧
      (s.mouseMoveEvent mouse_x mouse_y).value = 100) ∧
    (s.rdslider_orient = .Left → s.curr_knob.x - s.base_x + mouse_x ≤ 0 →
      (s.mouseMoveEvent mouse_x mouse_y).curr_knob.x = 0 ∧
      (s.mouseMoveEvent mouse_x mouse_y).value = 100) ∧
    (s.rdslider_orient = .Left →
      s.geometry.width - s.curr_knob.width ≤ s.curr_knob.x - s.base_x + mouse_x →
      (s.mouseMoveEvent mouse_x mouse_y).curr_knob.x = s.geometry.width - s.curr_knob.width ∧
      (s.mouseMoveEvent mouse_x mouse_y).value = 0) := by
  have hnx0 : ¬ mouse_x < 0 := by omega
  have hnx1 : ¬ mouse_x > s.geometry.width := by omega
  have hd : s.geometry.width - s.curr_knob.width ≠ 0 := by omega
  have hd' : s.curr_knob.width - s.geometry.width ≠ 0 := by omega
  refine ⟨?_, ?_, ?_, ?_⟩
  · intro ho hx
    have hc : (if (if s.curr_knob.x - s.base_x + mouse_x < 0 then 0
          else s.curr_knob.x - s.base_x + mouse_x) > s.geometry.width - s.curr_knob.width
        then s.geometry.width - s.curr_knob.width
        else (if s.curr_knob.x - s.base_x + mouse_x < 0 then 0
          else s.curr_knob.x - s.base_x + mouse_x)) = 0 := by
      split <;> split <;> omega
    simp only [RDSlider.mouseMoveEvent, hmoving, ho, if_true, reduceCtorEq, or_self, if_false,
      hnx0, hnx1, hc, hmin, hmax, RDSlider_changeValue_knob, RDSlider_moved_value]
    refine ⟨trivial, ?_⟩
    have hq : ((0 - 100) * 0 + s.curr_knob.width - s.geometry.width).tdiv
        (s.curr_knob.width - s.geometry.width) + 0 = 1 := by
      have : (0 - 100) * 0 + s.curr_knob.width - s.geometry.width
          = s.curr_knob.width - s.geometry.width := by ring
      rw [this, Int.tdiv_self hd']
      rfl
    rw [hq]
    apply RDSlider_changeValue_value <;> simp [hmin, hmax]
  · intro ho hx
    have hc : (if (if s.curr_knob.x - s.base_x + mouse_x < 0 then 0
          else s.curr_knob.x - s.base_x + mouse_x) > s.geometry.width - s.curr_knob.width
        then s.geometry.width - s.curr_knob.width
        else (if s.curr_knob.x - s.base_x + mouse_x < 0 then 0
          else s.curr_knob.x - s.base_x + mouse_x)) = s.geometry.width - s.curr_knob.width := by
      split <;> split <;> omega
    simp only [RDSlider.mouseMoveEvent, hmoving, ho, if_true, reduceCtorEq, or_self, if_false,
      hnx0, hnx1, hc, hmin, hmax, RDSlider_changeValue_knob, RDSlider_moved_value]
    refine ⟨trivial, ?_⟩
    have hq : ((0 - 100) * (s.geometry.width - s.curr_knob.width) + s.curr_knob.width
        - s.geometry.width).tdiv (s.curr_knob.width - s.geometry.width) + 0 = 101 := by
      have : (0 - 100) * (s.geometry.width - s.curr_knob.width) + s.curr_knob.width
          - s.geometry.width = 101 * (s.curr_knob.width - s.geometry.width) := by ring
      rw [this, Int.mul_tdiv_cancel _ hd']
      rfl
    rw [hq, RDSlider_changeValue_bound _ _ (by simp only; omega)]
    simp [hmin, hmax]
  · intro ho hx
    have hc : (if (if s.curr_knob.x - s.base_x + mouse_x < 0 then 0
          else s.curr_knob.x - s.base_x + mouse_x) > s.geometry.width - s.curr_knob.width
        then s.geometry.width - s.curr_knob.width
        else (if s.curr_knob.x - s.base_x + mouse_x < 0 then 0
          else s.curr_knob.x - s.base_x + mouse_x)) = 0 := by
      split <;> split <;> omega
    simp only [RDSlider.mouseMoveEvent, hmoving, ho, if_true, reduceCtorEq, or_self, if_false,
      hnx0, hnx1, hc, hmin, hmax, RDSlider_changeValue_knob, RDSlider_moved_value]
    refine ⟨trivial, ?_⟩
    have hq : ((100 - 0) * (s.geometry.width - 0 - s.curr_knob.width)).tdiv
        (s.geometry.width - s.curr_knob.width) + 0 = 100 := by
      have : (100 - 0) * (s.geometry.width - 0 - s.curr_knob.width)
          = 100 * (s.geometry.width - s.curr_knob.width) := by ring
      rw [this, Int.mul_tdiv_cancel _ hd]
      rfl
    rw [hq]
    apply RDSlider_changeValue_value <;> simp [hmin, hmax]
  · intro ho hx
    have hc : (if (if s.curr_knob.x - s.base_x + mouse_x < 0 then 0
          else s.curr_knob.x - s.base_x + mouse_x) > s.geometry.width - s.curr_knob.width
        then s.geometry.width - s.curr_knob.width
        else (if s.curr_knob.x - s.base_x + mouse_x < 0 then 0
          else s.curr_knob.x - s.base_x + mouse_x)) = s.geometry.width - s.curr_knob.width := by
      split <;> split <;> omega
    simp only [RDSlider.mouseMoveEvent, hmoving, ho, if_true, reduceCtorEq, or_self, if_false,
      hnx0, hnx1, hc, hmin, hmax, RDSlider_changeValue_knob, RDSlider_moved_value]
    refine ⟨trivial, ?_⟩
    have hq : ((100 - 0) * (s.geometry.width - (s.geometry.width - s.curr_knob.width)
        - s.curr_knob.width)).tdiv (s.geometry.width - s.curr_knob.width) + 0 = 0 := by
      have : (100 - 0) * (s.geometry.width - (s.geometry.width - s.curr_knob.width)
          - s.curr_knob.width) = 0 := by ring
      rw [this]
      simp
    rw [hq]
    apply RDSlider_changeValue_value <;> simp [hmin, hmax]

theorem RDSlider_drag_extremes_witness :
    ((draggedSlider .Right).mouseMoveEvent 5 10).curr_knob.x = 0 ∧
    ((draggedSlider .Right).mouseMoveEvent 5 10).value = 1 ∧
    ((draggedSlider .Left).mouseMoveEvent 5 10).value = 100 :=
  have h := RDSlider_drag_extremes (draggedSlider .Right) 5 10 rfl rfl rfl (by decide)
    (by decide) (by decide) (by decide)
  have h' := RDSlider_drag_extremes (draggedSlider .Left) 5 10 rfl rfl rfl (by decide)
    (by decide) (by decide) (by decide)
  ⟨(h.1 rfl (by decide)).1, (h.1 rfl (by decide)).2, (h'.2.2.1 rfl (by decide)).2⟩

theorem loadLine_recorded (tr : String → String) (fresh : Event) (st : DgImport)
    (line : QString)
    (ht : (GetTime (QString.left 8 line)).isValid = true)
    (hl : GetLength (QString.mid 80 3 line) > 0)
    (hi : GetIsci (QString.mid 10 15 line) ≠ []) :
    (loadLine tr fresh st line).dg_events
      = st.dg_events ++
        [{ time := GetTime (QString.left 8 line)
           length :=
             if GetLength (QString.mid 80 3 line) = 30000 then 29000
             else if GetLength (QString.mid 80 3 line) = 60000 then 58000
             else fresh.length
           isci := GetIsci (QString.mid 10 15 line)
           title := QString.mid 48 25 line
           client := QString.mid 32 11 line }] ∧
    (loadLine tr fresh st line).messages
      = (if GetLength (QString.mid 80 3 line) = 30000 then st.messages
         else if GetLength (QString.mid 80 3 line) = 60000 then st.messages
         else st.messages ++
           [nonStandardLengthWarning tr (GetIsci (QString.mid 10 15 line)) ++ ['\n']]) ∧
    (loadLine tr fresh st line).dg_carts (GetIsci (QString.mid 10 15 line)) = some 0 := by
  have hi' : (GetIsci (QString.mid 10 15 line)).isEmpty = false := by
    cases h : GetIsci (QString.mid 10 15 line) with
    | nil => exact absurd h hi
    | cons _ _ => rfl
  unfold loadLine
  simp only [ht, hl, hi', if_true, Bool.not_false]
  by_cases h30 : GetLength (QString.mid 80 3 line) = 30000
  · simp [h30, DgImport.setCart]
  · by_cases h60 : GetLength (QString.mid 80 3 line) = 60000
    · simp [h30, h60, DgImport.setCart]
    · simp [h30, h60, DgImport.setCart, DgImport.LogMessage]

/-- C14: for a line that `LoadEvents` records, with parsed length `L`: the event's length is
29000 when `L` is 30000 and 58000 when `L` is 60000; for every other `L` the warning naming the
ISCI code is logged and `setLength` is not called, so the event's length is the one `new
Event()` gave it, not `L`. -/
theorem LoadEvents_event_length (tr : String → String) (fresh : Event) (st : DgImport)
    (line : QString)
    (ht : (GetTime (QString.left 8 line)).isValid = true)
    (hl : GetLength (QString.mid 80 3 line) > 0)
    (hi : GetIsci (QString.mid 10 15 line) ≠ []) :
    ∃ evt, (loadLine tr fresh st line).dg_events = st.dg_events ++ [evt] ∧
      evt.isci = GetIsci (QString.mid 10 15 line) ∧
      (GetLength (QString.mid 80 3 line) = 30000 → evt.length = 29000 ∧
        (loadLine tr fresh st line).messages = st.messages) ∧
      (GetLength (QString.mid 80 3 line) = 60000 → evt.length = 58000 ∧
        (loadLine tr fresh st line).messages = st.messages) ∧
      (GetLength (QString.mid 80 3 line) ≠ 30000 → GetLength (QString.mid 80 3 line) ≠ 60000 →
        evt.length = fresh.length ∧
        (loadLine tr fresh st line).messages
          = st.messages ++ [nonStandardLengthWarning tr evt.isci ++ ['\n']]) := by
  obtain ⟨he, hm, _⟩ := loadLine_recorded tr fresh st line ht hl hi
  refine ⟨_, he, rfl, ?_, ?_, ?_⟩
  · intro h; simp [h, hm]
  · intro h; simp [h, hm]
  · intro h1 h2; simp [h1, h2, hm]

theorem LoadEvents_event_length_witness :
    GetLength (QString.mid 80 3
      (trafficLine "12:00:00" "ABCDEFGHIJKLMNO" "ACME MOTORS" "SPRING SALE" ":45")) = 45000 ∧
    ∃ evt, (loadLine id clearedEvent DgImport.empty
        (trafficLine "12:00:00" "ABCDEFGHIJKLMNO" "ACME MOTORS" "SPRING SALE" ":45")).dg_events
        = [evt] ∧ evt.length = 0 := by
  refine ⟨by decide, ?_⟩
  obtain ⟨evt, he, _, _, _, h⟩ := LoadEvents_event_length id clearedEvent DgImport.empty
    (trafficLine "12:00:00" "ABCDEFGHIJKLMNO" "ACME MOTORS" "SPRING SALE" ":45")
    (by decide) (by decide) (by decide)
  exact ⟨evt, he, (h (by decide) (by decide)).1⟩

theorem QTime_ofHMS_isValid (h m s : Int) (hh : 0 ≤ h ∧ h ≤ 23) (hm : 0 ≤ m ∧ m ≤ 59)
    (hs : 0 ≤ s ∧ s ≤ 59) : (QTime.ofHMS h m s).isValid = true := by
  have : 0 ≤ h ∧ h ≤ 23 ∧ 0 ≤ m ∧ m ≤ 59 ∧ 0 ≤ s ∧ s ≤ 59 := ⟨hh.1, hh.2, hm.1, hm.2, hs⟩
  simp only [QTime.ofHMS, this, and_self, if_true, QTime.isValid, Bool.and_eq_true,
    decide_eq_true_eq]
  omega

theorem QTime_null_not_valid : QTime.null.isValid = false := by decide

theorem decide_range (lo hi v : Int) :
    (decide (lo ≤ v) && decide (v ≤ hi)) = decide (lo ≤ v ∧ v ≤ hi) := by
  by_cases h1 : lo ≤ v <;> by_cases h2 : v ≤ hi <;> simp [h1, h2]

theorem GetTime_isValid_iff (s : QString) : (GetTime s).isValid = specTimeField s := by
  unfold GetTime specTimeField parsesInRange
  split
  · rename_i f0 f1 f2 _
    cases h0 : QString.toInt f0 with
    | none => simp [QTime_null_not_valid]
    | some hour =>
      simp only [decide_range]
      by_cases hh : 0 ≤ hour ∧ hour ≤ 23
      · cases h1 : QString.toInt f1 with
        | none => simp [QTime_null_not_valid, hh]
        | some minute =>
          by_cases hm : 0 ≤ minute ∧ minute ≤ 59
          · cases h2 : QString.toInt f2 with
            | none => simp [QTime_null_not_valid, hh, hm]
            | some second =>
              by_cases hs : 0 ≤ second ∧ second ≤ 59
              · simp [hh, hm, hs, QTime_ofHMS_isValid hour minute second hh hm hs]
              · simp [hh, hm, hs, QTime_null_not_valid]
          · simp [hh, hm, QTime_null_not_valid]
      · simp [hh, QTime_null_not_valid]
  · simp only [QTime_null_not_valid]

theorem GetLength_pos_iff (s : QString) :
    decide (GetLength s > 0) = specLengthField 1 60 s := by
  unfold GetLength specLengthField parsesInRange
  by_cases hc : QString.left 1 s = [':']
  · simp only [hc, if_true, decide_True, Bool.true_and]
    cases QString.toInt (QString.right 2 s) with
    | none => simp
    | some len =>
      simp only [decide_range]
      by_cases h : 0 ≤ len ∧ len ≤ 60
      · simp only [h, and_self, if_true]
        by_cases h1 : 1 ≤ len
        · have : len * 1000 > 0 := by omega
          simp [h1, h.2, this]
        · have : ¬ len * 1000 > 0 := by omega
          simp [h1, this]
      · simp only [h, if_false]
        have : ¬ (1 ≤ len ∧ len ≤ 60) := fun h' => h ⟨by omega, h'.2⟩
        simp [this]
  · simp [hc]

theorem GetIsci_ne_nil_iff (s : QString) :
    (!(GetIsci s).isEmpty) = specIsciField s := by
  unfold GetIsci specIsciField
  by_cases h : (QString.trimmed s).length = 15
  · simp only [h, if_true, decide_True]
    cases ht : QString.trimmed s with
    | nil => rw [ht] at h; simp at h
    | cons _ _ => rfl
  · simp [h]

theorem GetIsci_of_spec (s : QString) (h : specIsciField s = true) :
    GetIsci s = QString.trimmed s := by
  unfold specIsciField at h
  simp only [decide_eq_true_eq] at h
  simp [GetIsci, h]

theorem loadLine_of_valid (tr : String → String) (fresh : Event) (st : DgImport)
    (line : QString) (h : validEventLine line = true) :
    (loadLine tr fresh st line).dg_events = st.dg_events ++ [eventOfLine fresh line] ∧
    (loadLine tr fresh st line).dg_carts (eventOfLine fresh line).isci = some 0 ∧
    (∀ k, (loadLine tr fresh st line).dg_carts k = some 0 ∨
      (loadLine tr fresh st line).dg_carts k = st.dg_carts k) := by
  simp only [validEventLine, Bool.and_eq_true] at h
  obtain ⟨⟨h1, h2⟩, h3⟩ := h
  have ht : (GetTime (QString.left 8 line)).isValid = true := by rw [GetTime_isValid_iff]; exact h1
  have hl : GetLength (QString.mid 80 3 line) > 0 := by
    have := GetLength_pos_iff (QString.mid 80 3 line)
    rw [h2] at this
    simpa using this
  have hi : GetIsci (QString.mid 10 15 line) ≠ [] := by
    have := GetIsci_ne_nil_iff (QString.mid 10 15 line)
    rw [h3] at this
    intro hnil
    rw [hnil] at this
    simp at this
  obtain ⟨he, _, hc⟩ := loadLine_recorded tr fresh st line ht hl hi
  have hisci := GetIsci_of_spec _ h3
  refine ⟨?_, ?_, ?_⟩
  · rw [he]; simp only [eventOfLine, hisci]
  · simp only [eventOfLine, ← hisci]; exact hc
  · intro k
    have hi' : (GetIsci (QString.mid 10 15 line)).isEmpty = false := by
      cases hh : GetIsci (QString.mid 10 15 line) with
      | nil => exact absurd hh hi
      | cons _ _ => rfl
    unfold loadLine
    simp only [ht, hl, hi', if_true, Bool.not_false]
    by_cases hk : k = GetIsci (QString.mid 10 15 line)
    · left; simp [DgImport.setCart, hk]
    · right
      simp only [DgImport.setCart, hk, if_false]
      split
      · rfl
      · split <;> rfl

theorem loadLine_of_not_valid (tr : String → String) (fresh : Event) (st : DgImport)
    (line : QString) (h : validEventLine line = false) :
    loadLine tr fresh st line = st := by
  unfold loadLine
  by_cases h1 : specTimeField (QString.left 8 line) = true
  · have ht : (GetTime (QString.left 8 line)).isValid = true := by
      rw [GetTime_isValid_iff]; exact h1
    simp only [ht, if_true]
    by_cases h2 : specLengthField 1 60 (QString.mid 80 3 line) = true
    · have hl : GetLength (QString.mid 80 3 line) > 0 := by
        have := GetLength_pos_iff (QString.mid 80 3 line)
        rw [h2] at this
        simpa using this
      have h3 : specIsciField (QString.mid 10 15 line) = false := by
        simpa [validEventLine, h1, h2] using h
      have hi := GetIsci_ne_nil_iff (QString.mid 10 15 line)
      rw [h3] at hi
      simp only [hl, if_true, hi]
      simp
    · have hl : ¬ GetLength (QString.mid 80 3 line) > 0 := by
        have := GetLength_pos_iff (QString.mid 80 3 line)
        rw [Bool.not_eq_true] at h2
        rw [h2] at this
        simpa using this
      simp only [hl, if_false]
  · have ht : (GetTime (QString.left 8 line)).isValid = false := by
      rw [GetTime_isValid_iff]; simpa using h1
    simp [ht]

theorem foldl_loadLine (tr : String → String) (fresh : Event) (lines : List QString) :
    ∀ st : DgImport,
      (lines.foldl (loadLine tr fresh) st).dg_events
        = st.dg_events ++ (lines.filter validEventLine).map (eventOfLine fresh) ∧
      (∀ evt ∈ (lines.filter validEventLine).map (eventOfLine fresh),
        (lines.foldl (loadLine tr fresh) st).dg_carts evt.isci = some 0) ∧
      (∀ k, (lines.foldl (loadLine tr fresh) st).dg_carts k = some 0 ∨
        (lines.foldl (loadLine tr fresh) st).dg_carts k = st.dg_carts k) := by
  induction lines with
  | nil => intro st; simp
  | cons line rest ih =>
    intro st
    rw [List.foldl_cons]
    obtain ⟨ihe, ihc, ihk⟩ := ih (loadLine tr fresh st line)
    by_cases hv : validEventLine line = true
    · obtain ⟨he, hc, hk⟩ := loadLine_of_valid tr fresh st line hv
      refine ⟨?_, ?_, ?_⟩
      · rw [ihe, he, List.filter_cons_of_pos hv]
        simp
      · intro evt hevt
        rw [List.filter_cons_of_pos hv, List.map_cons, List.mem_cons] at hevt
        rcases hevt with rfl | hevt
        · rcases ihk (eventOfLine fresh line).isci with h | h
          · exact h
          · rw [h]; exact hc
        · exact ihc evt hevt
      · intro k
        rcases ihk k with h | h
        · exact Or.inl h
        · rw [h]; exact hk k
    · have hv' : validEventLine line = false := by simpa using hv
      rw [loadLine_of_not_valid tr fresh st line hv'] at ihe ihc ihk ⊢
      refine ⟨?_, ?_, ihk⟩
      · rw [ihe, List.filter_cons_of_neg hv]
      · intro evt hevt
        rw [List.filter_cons_of_neg hv] at hevt
        exact ihc evt hevt

/-- C16, amended: `LoadEvents` records an event for a source line if and only if columns 0-7
parse as an `hh:mm:ss` time (hour 0..23, minute and second 0..59), columns 80-82 are a colon
followed by a length in seconds from 1 to 60, and columns 10-24 trim to exactly 15 characters;
the events are those of the valid lines in file order, and the ISCI code of every recorded
event is in the cart map with cart number 0. -/
theorem LoadEvents_records_valid_lines (tr : String → String) (fresh : Event)
    (lines : List QString) (st : DgImport) :
    (LoadEvents tr fresh (some lines) st).1 = true ∧
    (LoadEvents tr fresh (some lines) st).2.dg_events
      = (lines.filter validEventLine).map (eventOfLine fresh) ∧
    (∀ evt ∈ (LoadEvents tr fresh (some lines) st).2.dg_events,
      (LoadEvents tr fresh (some lines) st).2.dg_carts evt.isci = some 0) := by
  obtain ⟨he, hc, _⟩ := foldl_loadLine tr fresh lines { st with dg_events := [] }
  have hev : (LoadEvents tr fresh (some lines) st).2.dg_events
      = (lines.filter validEventLine).map (eventOfLine fresh) := by
    simp only [LoadEvents]
    rw [he]
    simp
  refine ⟨rfl, hev, ?_⟩
  intro evt hevt
  rw [hev] at hevt
  exact hc evt hevt

/-- C16, counterexample: columns 0-7 hold the time 12:00:00, columns 10-24 a 15-character ISCI
code and columns 80-82 the positive two-digit length ":75", yet `LoadEvents` records no
event for the line. -/
theorem LoadEvents_length_75_counterexample :
    specTimeField (QString.left 8
      (trafficLine "12:00:00" "ABCDEFGHIJKLMNO" "ACME MOTORS" "SPRING SALE" ":75")) = true ∧
    specLengthField 1 99 (QString.mid 80 3
      (trafficLine "12:00:00" "ABCDEFGHIJKLMNO" "ACME MOTORS" "SPRING SALE" ":75")) = true ∧
    specIsciField (QString.mid 10 15
      (trafficLine "12:00:00" "ABCDEFGHIJKLMNO" "ACME MOTORS" "SPRING SALE" ":75")) = true ∧
    (LoadEvents id clearedEvent
      (some [trafficLine "12:00:00" "ABCDEFGHIJKLMNO" "ACME MOTORS" "SPRING SALE" ":75"])
      DgImport.empty).2.dg_events = [] := by
  decide

theorem LoadEvents_records_valid_lines_witness :
    (LoadEvents id clearedEvent
      (some [trafficLine "12:00:00" "ABCDEFGHIJKLMNO" "ACME MOTORS" "SPRING SALE" ":30",
             trafficLine "25:00:00" "ABCDEFGHIJKLMNO" "ACME MOTORS" "SPRING SALE" ":30"])
      DgImport.empty).2.dg_events
      = [eventOfLine clearedEvent
          (trafficLine "12:00:00" "ABCDEFGHIJKLMNO" "ACME MOTORS" "SPRING SALE" ":30")] :=
  (LoadEvents_records_valid_lines id clearedEvent
    [trafficLine "12:00:00" "ABCDEFGHIJKLMNO" "ACME MOTORS" "SPRING SALE" ":30",
     trafficLine "25:00:00" "ABCDEFGHIJKLMNO" "ACME MOTORS" "SPRING SALE" ":30"]
    DgImport.empty).2.1.trans (by decide)

theorem trafficRecordsFrom_length (f : Int → QString) (st : DgImport) (evts : List Event) :
    ∀ i, (trafficRecordsFrom f st i evts).length = evts.length := by
  induction evts with
  | nil => intro i; rfl
  | cons e rest ih => intro i; simp [trafficRecordsFrom, ih]

theorem trafficRecordsFrom_getElem (f : Int → QString) (st : DgImport) (evts : List Event) :
    ∀ (i k : Nat) (evt : Event), evts[k]? = some evt →
      (trafficRecordsFrom f st i evts)[k]? = some (trafficRecord f st (i + k) evt) := by
  induction evts with
  | nil => intro i k evt h; simp at h
  | cons e rest ih =>
    intro i k evt h
    cases k with
    | zero =>
      simp only [List.getElem?_cons_zero, Option.some.injEq] at h
      simp [trafficRecordsFrom, h]
    | succ k =>
      simp only [List.getElem?_cons_succ] at h
      simp only [trafficRecordsFrom, List.getElem?_cons_succ]
      rw [ih (i + 1) k evt h]
      congr 2
      omega

theorem utf8Length_append (a b : QString) : utf8Length (a ++ b) = utf8Length a + utf8Length b := by
  simp [utf8Length]

theorem utf8Length_blanks (n : Nat) : utf8Length (List.replicate n ' ') = n := by
  induction n with
  | zero => rfl
  | succ n ih =>
    rw [List.replicate_succ]
    have : utf8Length (' ' :: List.replicate n ' ') = 1 + utf8Length (List.replicate n ' ') := by
      simp only [utf8Length, List.map_cons, List.sum_cons]
      rfl
    rw [this, ih]
    omega

theorem leftJustify_length (width : Nat) (s : QString) (h : utf8Length s ≤ width) :
    utf8Length (leftJustify width s) = width := by
  rw [leftJustify, utf8Length_append, utf8Length_blanks]
  omega

theorem leftJustify_long (width : Nat) (s : QString) (h : width ≤ utf8Length s) :
    leftJustify width s = s := by
  have : width - utf8Length s = 0 := by omega
  simp [leftJustify, this]

theorem zeroPad_length (width n : Nat) (hw : 0 < width) (h : n < 10 ^ width) :
    (zeroPad width n).length = width := by
  have hlen := Nat.repr_length n width hw h
  simp only [zeroPad, List.length_append, List.length_replicate]
  have : (Nat.repr n).toList.length = (Nat.repr n).length := rfl
  omega

/-- C15, amended: when the destination opens, `WriteTrafficFile` writes exactly one record per
event, in the order of the event list, each ending in a line feed. In record `i` the title
field is the event's title followed by blanks up to 34 bytes when the UTF-8 form of the title
has at most 34 bytes (a longer one is written in full, without blanks), and the record ends
with the index `i` as exactly 32 decimal digits, zeros first. -/
theorem WriteTrafficFile_records (RDGetTimeLength : Int → QString) (st : DgImport)
    (hsize : st.dg_events.length ≤ 4294967296) :
    (WriteTrafficFile RDGetTimeLength true st).1 = true ∧
    (WriteTrafficFile RDGetTimeLength true st).2.length = st.dg_events.length ∧
    (∀ (i : Nat) (evt : Event), st.dg_events[i]? = some evt →
      ∃ head tail,
        (WriteTrafficFile RDGetTimeLength true st).2[i]?
          = some (head ++ (leftJustify 34 evt.title ++ [' ']) ++ tail ++ zeroPad 32 i ++ ['\n']) ∧
        head = evt.time.toString_hhmmss ++ "  ".toList ++
          (zeroPad 6 (st.cart evt.isci) ++ "         ".toList) ∧
        (utf8Length evt.title ≤ 34 →
          leftJustify 34 evt.title
            = evt.title ++ List.replicate (34 - utf8Length evt.title) ' ' ∧
          utf8Length (leftJustify 34 evt.title) = 34) ∧
        (34 ≤ utf8Length evt.title → leftJustify 34 evt.title = evt.title) ∧
        (zeroPad 32 i).length = 32 ∧
        zeroPad 32 i
          = List.replicate (32 - (Nat.repr i).length) '0' ++ (Nat.repr i).toList) := by
  refine ⟨rfl, ?_, ?_⟩
  · simp [WriteTrafficFile, trafficRecordsFrom_length]
  · intro i evt hi
    have hlt : i < st.dg_events.length := by
      rcases List.getElem?_eq_some_iff.1 hi with ⟨h, _⟩
      exact h
    refine ⟨evt.time.toString_hhmmss ++ "  ".toList ++
        (zeroPad 6 (st.cart evt.isci) ++ "         ".toList),
      (if evt.length < 600000 then "0".toList else []) ++
        (RDGetTimeLength evt.length ++ " ".toList) ++ (leftJustify 32 evt.isci ++ " ".toList),
      ?_, rfl, ?_, ?_, ?_, rfl⟩
    · simp only [WriteTrafficFile, Bool.not_true, Bool.false_eq_true, if_false]
      rw [trafficRecordsFrom_getElem RDGetTimeLength st st.dg_events 0 i evt hi]
      simp [trafficRecord, trafficFields, List.append_assoc]
    · intro h
      exact ⟨rfl, leftJustify_length 34 evt.title h⟩
    · intro h
      exact leftJustify_long 34 evt.title h
    · apply zeroPad_length 32 i (by norm_num)
      have : (4294967296 : Nat) < 10 ^ 32 := by norm_num
      omega

theorem WriteTrafficFile_records_witness :
    (WriteTrafficFile sampleTimeLength true
      (LoadEvents id clearedEvent
        (some [trafficLine "12:00:00" "ABCDEFGHIJKLMNO" "ACME MOTORS" "SPRING SALE" ":30"])
        DgImport.empty).2).2.length = 1 :=
  (WriteTrafficFile_records sampleTimeLength
    (LoadEvents id clearedEvent
      (some [trafficLine "12:00:00" "ABCDEFGHIJKLMNO" "ACME MOTORS" "SPRING SALE" ":30"])
      DgImport.empty).2 (by decide)).2.1.trans (by decide)

/-- C15, counterexample: `LoadEvents` records the event of a line whose title is 25 accented
letters; in the record `WriteTrafficFile` writes for it the title field is the title alone,
25 characters in 50 bytes, not 34. -/
theorem WriteTrafficFile_title_counterexample :
    (LoadEvents id clearedEvent (some [accentedLine]) DgImport.empty).2.dg_events
      = [eventOfLine clearedEvent accentedLine] ∧
    (trafficFields sampleTimeLength
        (LoadEvents id clearedEvent (some [accentedLine]) DgImport.empty).2 0
        (eventOfLine clearedEvent accentedLine))[2]?
      = some ((eventOfLine clearedEvent accentedLine).title ++ [' ']) ∧
    (eventOfLine clearedEvent accentedLine).title.length = 25 ∧
    utf8Length (eventOfLine clearedEvent accentedLine).title = 50 := by
  decide

/-- The statics of `masterTimerData` after `n` ticks: the counter is `n mod 6`, and from the
first tick on `last_time` is the time read at the latest check (or at the first tick). -/
theorem masterTimerTicks_state (Q : Nat) (now : Nat → QTime) (n : Nat) :
    (masterTimerTicks Q now n).counter = n % 6 ∧
    (masterTimerTicks Q now n).last_time =
      if n = 0 then none else some (lastObserved now n) := by
  induction n with
  | zero => simp [masterTimerTicks, MasterTimer.init]
  | succ n ih =>
    obtain ⟨hc, hl⟩ := ih
    simp only [masterTimerTicks, masterTimerData, hc, hl]
    by_cases h5 : n % 6 ≥ 5
    · have h6 : (n + 1) % 6 = 0 := by omega
      have h7 : (n + 1) / 6 * 6 = n + 1 := by omega
      have h8 : ¬ (n + 1 < 6) := by omega
      simp [h5, h6, lastObserved, h7, h8]
    · have h6 : (n + 1) % 6 = n % 6 + 1 := by omega
      have h9 : (n % 6 + 1) % 4294967296 = n % 6 + 1 := by omega
      simp only [h5, if_false, h6, h9, true_and, Nat.succ_ne_zero]
      by_cases h0 : n = 0
      · subst h0
        simp [lastObserved]
      · simp only [h0, if_false, Option.getD_some]
        congr 1
        unfold lastObserved
        by_cases hn : n < 6
        · have : n + 1 < 6 := by omega
          simp [hn, this]
        · have h1 : ¬ (n + 1 < 6) := by omega
          have h2 : (n + 1) / 6 = n / 6 := by omega
          simp [hn, h1, h2]

/-- C21 (amended): the statics of `masterTimerData` count `n mod 6`, so the rollback check
runs on every sixth tick of the master timer (ticks 6, 12, 18, ...): tick `n + 1` calls
`resync()` on every one of the `RDAIRPLAY_LOG_QUANTITY` log machines exactly when `n + 1` is a
multiple of six and the time it reads is earlier than the time read at the previous check
(at the first tick when there was no check yet), and it calls none otherwise; a tick that is
not a check leaves the observed time as it was. -/
theorem masterTimerData_sixth_tick (RDAIRPLAY_LOG_QUANTITY : Nat) (now : Nat → QTime)
    (n : Nat) :
    (masterTimerTicks RDAIRPLAY_LOG_QUANTITY now n).counter = n % 6 ∧
    masterTimerResync RDAIRPLAY_LOG_QUANTITY now (n + 1) =
      (if (n + 1) % 6 = 0 ∧ (now (n + 1)).mds < (lastObserved now n).mds then
        List.range RDAIRPLAY_LOG_QUANTITY
      else []) ∧
    ((n + 1) % 6 ≠ 0 → 0 < n →
      (masterTimerTicks RDAIRPLAY_LOG_QUANTITY now (n + 1)).last_time =
        (masterTimerTicks RDAIRPLAY_LOG_QUANTITY now n).last_time) := by
  obtain ⟨hc, hl⟩ := masterTimerTicks_state RDAIRPLAY_LOG_QUANTITY now n
  refine ⟨hc, ?_, ?_⟩
  · simp only [masterTimerResync, masterTimerData, hc, hl]
    by_cases h5 : n % 6 ≥ 5
    · have h6 : (n + 1) % 6 = 0 := by omega
      have h0 : n ≠ 0 := by omega
      simp [h5, h6, h0]
    · have h6 : (n + 1) % 6 ≠ 0 := by omega
      simp [h5, h6]
  · intro h6 h0
    have h5 : ¬ (n % 6 ≥ 5) := by omega
    have hn : n ≠ 0 := by omega
    simp only [masterTimerTicks, masterTimerData, hc, hl, h5, if_false, hn, Option.getD_some]

/-- C21, witness: with three log machines and the clock rolled back from the fifth tick on,
tick 7 is no check, so the observed time stays what tick 6 stored. -/
theorem masterTimerData_sixth_tick_witness :
    (masterTimerTicks 3 rolledBackClock 6).counter = 6 % 6 ∧
    masterTimerResync 3 rolledBackClock (6 + 1) =
      (if (6 + 1) % 6 = 0 ∧
          (rolledBackClock (6 + 1)).mds < (lastObserved rolledBackClock 6).mds then
        List.range 3
      else []) ∧
    (masterTimerTicks 3 rolledBackClock (6 + 1)).last_time =
      (masterTimerTicks 3 rolledBackClock 6).last_time :=
  ⟨(masterTimerData_sixth_tick 3 rolledBackClock 6).1,
   (masterTimerData_sixth_tick 3 rolledBackClock 6).2.1,
   (masterTimerData_sixth_tick 3 rolledBackClock 6).2.2 (by decide) (by decide)⟩

/-- C21, counterexample: the clock is rolled back at the fifth tick; tick 5 makes no check
and calls no `resync()`, the rollback is detected by tick 6. -/
theorem masterTimerData_fifth_tick_counterexample :
    (rolledBackClock 5).mds < (rolledBackClock 1).mds ∧
    masterTimerResync 3 rolledBackClock 5 = [] ∧
    masterTimerResync 3 rolledBackClock 6 = [0, 1, 2] := by
  decide

/-- The loop over the lines finds exactly one call for a Start, Stop or Pause label of the
lines 1 to 7. -/
theorem lineHotkeys_lines (n : Nat) (h1 : 1 ≤ n) (h7 : n ≤ 7) :
    lineHotkeys (lineLabel "Start" n) = [.startButton ((n : Int) - 1)] ∧
    lineHotkeys (lineLabel "Stop" n) = [.stopButtonHotkey ((n : Int) - 1)] ∧
    lineHotkeys (lineLabel "Pause" n) = [.pauseButtonHotkey ((n : Int) - 1)] := by
  interval_cases n <;> decide

/-- A label of a line is none of the labels `keyReleaseEvent` answers before its loop. -/
theorem lineLabel_not_early (n : Nat) (h1 : 1 ≤ n) (h8 : n ≤ 8) (what : String)
    (hw : what = "Start" ∨ what = "Stop" ∨ what = "Pause") :
    0 < (lineLabel what n).length ∧
    lineLabel what n ≠ "Add".toList ∧ lineLabel what n ≠ "Delete".toList ∧
    lineLabel what n ≠ "Copy".toList ∧ lineLabel what n ≠ "Move".toList ∧
    lineLabel what n ≠ "Sound Panel".toList ∧ lineLabel what n ≠ "Main Log".toList ∧
    lineLabel what n ≠ "Aux Log 1".toList ∧ lineLabel what n ≠ "Aux Log 2".toList := by
  rcases hw with hw | hw | hw <;> subst hw <;> interval_cases n <;> decide

/-- What `keyReleaseEvent` does with a chord whose label is a label of a line. -/
theorem keyReleaseEvent_line_label (env : HotKeyEnv) (st : HotKeyState) (e : QKeyEvent)
    (n : Nat) (h1 : 1 ≤ n) (h8 : n ≤ 8) (what : String)
    (hw : what = "Start" ∨ what = "Stop" ∨ what = "Pause")
    (hkey : isChordKey e.key = true) (hchord : hotChord env st e ≠ [])
    (hlabel : env.GetRowLabel (hotChord env st e) = lineLabel what n) :
    (keyReleaseEvent env st e).2 =
      spaceBarCalls env e ++ lineHotkeys (lineLabel what n) ++ [.QWidget_keyReleaseEvent] := by
  obtain ⟨l0, l1, l2, l3, l4, l5, l6, l7, l8⟩ := lineLabel_not_early n h1 h8 what hw
  have hlen : 0 < (hotChord env st e).length := List.length_pos.mpr hchord
  have hk : ¬ (e.key = .Key_Shift ∨ e.key = .Key_Up ∨ e.key = .Key_Left ∨
      e.key = .Key_Right ∨ e.key = .Key_Down) := by
    intro h
    rcases h with h | h | h | h | h <;> rw [h] at hkey <;> simp [isChordKey] at hkey
  have hm : ¬ (e.key = .Key_Alt ∨ e.key = .Key_Control) := by
    intro h
    rcases h with h | h <;> rw [h] at hkey <;> simp [isChordKey] at hkey
  unfold keyReleaseEvent
  simp only [hk, hm, if_false, hlabel, gt_iff_lt, hlen, l0, if_true, l1, l2, l3, l4, l5, l6,
    l7, l8, false_and]

/-- The loop over the lines makes no call for a label of line 8. -/
theorem lineHotkeys_line_8 :
    lineHotkeys (lineLabel "Start" 8) = [] ∧ lineHotkeys (lineLabel "Stop" 8) = [] ∧
    lineHotkeys (lineLabel "Pause" 8) = [] := by
  decide

/-- C22 (amended): for every n in 1..7, a released key that is no modifier and no arrow, whose
chord is not empty and is mapped to the label "Start Line n", "Stop Line n" or "Pause Line n",
makes `MainWidget::keyReleaseEvent` call the button log's `startButton`, `stopButtonHotkey` or
`pauseButtonHotkey` for line index n-1, after the space-bar call if any and before the call of
the base class; a chord mapped to "Start Line 8", "Stop Line 8" or "Pause Line 8" makes it
call nothing of the button log, only the base class. -/
theorem keyReleaseEvent_line_hotkeys (env : HotKeyEnv) (st : HotKeyState) (e : QKeyEvent)
    (n : Nat) (h1 : 1 ≤ n) (h7 : n ≤ 7)
    (hkey : isChordKey e.key = true) (hchord : hotChord env st e ≠ []) :
    (env.GetRowLabel (hotChord env st e) = lineLabel "Start" n →
      (keyReleaseEvent env st e).2 =
        spaceBarCalls env e ++ [.startButton ((n : Int) - 1), .QWidget_keyReleaseEvent]) ∧
    (env.GetRowLabel (hotChord env st e) = lineLabel "Stop" n →
      (keyReleaseEvent env st e).2 =
        spaceBarCalls env e ++ [.stopButtonHotkey ((n : Int) - 1), .QWidget_keyReleaseEvent]) ∧
    (env.GetRowLabel (hotChord env st e) = lineLabel "Pause" n →
      (keyReleaseEvent env st e).2 =
        spaceBarCalls env e ++
          [.pauseButtonHotkey ((n : Int) - 1), .QWidget_keyReleaseEvent]) ∧
    ((env.GetRowLabel (hotChord env st e) = lineLabel "Start" 8 ∨
        env.GetRowLabel (hotChord env st e) = lineLabel "Stop" 8 ∨
        env.GetRowLabel (hotChord env st e) = lineLabel "Pause" 8) →
      (keyReleaseEvent env st e).2 = spaceBarCalls env e ++ [.QWidget_keyReleaseEvent]) := by
  obtain ⟨hs, ht, hp⟩ := lineHotkeys_lines n h1 h7
  obtain ⟨hs8, ht8, hp8⟩ := lineHotkeys_line_8
  have h8 : n ≤ 8 := by omega
  refine ⟨fun h => ?_, fun h => ?_, fun h => ?_, fun h => ?_⟩
  · rw [keyReleaseEvent_line_label env st e n h1 h8 "Start" (Or.inl rfl) hkey hchord h, hs]
    simp
  · rw [keyReleaseEvent_line_label env st e n h1 h8 "Stop" (Or.inr (Or.inl rfl)) hkey hchord h,
      ht]
    simp
  · rw [keyReleaseEvent_line_label env st e n h1 h8 "Pause" (Or.inr (Or.inr rfl)) hkey hchord h,
      hp]
    simp
  · rcases h with h | h | h
    · rw [keyReleaseEvent_line_label env st e 8 (by decide) (by decide) "Start" (Or.inl rfl)
        hkey hchord h, hs8]
      simp
    · rw [keyReleaseEvent_line_label env st e 8 (by decide) (by decide) "Stop"
        (Or.inr (Or.inl rfl)) hkey hchord h, ht8]
      simp
    · rw [keyReleaseEvent_line_label env st e 8 (by decide) (by decide) "Pause"
        (Or.inr (Or.inr rfl)) hkey hchord h, hp8]
      simp

/-- C22, witness: with Alt down, releasing F7 (chord "Alt + F7", label "Start Line 7") starts
line index 6 of the button log, and releasing F8 (label "Start Line 8") calls only the base
class. -/
theorem keyReleaseEvent_line_hotkeys_witness :
    (keyReleaseEvent functionKeyEnv ⟨1, true, false⟩ ⟨.other 16777270, false⟩).2 =
      spaceBarCalls functionKeyEnv ⟨.other 16777270, false⟩ ++
        [.startButton ((7 : Nat) - 1 : Int), .QWidget_keyReleaseEvent] ∧
    (keyReleaseEvent functionKeyEnv ⟨1, true, false⟩ ⟨.other 16777271, false⟩).2 =
      spaceBarCalls functionKeyEnv ⟨.other 16777271, false⟩ ++ [.QWidget_keyReleaseEvent] :=
  ⟨(keyReleaseEvent_line_hotkeys functionKeyEnv ⟨1, true, false⟩ ⟨.other 16777270, false⟩ 7
      (by decide) (by decide) (by decide) (by decide)).1 (by decide),
   (keyReleaseEvent_line_hotkeys functionKeyEnv ⟨1, true, false⟩ ⟨.other 16777271, false⟩ 7
      (by decide) (by decide) (by decide) (by decide)).2.2.2 (Or.inl (by decide))⟩

/-- C22, counterexample: with Alt down, releasing F8 gives the chord "Alt + F8", mapped to the
label "Start Line 8"; `keyReleaseEvent` makes no call on the button log, only the call of the
base class. -/
theorem keyReleaseEvent_line_8_counterexample :
    hotChord functionKeyEnv ⟨1, true, false⟩ ⟨.other 16777271, false⟩ = "Alt + F8".toList ∧
    functionKeyEnv.GetRowLabel "Alt + F8".toList = lineLabel "Start" 8 ∧
    lineLabel "Start" 8 = "Start Line 8".toList ∧
    (keyReleaseEvent functionKeyEnv ⟨1, true, false⟩ ⟨.other 16777271, false⟩).2 =
      [.QWidget_keyReleaseEvent] := by
  decide

/-- No command switch changes the array `app_syslog_name`. -/
theorem readSwitch_syslog_name (sc : SwitchScan) (kv : QString × QString) :
    (readSwitch sc kv).names.app_syslog_name = sc.names.app_syslog_name := by
  unfold readSwitch
  dsimp only
  split_ifs <;> rfl

/-- The loop over the command switches leaves the array `app_syslog_name` as it was. -/
theorem foldl_readSwitch_syslog_name (switches : List (QString × QString)) (sc : SwitchScan) :
    (switches.foldl readSwitch sc).names.app_syslog_name = sc.names.app_syslog_name := by
  induction switches generalizing sc with
  | nil => rfl
  | cons kv rest ih => rw [List.foldl_cons, ih, readSwitch_syslog_name]

/-- A string without NUL that fits is read back from the array `strncpy` filled. -/
theorem cString_strncpy (dest src : List Nat) (n : Nat) (hlen : src.length < n)
    (hnul : ∀ b ∈ src, b ≠ 0) : cString (strncpy dest src n) = src := by
  have htw : src.takeWhile (fun b => b != 0) = src := by
    rw [List.takeWhile_eq_self_iff]
    intro b hb
    simpa using hnul b hb
  have htk : src.take n = src := List.take_of_length_le (by omega)
  unfold cString strncpy
  simp only [htw, htk]
  obtain ⟨k, hk⟩ : ∃ k, n - src.length = k + 1 := ⟨n - src.length - 1, by omega⟩
  rw [hk, List.replicate_succ, List.append_assoc, List.takeWhile_append]
  simp [htw]

/-- C23: for every command line the `ident` that `RDCoreApplication::open` passes to `openlog`
is the string the constructor copied into `app_syslog_name`, that is the command name given
to the constructor (when it has no NUL and fewer than `PATH_MAX - 1` bytes), also when the
command line carries `--persistent-dropbox-id=<n>` with a valid n: that switch, standing
last, sets `app_command_name` to "dropbox[n]", which `openlog` is not given. -/
theorem openlog_ident_is_command_name (PATH_MAX : Nat) (mem : List Nat) (cmdname : QString)
    (switches : List (QString × QString))
    (hlen : (QString.toUtf8 cmdname).length < PATH_MAX - 1)
    (hnul : ∀ b ∈ QString.toUtf8 cmdname, b ≠ 0) :
    RDCoreApplication.openlogIdent PATH_MAX mem cmdname switches = QString.toUtf8 cmdname ∧
    ∀ (value : QString) (n : Nat), QString.toUInt value = some n →
      RDCoreApplication.openlogIdent PATH_MAX mem cmdname
          (switches ++ [("--persistent-dropbox-id".toList, value)]) = QString.toUtf8 cmdname ∧
      (readSwitches (RDCoreApplication.construct PATH_MAX mem cmdname)
          (switches ++ [("--persistent-dropbox-id".toList, value)])).names.app_command_name =
        ("dropbox[" ++ toString n ++ "]").toList := by
  have hident : ∀ sw, RDCoreApplication.openlogIdent PATH_MAX mem cmdname sw =
      QString.toUtf8 cmdname := by
    intro sw
    unfold RDCoreApplication.openlogIdent readSwitches
    rw [foldl_readSwitch_syslog_name]
    exact cString_strncpy mem _ _ hlen hnul
  refine ⟨hident _, fun value n hv => ⟨hident _, ?_⟩⟩
  have hn : n ≤ 4294967295 := by
    unfold QString.toUInt at hv
    simp only at hv
    split at hv <;> (split at hv; · exact absurd hv (by simp)) <;>
      (split at hv; · exact absurd hv (by simp)) <;>
      (split at hv <;> simp at hv; omega)
  unfold readSwitches
  rw [List.foldl_append, List.foldl_cons, List.foldl_nil]
  generalize List.foldl readSwitch _ switches = sc
  have hne1 : ¬ ("--persistent-dropbox-id".toList = "--skip-db-check".toList) := by decide
  have hne2 : ¬ ("--persistent-dropbox-id".toList = "--ticket".toList) := by decide
  have hfmt : ∀ id : Int, id = (if n < 2147483648 then (n : Int) else (n : Int) - 4294967296) →
      fmtU id = toString n := by
    intro id hid
    unfold fmtU
    congr 1
    subst hid
    split <;> omega
  simp only [readSwitch, hne1, hne2, if_false, if_true, hv, Option.getD_some, Option.isSome_some]
  rw [hfmt _ rfl]

/-- C23, witness: the importer started as "rdimport" with `--persistent-dropbox-id=7` logs
under the identity "rdimport", while its command name becomes "dropbox[7]". -/
theorem openlog_ident_is_command_name_witness :
    RDCoreApplication.openlogIdent 4096 (List.replicate 4096 255) "rdimport".toList
        ([] ++ [("--persistent-dropbox-id".toList, "7".toList)]) =
      QString.toUtf8 "rdimport".toList ∧
    (readSwitches (RDCoreApplication.construct 4096 (List.replicate 4096 255) "rdimport".toList)
        ([] ++ [("--persistent-dropbox-id".toList, "7".toList)])).names.app_command_name =
      ("dropbox[" ++ toString 7 ++ "]").toList :=
  (openlog_ident_is_command_name 4096 (List.replicate 4096 255) "rdimport".toList []
    (by decide) (by decide)).2 "7".toList 7 (by decide)

/-- The cart map after `loadLine` has recorded a valid line: the ISCI code of the line is
mapped to 0, every other key is as before. -/
theorem loadLine_carts_of_valid (tr : String → String) (fresh : Event) (st : DgImport)
    (line : QString) (h : validEventLine line = true) (k : QString) :
    (loadLine tr fresh st line).dg_carts k =
      if k = (eventOfLine fresh line).isci then some 0 else st.dg_carts k := by
  simp only [validEventLine, Bool.and_eq_true] at h
  obtain ⟨⟨h1, h2⟩, h3⟩ := h
  have ht : (GetTime (QString.left 8 line)).isValid = true := by rw [GetTime_isValid_iff]; exact h1
  have hl : GetLength (QString.mid 80 3 line) > 0 := by
    have := GetLength_pos_iff (QString.mid 80 3 line)
    rw [h2] at this
    simpa using this
  have hisci := GetIsci_of_spec _ h3
  have hi : GetIsci (QString.mid 10 15 line) ≠ [] := by
    have := GetIsci_ne_nil_iff (QString.mid 10 15 line)
    rw [h3] at this
    intro hnil
    rw [hnil] at this
    simp at this
  have hi' : (GetIsci (QString.mid 10 15 line)).isEmpty = false := by
    cases hh : GetIsci (QString.mid 10 15 line) with
    | nil => exact absurd hh hi
    | cons _ _ => rfl
  unfold loadLine
  simp only [ht, hl, hi', if_true, Bool.not_false, eventOfLine, ← hisci]
  by_cases hk : k = GetIsci (QString.mid 10 15 line)
  · simp [DgImport.setCart, hk]
  · simp only [DgImport.setCart, hk, if_false]
    split
    · rfl
    · split <;> rfl

/-- The keys of the cart map after the loop of `LoadEvents`: the keys it had before, and the
ISCI codes of the events recorded. -/
theorem foldl_loadLine_keys (tr : String → String) (fresh : Event) (lines : List QString) :
    ∀ (st : DgImport) (k : QString),
      (((lines.foldl (loadLine tr fresh) st).dg_carts k).isSome = true ↔
        ((st.dg_carts k).isSome = true ∨
          ∃ evt ∈ (lines.filter validEventLine).map (eventOfLine fresh), evt.isci = k)) := by
  induction lines with
  | nil => intro st k; simp
  | cons line rest ih =>
    intro st k
    rw [List.foldl_cons, ih]
    by_cases hv : validEventLine line = true
    · rw [loadLine_carts_of_valid tr fresh st line hv k]
      simp only [List.filter_cons, hv, if_true, List.map_cons, List.mem_cons, exists_eq_or_imp]
      by_cases hk : k = (eventOfLine fresh line).isci
      · simp [hk]
      · have hk' : ¬ (eventOfLine fresh line).isci = k := fun h => hk h.symm
        simp [hk, hk']
    · have hv' : validEventLine line = false := by simpa using hv
      rw [loadLine_of_not_valid tr fresh st line hv']
      simp [List.filter_cons, hv']

/-- `GetEvent` finds an event exactly when the event list holds one with the ISCI code. -/
theorem GetEvent_isSome_iff (st : DgImport) (k : QString) :
    (GetEvent st k).isSome = true ↔ ∃ evt ∈ st.dg_events, evt.isci = k := by
  unfold GetEvent
  simp [List.find?_isSome]

/-- C28: after `MainWidget::LoadEvents` the keys of the cart map `dg_carts` are the keys it
had before the call together with the ISCI codes of the events of `dg_events`, because
`LoadEvents` clears `dg_events` and not `dg_carts`. On a first run (empty cart map) every key
is the ISCI code of some event and `GetEvent` finds it. On a later run a key left by an
earlier file whose ISCI code the new file does not record is still a key; for it `GetEvent`
returns NULL, which the loop of `ImportAudio` dereferences. -/
theorem LoadEvents_cart_keys (tr : String → String) (fresh : Event) (lines : List QString)
    (st : DgImport) :
    (∀ k, ((LoadEvents tr fresh (some lines) st).2.dg_carts k).isSome = true ↔
      ((st.dg_carts k).isSome = true ∨
        (GetEvent (LoadEvents tr fresh (some lines) st).2 k).isSome = true)) ∧
    ((∀ k, st.dg_carts k = none) →
      ∀ k, ((LoadEvents tr fresh (some lines) st).2.dg_carts k).isSome = true →
        (GetEvent (LoadEvents tr fresh (some lines) st).2 k).isSome = true) ∧
    (∀ (k : QString) (env : SpotEnv) (run : ImportRun), (st.dg_carts k).isSome = true →
      (∀ line ∈ lines, validEventLine line = true → (eventOfLine fresh line).isci ≠ k) →
      run.st = (LoadEvents tr fresh (some lines) st).2 →
      ((LoadEvents tr fresh (some lines) st).2.dg_carts k).isSome = true ∧
      GetEvent (LoadEvents tr fresh (some lines) st).2 k = none ∧
      importKey env run k = none) := by
  have hev : (LoadEvents tr fresh (some lines) st).2.dg_events
      = (lines.filter validEventLine).map (eventOfLine fresh) := by
    obtain ⟨he, _, _⟩ := foldl_loadLine tr fresh lines { st with dg_events := [] }
    simp only [LoadEvents]
    rw [he]
    simp
  have hkeys : ∀ k, ((LoadEvents tr fresh (some lines) st).2.dg_carts k).isSome = true ↔
      ((st.dg_carts k).isSome = true ∨
        (GetEvent (LoadEvents tr fresh (some lines) st).2 k).isSome = true) := by
    intro k
    rw [GetEvent_isSome_iff, hev]
    have := foldl_loadLine_keys tr fresh lines { st with dg_events := [] } k
    simpa only [LoadEvents] using this
  refine ⟨hkeys, ?_, ?_⟩
  · intro hfirst k hk
    rcases (hkeys k).mp hk with h | h
    · rw [hfirst k] at h
      exact absurd h (by simp)
    · exact h
  · intro k env run hold hnot hrun
    have hnone : GetEvent (LoadEvents tr fresh (some lines) st).2 k = none := by
      rw [← Option.not_isSome_iff_eq_none, GetEvent_isSome_iff, hev]
      rintro ⟨evt, hmem, hisci⟩
      obtain ⟨line, hline, rfl⟩ := List.mem_map.mp hmem
      obtain ⟨hl, hv⟩ := List.mem_filter.mp hline
      exact hnot line hl hv hisci
    refine ⟨(hkeys k).mpr (Or.inl hold), hnone, ?_⟩
    unfold importKey
    rw [hrun, hnone]

/-- C28, witness: a first run has left the key "AAAAAAAAAAAAAAA" in the cart map; after
`LoadEvents` on a second file that holds the ISCI code "BBBBBBBBBBBBBBB" only, the key is
still there, `GetEvent` returns NULL for it and the loop of `ImportAudio` goes through a NULL
pointer. -/
theorem LoadEvents_cart_keys_witness :
    ((LoadEvents id clearedEvent (some secondFile) afterFirstRun).2.dg_carts
        "AAAAAAAAAAAAAAA".toList).isSome = true ∧
    GetEvent (LoadEvents id clearedEvent (some secondFile) afterFirstRun).2
        "AAAAAAAAAAAAAAA".toList = none ∧
    importKey sampleSpotEnv
        { st := (LoadEvents id clearedEvent (some secondFile) afterFirstRun).2,
          err_msg := [], warnings := [], checked := [], imported := [] }
        "AAAAAAAAAAAAAAA".toList = none :=
  (LoadEvents_cart_keys id clearedEvent secondFile afterFirstRun).2.2
    "AAAAAAAAAAAAAAA".toList sampleSpotEnv
    { st := (LoadEvents id clearedEvent (some secondFile) afterFirstRun).2,
      err_msg := [], warnings := [], checked := [], imported := [] }
    (by decide) (by decide) rfl

/-- One pass of the loop of `updateModel`: a row of texts is added, an id is added and set
at the index of that row, an icon entry is added and set there when the row has an icon. -/
theorem appendRow_spec (env : ImportModelEnv) (m : RDLogImportModel) (q : ImporterLine) :
    (m.appendRow env q).d_headers = m.d_headers ∧
    (m.appendRow env q).d_texts = m.d_texts ++ [rowTexts env m.columnCount q] ∧
    (m.appendRow env q).d_ids = (m.d_ids ++ [0]).set m.d_texts.length q.ID ∧
    (m.appendRow env q).d_icons =
      match rowIcon env q with
      | some icon => (m.d_icons ++ [none]).set m.d_texts.length (some icon)
      | none => m.d_icons ++ [none] := by
  unfold RDLogImportModel.appendRow RDLogImportModel.updateRow
  cases h : rowIcon env q <;>
    simp [h, RDLogImportModel.columnCount, List.set_append]

/-- The loop of `updateModel` from a model whose three lists are given: the texts. -/
theorem foldl_appendRow_texts (env : ImportModelEnv) (rows : List ImporterLine) :
    ∀ m : RDLogImportModel,
      (rows.foldl (RDLogImportModel.appendRow env) m).d_headers = m.d_headers ∧
      (rows.foldl (RDLogImportModel.appendRow env) m).d_texts =
        m.d_texts ++ rows.map (rowTexts env m.columnCount) ∧
      (rows.foldl (RDLogImportModel.appendRow env) m).d_ids.length =
        m.d_ids.length + rows.length ∧
      (rows.foldl (RDLogImportModel.appendRow env) m).d_icons.length =
        m.d_icons.length + rows.length := by
  induction rows with
  | nil => intro m; simp
  | cons q rest ih =>
    intro m
    obtain ⟨a1, a2, a3, a4⟩ := appendRow_spec env m q
    obtain ⟨h1, h2, h3, h4⟩ := ih (m.appendRow env q)
    rw [List.foldl_cons]
    refine ⟨by rw [h1, a1], ?_, ?_, ?_⟩
    · rw [h2, a2]
      simp [RDLogImportModel.columnCount, a1]
    · rw [h3, a3]
      simp
      omega
    · rw [h4, a4]
      cases rowIcon env q <;> simp <;> omega

/-- The loop of `updateModel` leaves alone the entries of `d_ids` and `d_icons` that stand
before the rows it adds. -/
theorem foldl_appendRow_before (env : ImportModelEnv) (rows : List ImporterLine) :
    ∀ (m : RDLogImportModel) (i : Nat), i < m.d_texts.length → i < m.d_ids.length →
      i < m.d_icons.length →
      (rows.foldl (RDLogImportModel.appendRow env) m).d_ids[i]? = m.d_ids[i]? ∧
      (rows.foldl (RDLogImportModel.appendRow env) m).d_icons[i]? = m.d_icons[i]? := by
  induction rows with
  | nil => intro m i _ _ _; simp
  | cons q rest ih =>
    intro m i ht hi hc
    obtain ⟨_, a2, a3, a4⟩ := appendRow_spec env m q
    have hne : m.d_texts.length ≠ i := by omega
    obtain ⟨h1, h2⟩ := ih (m.appendRow env q) i
      (by rw [a2]; simp; omega) (by rw [a3]; simp; omega)
      (by rw [a4]; cases rowIcon env q <;> simp <;> omega)
    rw [List.foldl_cons, h1, h2, a3, a4]
    refine ⟨?_, ?_⟩
    · rw [List.getElem?_set_ne hne, List.getElem?_append_left hi]
    · cases rowIcon env q with
      | none => simp only []; rw [List.getElem?_append_left hc]
      | some icon => simp only []; rw [List.getElem?_set_ne hne, List.getElem?_append_left hc]

/-- The loop of `updateModel` from a model with `d_texts` no longer than `d_ids`: the id of
row `k` of the query stands at the index of its texts. -/
theorem foldl_appendRow_id (env : ImportModelEnv) (rows : List ImporterLine) :
    ∀ (m : RDLogImportModel) (k : Nat) (q : ImporterLine),
      m.d_texts.length ≤ m.d_ids.length → m.d_texts.length ≤ m.d_icons.length →
      rows[k]? = some q →
      (rows.foldl (RDLogImportModel.appendRow env) m).d_ids[m.d_texts.length + k]? =
        some q.ID := by
  induction rows with
  | nil => intro m k q _ _ h; simp at h
  | cons r rest ih =>
    intro m k q hi hc hk
    obtain ⟨_, a2, a3, a4⟩ := appendRow_spec env m r
    have ht' : (m.appendRow env r).d_texts.length = m.d_texts.length + 1 := by rw [a2]; simp
    have hi' : (m.appendRow env r).d_ids.length = m.d_ids.length + 1 := by rw [a3]; simp
    have hc' : (m.appendRow env r).d_icons.length = m.d_icons.length + 1 := by
      rw [a4]; cases rowIcon env r <;> simp
    rw [List.foldl_cons]
    cases k with
    | zero =>
      simp only [List.getElem?_cons_zero, Option.some.injEq] at hk
      subst hk
      obtain ⟨h1, _⟩ := foldl_appendRow_before env rest (m.appendRow env r) m.d_texts.length
        (by omega) (by omega) (by omega)
      rw [Nat.add_zero, h1, a3]
      have hlt : m.d_texts.length < (m.d_ids ++ [0]).length := by simp; omega
      simp [List.getElem?_set]
      omega
    | succ k =>
      simp only [List.getElem?_cons_succ] at hk
      have h1 := ih (m.appendRow env r) k q (by omega) (by omega) hk
      have hidx : m.d_texts.length + (k + 1) = (m.appendRow env r).d_texts.length + k := by
        omega
      rw [hidx]
      exact h1

/-- Setting the entry just appended. -/
theorem set_length_append_singleton {α : Type} (xs : List α) (a b : α) :
    (xs ++ [a]).set xs.length b = xs ++ [b] := by
  induction xs with
  | nil => rfl
  | cons x rest ih => simp [ih]

/-- The loop of `updateModel` from a model whose three lists have the same length: each row
of the query adds its id and its icon (an empty entry when it has none). -/
theorem foldl_appendRow_aligned (env : ImportModelEnv) (rows : List ImporterLine) :
    ∀ (m : RDLogImportModel), m.d_ids.length = m.d_texts.length →
      m.d_icons.length = m.d_texts.length →
      (rows.foldl (RDLogImportModel.appendRow env) m).d_ids = m.d_ids ++ rows.map (fun q => q.ID) ∧
      (rows.foldl (RDLogImportModel.appendRow env) m).d_icons =
        m.d_icons ++ rows.map (rowIcon env) := by
  induction rows with
  | nil => intro m _ _; simp
  | cons r rest ih =>
    intro m hi hc
    obtain ⟨_, a2, a3, a4⟩ := appendRow_spec env m r
    have a3' : (m.appendRow env r).d_ids = m.d_ids ++ [r.ID] := by
      rw [a3, ← hi, set_length_append_singleton]
    have a4' : (m.appendRow env r).d_icons = m.d_icons ++ [rowIcon env r] := by
      rw [a4]
      cases rowIcon env r with
      | none => rfl
      | some icon => simp only []; rw [← hc, set_length_append_singleton]
    obtain ⟨h1, h2⟩ := ih (m.appendRow env r)
      (by rw [a3', a2]; simp [hi]) (by rw [a4', a2]; simp [hc])
    rw [List.foldl_cons, h1, h2, a3', a4']
    simp

/-- C25: after `RDLogImportModel::updateModel` the stored texts are exactly the texts of the
re-queried rows, in the order of the query, and nothing of the previous texts remains. The
ids and the icons are not cleared: each of the two lists grows by the number of rows
returned, the id of returned row k stands at entry k, and only a model whose lists of ids
and icons were empty before (the construction) ends with as many ids and icons as rows,
entry k of each coming from returned row k. -/
theorem updateModel_rows (env : ImportModelEnv) (rows : List ImporterLine)
    (m : RDLogImportModel) :
    (m.updateModel env rows).d_texts = rows.map (rowTexts env m.columnCount) ∧
    (m.updateModel env rows).d_ids.length = m.d_ids.length + rows.length ∧
    (m.updateModel env rows).d_icons.length = m.d_icons.length + rows.length ∧
    (∀ (k : Nat) (q : ImporterLine), rows[k]? = some q →
      (m.updateModel env rows).d_ids[k]? = some q.ID) ∧
    (m.d_ids = [] → m.d_icons = [] →
      (m.updateModel env rows).d_ids = rows.map (fun q => q.ID) ∧
      (m.updateModel env rows).d_icons = rows.map (rowIcon env)) := by
  obtain ⟨_, h2, h3, h4⟩ := foldl_appendRow_texts env rows { m with d_texts := [] }
  unfold RDLogImportModel.updateModel
  refine ⟨?_, h3, h4, ?_, ?_⟩
  · rw [h2]
    simp [RDLogImportModel.columnCount]
  · intro k q hk
    have := foldl_appendRow_id env rows { m with d_texts := [] } k q (by simp) (by simp) hk
    simpa using this
  · intro hi hc
    obtain ⟨h5, h6⟩ := foldl_appendRow_aligned env rows { m with d_texts := [] }
      (by simp [hi]) (by simp [hc])
    rw [h5, h6]
    simp [hi, hc]

/-- C25, witness: a model built from a Cart row and a Track row holds two texts, the ids
[1, 2] and the icons of the two types; a refresh that returns one Macro row leaves one row
of texts, three ids and three icons, the icon at entry 0 being still that of the Cart row. -/
theorem updateModel_rows_witness :
    ((RDLogImportModel.new sampleModelEnv [sampleLine 1 .Cart, sampleLine 2 .Track]).d_ids =
        [sampleLine 1 .Cart, sampleLine 2 .Track].map (fun q => q.ID) ∧
      (RDLogImportModel.new sampleModelEnv [sampleLine 1 .Cart, sampleLine 2 .Track]).d_icons =
        [sampleLine 1 .Cart, sampleLine 2 .Track].map (rowIcon sampleModelEnv)) ∧
    ((RDLogImportModel.new sampleModelEnv [sampleLine 1 .Cart, sampleLine 2 .Track]).refresh
        sampleModelEnv [sampleLine 3 .Macro]).d_texts.length = 1 ∧
    ((RDLogImportModel.new sampleModelEnv [sampleLine 1 .Cart, sampleLine 2 .Track]).refresh
        sampleModelEnv [sampleLine 3 .Macro]).d_ids = [3, 2, 0] ∧
    ((RDLogImportModel.new sampleModelEnv [sampleLine 1 .Cart, sampleLine 2 .Track]).refresh
        sampleModelEnv [sampleLine 3 .Macro]).d_icons = [some 100, some 106, none] ∧
    rowIcon sampleModelEnv (sampleLine 3 .Macro) = none :=
  ⟨(updateModel_rows sampleModelEnv [sampleLine 1 .Cart, sampleLine 2 .Track]
      { d_headers := [(sampleModelEnv.tr "Start Time").toList, (sampleModelEnv.tr "Cart").toList,
                      (sampleModelEnv.tr "Len").toList, (sampleModelEnv.tr "Title").toList,
                      (sampleModelEnv.tr "GUID").toList, (sampleModelEnv.tr "Event ID").toList,
                      (sampleModelEnv.tr "Annc Type").toList, (sampleModelEnv.tr "Line").toList]
        d_texts := []
        d_ids := []
        d_icons := [] }).2.2.2.2 rfl rfl,
   by decide, by decide, by decide, by decide⟩

/-- Reading a timer after one was stored. -/
theorem timerActive_set (ts : ChannelTimers) (dir achan : Int) (t : QTimer) (d a : Int) :
    timerActive (ts.set dir achan t) d a =
      if d = dir ∧ a = achan then t.active else timerActive ts d a := by
  unfold timerActive ChannelTimers.set
  split_ifs <;> rfl

/-- One event keeps at most one direction locked on every audio channel. -/
theorem lockStep_oneDirection (I : Int) (ts ts' : ChannelTimers) (ev : LockEvent)
    (hinv : ∀ a, oneDirection ts a) (hstep : lockStep I ts ev = some ts') :
    ∀ a, oneDirection ts' a := by
  intro a
  have ha := hinv a
  unfold oneDirection at ha ⊢
  cases ev with
  | assertLock dir achan =>
    simp only [lockStep, Option.map_eq_some'] at hstep
    obtain ⟨r, hr, rfl⟩ := hstep
    unfold AssertChannelLock at hr
    by_cases hch : achan ≥ 0
    · simp only [hch, if_true] at hr
      by_cases hd : dir = 0
      · subst hd
        simp only [if_true] at hr
        cases h1 : ts 1 achan with
        | none => simp [h1] at hr
        | some ot =>
          simp only [h1] at hr
          by_cases hact : ot.active = true
          · simp only [hact, if_true, Option.some.injEq] at hr
            subst hr
            simp only [timerActive_set, QTimer.stop]
            by_cases haa : a = achan <;> simp [haa]
            simpa [haa] using ha
          · rw [Bool.not_eq_true] at hact
            simp only [hact, Bool.false_eq_true, if_false] at hr
            cases h0 : ts 0 achan with
            | none => simp [h0] at hr
            | some t =>
              simp only [h0, Option.some.injEq] at hr
              subst hr
              simp only [timerActive_set, QTimer.start]
              by_cases haa : a = achan
              · subst haa
                simp [timerActive, h1, hact]
              · simpa [haa] using ha
      · simp only [hd, if_false] at hr
        cases h0 : ts 0 achan with
        | none => simp [h0] at hr
        | some ot =>
          simp only [h0] at hr
          by_cases hact : ot.active = true
          · simp only [hact, if_true, Option.some.injEq] at hr
            subst hr
            simp only [timerActive_set, QTimer.stop]
            by_cases haa : a = achan <;> simp [haa]
            simpa [haa] using ha
          · rw [Bool.not_eq_true] at hact
            simp only [hact, Bool.false_eq_true, if_false] at hr
            cases hdd : ts dir achan with
            | none => simp [hdd] at hr
            | some t =>
              simp only [hdd, Option.some.injEq] at hr
              subst hr
              simp only [timerActive_set, QTimer.start]
              by_cases haa : a = achan
              · subst haa
                have h0a : timerActive ts 0 a = false := by simp [timerActive, h0, hact]
                simp [hd, Ne.symm hd, h0a]
              · simpa [haa] using ha
    · simp only [hch, if_false, Option.some.injEq] at hr
      subst hr
      exact ha
  | auxGpi achan =>
    simp only [lockStep, Option.map_eq_some'] at hstep
    obtain ⟨r, hr, rfl⟩ := hstep
    unfold auxStartGpi at hr
    cases h0 : ts 0 achan with
    | none => simp [h0] at hr
    | some t0 =>
      simp only [h0] at hr
      by_cases hact : t0.active = true
      · simp only [hact, if_true, Option.some.injEq] at hr
        subst hr
        simp only [timerActive_set, QTimer.stop]
        by_cases haa : a = achan <;> simp [haa]
        simpa [haa] using ha
      · rw [Bool.not_eq_true] at hact
        simp only [hact, Bool.false_eq_true, if_false] at hr
        cases h1 : ts 1 achan with
        | none => simp [h1] at hr
        | some t1 =>
          simp only [h1, Option.some.injEq] at hr
          subst hr
          simp only [timerActive_set, QTimer.start]
          by_cases haa : a = achan
          · subst haa
            simp [timerActive, h0, hact]
          · simpa [haa] using ha
  | timeout dir achan =>
    simp only [lockStep, Option.some.injEq] at hstep
    subst hstep
    unfold timerExpired
    cases hd : ts dir achan with
    | none => exact ha
    | some t =>
      simp only []
      by_cases hact : t.active = true
      · simp only [hact, if_true, timerActive_set]
        intro ⟨h0, h1⟩
        apply ha
        constructor
        · by_cases hc : (0 : Int) = dir ∧ a = achan
          · simp [hc] at h0
          · simpa [hc] using h0
        · by_cases hc : (1 : Int) = dir ∧ a = achan
          · simp [hc] at h1
          · simpa [hc] using h1
      · simp only [hact, if_false]
        exact ha

/-- When both timers of every audio channel exist, no event goes through a NULL timer and
both timers of every channel exist afterwards. -/
theorem lockStep_total (I : Int) (ts : ChannelTimers) (ev : LockEvent)
    (hdir : ∀ dir achan, ev = .assertLock dir achan → dir = 0 ∨ dir = 1)
    (hall : ∀ d a, (d = 0 ∨ d = 1) → (ts d a).isSome = true) :
    ∃ ts', lockStep I ts ev = some ts' ∧ ∀ d a, (d = 0 ∨ d = 1) → (ts' d a).isSome = true := by
  have hset : ∀ (dir achan : Int) (t : QTimer) (d a : Int), (d = 0 ∨ d = 1) →
      ((ts.set dir achan t) d a).isSome = true := by
    intro dir achan t d a hd
    unfold ChannelTimers.set
    split_ifs
    · rfl
    · exact hall d a hd
  cases ev with
  | assertLock dir achan =>
    obtain ⟨t0, h0⟩ := Option.isSome_iff_exists.mp (hall 0 achan (Or.inl rfl))
    obtain ⟨t1, h1⟩ := Option.isSome_iff_exists.mp (hall 1 achan (Or.inr rfl))
    simp only [lockStep, AssertChannelLock]
    by_cases hch : achan ≥ 0
    · rcases hdir dir achan rfl with hd | hd
      · subst hd
        by_cases hact : t1.active = true
        · exact ⟨ts.set 1 achan t1.stop, by simp [hch, h1, hact], hset _ _ _⟩
        · exact ⟨ts.set 0 achan (t0.start I), by simp [hch, h1, h0, hact], hset _ _ _⟩
      · subst hd
        by_cases hact : t0.active = true
        · exact ⟨ts.set 0 achan t0.stop, by simp [hch, h0, hact], hset _ _ _⟩
        · exact ⟨ts.set 1 achan (t1.start I), by simp [hch, h1, h0, hact], hset _ _ _⟩
    · exact ⟨ts, by simp [hch], hall⟩
  | auxGpi achan =>
    obtain ⟨t0, h0⟩ := Option.isSome_iff_exists.mp (hall 0 achan (Or.inl rfl))
    obtain ⟨t1, h1⟩ := Option.isSome_iff_exists.mp (hall 1 achan (Or.inr rfl))
    simp only [lockStep, auxStartGpi]
    by_cases hact : t0.active = true
    · exact ⟨ts.set 0 achan t0.stop, by simp [h0, hact], hset _ _ _⟩
    · exact ⟨ts.set 1 achan (t1.start I), by simp [h1, h0, hact], hset _ _ _⟩
  | timeout dir achan =>
    refine ⟨_, rfl, ?_⟩
    unfold timerExpired
    cases hd : ts dir achan with
    | none => exact hall
    | some t =>
      simp only []
      split_ifs
      · exact hset _ _ _
      · exact hall

/-- C26: from a start in which no lockout timer is active, after any sequence of
`AssertChannelLock` calls, Aux Log start-GPI assertions and timer expiries that the console
gets through, at most one of the two directional lockout timers of every audio channel is
active. -/
theorem lockout_one_direction (AIR_CHANNEL_LOCKOUT_INTERVAL : Int) (ts0 ts : ChannelTimers)
    (events : List LockEvent)
    (hstart : ∀ dir achan, timerActive ts0 dir achan = false)
    (hrun : lockRun AIR_CHANNEL_LOCKOUT_INTERVAL ts0 events = some ts) :
    ∀ achan, ¬ (timerActive ts 0 achan = true ∧ timerActive ts 1 achan = true) := by
  have key : ∀ (evs : List LockEvent) (s : ChannelTimers), (∀ a, oneDirection s a) →
      lockRun AIR_CHANNEL_LOCKOUT_INTERVAL s evs = some ts → ∀ a, oneDirection ts a := by
    intro evs
    induction evs with
    | nil =>
      intro s hs h
      simp only [lockRun, Option.some.injEq] at h
      subst h
      exact hs
    | cons ev rest ih =>
      intro s hs h
      unfold lockRun at h
      cases hstep : lockStep AIR_CHANNEL_LOCKOUT_INTERVAL s ev with
      | none => simp [hstep] at h
      | some s' =>
        simp only [hstep] at h
        exact ih s' (lockStep_oneDirection _ s s' ev hs hstep) h
  exact key events ts0 (fun a => by simp [oneDirection, hstart]) hrun

/-- C26, witness: on channel 3 a play is locked in, a start GPI of an Aux Log releases the
lock, a second start GPI locks the other direction, that timer runs out and a play is locked
in again; the console gets through all five events, and at the end at most one timer of every
channel is active. -/
theorem lockout_one_direction_witness :
    ∃ ts, lockRun 1000 idleTimers
        [.assertLock 0 3, .auxGpi 3, .auxGpi 3, .timeout 1 3, .assertLock 0 3] = some ts ∧
      ∀ achan, ¬ (timerActive ts 0 achan = true ∧ timerActive ts 1 achan = true) := by
  have hs : (lockRun 1000 idleTimers
      [.assertLock 0 3, .auxGpi 3, .auxGpi 3, .timeout 1 3, .assertLock 0 3]).isSome = true := by
    decide
  obtain ⟨ts, h⟩ := Option.isSome_iff_exists.mp hs
  exact ⟨ts, h, lockout_one_direction 1000 idleTimers ts
    [.assertLock 0 3, .auxGpi 3, .auxGpi 3, .timeout 1 3, .assertLock 0 3] (fun _ _ => rfl) h⟩

/-- A result that fits a 32-bit `int` is kept as it is. -/
theorem int32_eq (z : Int) (h1 : -2147483648 ≤ z) (h2 : z ≤ 2147483647) : int32 z = z := by
  unfold int32
  omega

/-- `AudioChannel` without wrapping, for a card whose ports all fit an `int`. -/
theorem AudioChannel_eq (RD_MAX_PORTS card port : Int) (hports : 1 ≤ RD_MAX_PORTS)
    (hlo : -1 ≤ port) (hhi : port ≤ RD_MAX_PORTS - 1)
    (hfit : -2147483648 ≤ RD_MAX_PORTS * card - 1 ∧ RD_MAX_PORTS * (card + 1) ≤ 2147483647) :
    AudioChannel RD_MAX_PORTS card port = RD_MAX_PORTS * card + port := by
  have hm : RD_MAX_PORTS * (card + 1) = RD_MAX_PORTS * card + RD_MAX_PORTS := by
    rw [Int.mul_add, Int.mul_one]
  unfold AudioChannel
  rw [int32_eq (RD_MAX_PORTS * card) (by omega) (by omega), int32_eq _ (by omega) (by omega)]

/-- The body of the constructor's loop keeps the timers that exist and never leaves a timer
of direction 0 without its partner of direction 1. -/
theorem createChannelTimers_keeps (RD_MAX_PORTS : Int) (conf : ChannelConf)
    (ts : ChannelTimers) (chan : Channel)
    (hpair : ∀ a, (ts 0 a).isSome = true → (ts 1 a).isSome = true) :
    (∀ d a, (ts d a).isSome = true →
      ((createChannelTimers RD_MAX_PORTS conf ts chan) d a).isSome = true) ∧
    (∀ a, ((createChannelTimers RD_MAX_PORTS conf ts chan) 0 a).isSome = true →
      ((createChannelTimers RD_MAX_PORTS conf ts chan) 1 a).isSome = true) ∧
    (0 ≤ conf.card chan → 0 ≤ conf.port chan →
      ((createChannelTimers RD_MAX_PORTS conf ts chan) 0
        (AudioChannel RD_MAX_PORTS (conf.card chan) (conf.port chan))).isSome = true ∧
      ((createChannelTimers RD_MAX_PORTS conf ts chan) 1
        (AudioChannel RD_MAX_PORTS (conf.card chan) (conf.port chan))).isSome = true) ∧
    (∀ d a, ((createChannelTimers RD_MAX_PORTS conf ts chan) d a).isSome = true →
      (ts d a).isSome = true ∨
      (0 ≤ conf.card chan ∧ 0 ≤ conf.port chan ∧
        a = AudioChannel RD_MAX_PORTS (conf.card chan) (conf.port chan))) := by
  unfold createChannelTimers
  by_cases hc : conf.card chan ≥ 0 ∧ conf.port chan ≥ 0
  · simp only [if_pos hc]
    cases h0 : ts 0 (AudioChannel RD_MAX_PORTS (conf.card chan) (conf.port chan)) with
    | none =>
      simp only []
      refine ⟨?_, ?_, ?_, ?_⟩
      · intro d a h
        unfold ChannelTimers.set
        split_ifs <;> first | rfl | exact h
      · intro a h
        unfold ChannelTimers.set at h ⊢
        by_cases ha : a = AudioChannel RD_MAX_PORTS (conf.card chan) (conf.port chan)
        · simp [ha]
        · simp only [ha, and_false, if_false] at h ⊢
          exact hpair a h
      · intro _ _
        unfold ChannelTimers.set
        simp
      · intro d a h
        unfold ChannelTimers.set at h
        by_cases ha : a = AudioChannel RD_MAX_PORTS (conf.card chan) (conf.port chan)
        · exact Or.inr ⟨hc.1, hc.2, ha⟩
        · simp only [ha, and_false, if_false] at h
          exact Or.inl h
    | some t =>
      simp only []
      refine ⟨fun d a h => h, hpair, ?_, fun d a h => Or.inl h⟩
      intro _ _
      have h0' : (ts 0 (AudioChannel RD_MAX_PORTS (conf.card chan) (conf.port chan))).isSome =
          true := by rw [h0]; rfl
      exact ⟨h0', hpair _ h0'⟩
  · simp only [if_neg hc]
    refine ⟨fun d a h => h, hpair, ?_, fun d a h => Or.inl h⟩
    intro h1 h2
    exact absurd ⟨h1, h2⟩ hc

/-- The constructor's loop over a list of channels: both timers of every channel of the list
that has a card and a port exist afterwards, and a timer exists afterwards only if it existed
before or belongs to such a channel. -/
theorem foldl_createChannelTimers (RD_MAX_PORTS : Int) (conf : ChannelConf)
    (chans : List Channel) :
    ∀ ts : ChannelTimers, (∀ a, (ts 0 a).isSome = true → (ts 1 a).isSome = true) →
      (∀ d a, (ts d a).isSome = true →
        ((chans.foldl (createChannelTimers RD_MAX_PORTS conf) ts) d a).isSome = true) ∧
      (∀ chan ∈ chans, 0 ≤ conf.card chan → 0 ≤ conf.port chan →
        ((chans.foldl (createChannelTimers RD_MAX_PORTS conf) ts) 0
          (AudioChannel RD_MAX_PORTS (conf.card chan) (conf.port chan))).isSome = true ∧
        ((chans.foldl (createChannelTimers RD_MAX_PORTS conf) ts) 1
          (AudioChannel RD_MAX_PORTS (conf.card chan) (conf.port chan))).isSome = true) ∧
      (∀ d a, ((chans.foldl (createChannelTimers RD_MAX_PORTS conf) ts) d a).isSome = true →
        (ts d a).isSome = true ∨
        ∃ chan ∈ chans, 0 ≤ conf.card chan ∧ 0 ≤ conf.port chan ∧
          a = AudioChannel RD_MAX_PORTS (conf.card chan) (conf.port chan)) := by
  induction chans with
  | nil =>
    intro ts _
    exact ⟨fun d a h => h, fun chan hc => absurd hc (List.not_mem_nil _),
      fun d a h => Or.inl h⟩
  | cons c rest ih =>
    intro ts hpair
    obtain ⟨k1, k2, k3, k4⟩ := createChannelTimers_keeps RD_MAX_PORTS conf ts c hpair
    obtain ⟨i1, i2, i3⟩ := ih (createChannelTimers RD_MAX_PORTS conf ts c) k2
    rw [List.foldl_cons]
    refine ⟨fun d a h => i1 d a (k1 d a h), ?_, ?_⟩
    · intro chan hchan hcard hport
      rcases List.mem_cons.mp hchan with h | h
      · subst h
        obtain ⟨t0, t1⟩ := k3 hcard hport
        exact ⟨i1 0 _ t0, i1 1 _ t1⟩
      · exact i2 chan h hcard hport
    · intro d a h
      rcases i3 d a h with h' | ⟨chan, hchan, hh⟩
      · rcases k4 d a h' with h'' | hh
        · exact Or.inl h''
        · exact Or.inr ⟨c, List.mem_cons_self _ _, hh⟩
      · exact Or.inr ⟨chan, List.mem_cons_of_mem _ hchan, hh⟩

/-- C27: for RD_MAX_PORTS at least 1, a port in -1..RD_MAX_PORTS-1 and a card whose ports fit
an `int`, `MainWidget::AudioChannel(card, port)` is RD_MAX_PORTS*card+port; it is non-negative
exactly when the card is at least 1, or the card is 0 and the port is non-negative, so it is
non-negative whenever both are non-negative, and also for a card of 1 or more with port -1.
The constructor creates both lockout timers of every channel whose card and port are
non-negative, and no others: `AssertChannelLock(dir, card, port)` for a pair with a
non-negative audio channel that is the audio channel of no such channel passes the guard
`achan >= 0` and goes through a NULL timer. `AudioChannel` is injective on the pairs with
card >= 0 and 0 <= port < RD_MAX_PORTS. -/
theorem AudioChannel_sign_and_injective (RD_MAX_PORTS : Int) (hports : 1 ≤ RD_MAX_PORTS)
    (card port : Int) (hlo : -1 ≤ port) (hhi : port ≤ RD_MAX_PORTS - 1)
    (hfit : -2147483648 ≤ RD_MAX_PORTS * card - 1 ∧ RD_MAX_PORTS * (card + 1) ≤ 2147483647) :
    AudioChannel RD_MAX_PORTS card port = RD_MAX_PORTS * card + port ∧
    (0 ≤ AudioChannel RD_MAX_PORTS card port ↔ (1 ≤ card ∨ (card = 0 ∧ 0 ≤ port))) ∧
    (0 ≤ card → 0 ≤ port → 0 ≤ AudioChannel RD_MAX_PORTS card port) ∧
    (∀ (conf : ChannelConf) (chan : Channel) (I dir : Int),
      conf.card chan = card → conf.port chan = port → 0 ≤ card → 0 ≤ port →
      (dir = 0 ∨ dir = 1) →
      (AssertChannelLockPort RD_MAX_PORTS I (initChannelTimers RD_MAX_PORTS conf)
        dir card port).isSome = true) ∧
    (∀ (conf : ChannelConf) (I dir : Int), 0 ≤ AudioChannel RD_MAX_PORTS card port →
      (∀ chan, 0 ≤ conf.card chan → 0 ≤ conf.port chan →
        AudioChannel RD_MAX_PORTS (conf.card chan) (conf.port chan) ≠
          AudioChannel RD_MAX_PORTS card port) →
      (AssertChannelLockPort RD_MAX_PORTS I (initChannelTimers RD_MAX_PORTS conf)
        dir card port).isNone = true) ∧
    (∀ card' port' : Int, 0 ≤ card → 0 ≤ port → 0 ≤ card' → 0 ≤ port' →
      port' < RD_MAX_PORTS → RD_MAX_PORTS * (card' + 1) ≤ 2147483647 →
      AudioChannel RD_MAX_PORTS card port = AudioChannel RD_MAX_PORTS card' port' →
      card = card' ∧ port = port') := by
  have heq := AudioChannel_eq RD_MAX_PORTS card port hports hlo hhi hfit
  have hall : ∀ chan : Channel, chan ∈ allChannels := by
    intro chan
    cases chan <;> decide
  refine ⟨heq, ?_, ?_, ?_, ?_, ?_⟩
  · rw [heq]
    constructor
    · intro h
      by_contra hc
      have h1 : ¬ (1 ≤ card) := fun h1 => hc (Or.inl h1)
      have h2 : ¬ (card = 0 ∧ 0 ≤ port) := fun h2 => hc (Or.inr h2)
      by_cases h0 : card = 0
      · subst h0
        have : ¬ (0 ≤ port) := fun hp => h2 ⟨rfl, hp⟩
        omega
      · have hneg : card ≤ -1 := by omega
        have : RD_MAX_PORTS * card ≤ RD_MAX_PORTS * (-1) :=
          Int.mul_le_mul_of_nonneg_left hneg (by omega)
        omega
    · rintro (h | ⟨h, hp⟩)
      · have : RD_MAX_PORTS * 1 ≤ RD_MAX_PORTS * card :=
          Int.mul_le_mul_of_nonneg_left h (by omega)
        omega
      · subst h
        omega
  · intro hc hp
    rw [heq]
    have : 0 ≤ RD_MAX_PORTS * card := Int.mul_nonneg (by omega) hc
    omega
  · intro conf chan I dir hcc hcp hc hp hdir
    obtain ⟨_, h2, _⟩ := foldl_createChannelTimers RD_MAX_PORTS conf allChannels
      (fun _ _ => none) (fun a h => by simp at h)
    obtain ⟨t0, t1⟩ := h2 chan (hall chan) (by rw [hcc]; exact hc) (by rw [hcp]; exact hp)
    rw [hcc, hcp] at t0 t1
    have hnn : 0 ≤ AudioChannel RD_MAX_PORTS card port := by
      rw [heq]
      have : 0 ≤ RD_MAX_PORTS * card := Int.mul_nonneg (by omega) hc
      omega
    obtain ⟨q0, hq0⟩ := Option.isSome_iff_exists.mp t0
    obtain ⟨q1, hq1⟩ := Option.isSome_iff_exists.mp t1
    unfold AssertChannelLockPort AssertChannelLock initChannelTimers at *
    rcases hdir with hd | hd <;> subst hd <;> simp only [hnn, ge_iff_le, if_true] <;>
      simp [hq0, hq1] <;> split <;> rfl
  · intro conf I dir hnn hno
    obtain ⟨_, _, h3⟩ := foldl_createChannelTimers RD_MAX_PORTS conf allChannels
      (fun _ _ => none) (fun a h => by simp at h)
    have hnone : ∀ d, (initChannelTimers RD_MAX_PORTS conf) d
        (AudioChannel RD_MAX_PORTS card port) = none := by
      intro d
      rw [← Option.not_isSome_iff_eq_none]
      intro h
      rcases h3 d _ h with h' | ⟨chan, _, hc, hp, ha⟩
      · simp at h'
      · exact hno chan hc hp ha.symm
    unfold AssertChannelLockPort AssertChannelLock
    simp [hnn, hnone]
  · intro card' port' hc hp hc' hp' hlt hfit' h
    have heq' := AudioChannel_eq RD_MAX_PORTS card' port' hports (by omega) (by omega)
      ⟨by
        have : 0 ≤ RD_MAX_PORTS * card' := Int.mul_nonneg (by omega) hc'
        omega, hfit'⟩
    rw [heq, heq'] at h
    have hcard : card = card' := by
      by_contra hne
      rcases lt_or_gt_of_ne hne with hl | hl
      · have : RD_MAX_PORTS * (card + 1) ≤ RD_MAX_PORTS * card' :=
          Int.mul_le_mul_of_nonneg_left (by omega) (by omega)
        rw [Int.mul_add] at this
        omega
      · have : RD_MAX_PORTS * (card' + 1) ≤ RD_MAX_PORTS * card :=
          Int.mul_le_mul_of_nonneg_left (by omega) (by omega)
        rw [Int.mul_add] at this
        omega
    subst hcard
    exact ⟨rfl, by omega⟩

/-- C27, witness: with 24 ports to a card, Main Log 1 is configured on card 1 with port -1
and no other channel has a card. The audio channel of card 1, port -1 is 23, which passes the
guard `achan >= 0`; the constructor has created no timer, and `AssertChannelLock(0, 1, -1)`
goes through a NULL timer. -/
theorem AudioChannel_sign_and_injective_witness :
    AudioChannel 24 1 (-1) = 24 * 1 + -1 ∧ 0 ≤ AudioChannel 24 1 (-1) ∧
    (AssertChannelLockPort 24 1000 (initChannelTimers 24 portlessConf) 0 1 (-1)).isNone =
      true :=
  have h := AudioChannel_sign_and_injective 24 (by decide) 1 (-1) (by decide) (by decide)
    (by decide)
  ⟨h.1, by decide,
   h.2.2.2.2.1 portlessConf 1000 0 (by decide)
     (fun chan _ hp => by simp [portlessConf] at hp)⟩

/-- C29: a Make Next macro that `MainWidget::logReloadedData` sends for a log machine carries
the machine number and `air_start_line`, and that line is below the line count of the
reloaded log; no lower bound is checked: whenever the start log name is not empty and
`air_start_line` is negative (as the constructor leaves it for `--logN=name:-3`, and
`ripcConnectedData` for a start mode of StartPrevious after a dirty exit with a stored current
line of -1), the macro is sent with that negative line. -/
theorem logReloadedData_make_next (log : Nat) (lineCount : Int) (st : LogStart) :
    (∀ machine line, StartRml.MN machine line ∈ (logReloadedData log lineCount st).2 →
      machine = (log : Int) + 1 ∧ line = st.air_start_line ∧ line < lineCount) ∧
    (isEmptyName st.air_start_logname = false → st.air_start_line < lineCount →
      StartRml.MN ((log : Int) + 1) st.air_start_line ∈ (logReloadedData log lineCount st).2) ∧
    (isEmptyName st.air_start_logname = false → st.air_start_line < 0 → 0 ≤ lineCount →
      StartRml.MN ((log : Int) + 1) st.air_start_line ∈ (logReloadedData log lineCount st).2 ∧
      ¬ (0 ≤ st.air_start_line)) := by
  have hsend : isEmptyName st.air_start_logname = false → st.air_start_line < lineCount →
      StartRml.MN ((log : Int) + 1) st.air_start_line ∈ (logReloadedData log lineCount st).2 := by
    intro hn hl
    simp [logReloadedData, hn, hl]
  refine ⟨?_, hsend, ?_⟩
  · intro machine line hmem
    unfold logReloadedData at hmem
    by_cases hn : isEmptyName st.air_start_logname = true
    · simp [hn] at hmem
    · by_cases hl : st.air_start_line < lineCount
      · by_cases hs : st.air_start_start = true <;> simp [hn, hl, hs] at hmem <;>
          exact ⟨hmem.1, hmem.2, by rw [hmem.2]; exact hl⟩
      · simp [hn, hl] at hmem
  · intro hn hneg hcount
    exact ⟨hsend hn (by omega), by omega⟩

/-- C29, witness: the console restarts after a dirty exit with the start mode StartPrevious
and a stored current line of -1; `ripcConnectedData` leaves `air_start_line` at -1, and when
the log of 10 lines is loaded `logReloadedData` sends Make Next for machine 1 with line -1. -/
theorem logReloadedData_make_next_witness :
    (ripcConnectedLog resumeNoLineConf some .ExitDirty 0
      (readLogOption some (fun _ => 0) [] 0)).air_start_line = -1 ∧
    StartRml.MN ((0 : Nat) + 1 : Int) (-1) ∈
      (logReloadedData 0 10
        (ripcConnectedLog resumeNoLineConf some .ExitDirty 0
          (readLogOption some (fun _ => 0) [] 0))).2 :=
  ⟨by decide,
   ((logReloadedData_make_next 0 10
      (ripcConnectedLog resumeNoLineConf some .ExitDirty 0
        (readLogOption some (fun _ => 0) [] 0))).2.2
      (by decide) (by decide) (by decide)).1⟩

/-- Truncating division by a positive number is monotone. -/
theorem tdiv_mono (a b c : Int) (hc : 0 < c) (h : a ≤ b) : a.tdiv c ≤ b.tdiv c := by
  rcases le_or_lt 0 a with ha | ha
  · rw [Int.tdiv_eq_ediv ha (le_of_lt hc), Int.tdiv_eq_ediv (le_trans ha h) (le_of_lt hc)]
    exact Int.ediv_le_ediv hc h
  · rcases le_or_lt 0 b with hb | hb
    · have h1 : a.tdiv c ≤ 0 := by
        have h0 : 0 ≤ (-a).tdiv c := Int.tdiv_nonneg (by omega) (le_of_lt hc)
        rw [Int.neg_tdiv] at h0
        omega
      have h2 := Int.tdiv_nonneg hb (le_of_lt hc)
      omega
    · have h1 : (-b).tdiv c ≤ (-a).tdiv c := by
        rw [Int.tdiv_eq_ediv (by omega) (le_of_lt hc), Int.tdiv_eq_ediv (by omega) (le_of_lt hc)]
        exact Int.ediv_le_ediv hc (by omega)
      rw [Int.neg_tdiv, Int.neg_tdiv] at h1
      omega

/-- The sizes of the intermediate results of the knob formulas: `T` is the travel, `d` the
value less the minimum, `R` the width of the range. -/
theorem knob_arith (T d R : Int) (hT : 0 ≤ T) (hd0 : 0 ≤ d) (hdR : d ≤ R) (hR : 1 ≤ R) :
    0 ≤ T * d ∧ T * d ≤ T * R ∧ T ≤ T * R ∧ 0 ≤ (T * d).tdiv R ∧ (T * d).tdiv R ≤ T ∧
    0 ≤ T.tdiv R ∧ T.tdiv R ≤ T ∧
    -(T.tdiv R) ≤ (T * d - T).tdiv R ∧ (T * d - T).tdiv R ≤ T := by
  have h1 : 0 ≤ T * d := Int.mul_nonneg hT hd0
  have h2 : T * d ≤ T * R := Int.mul_le_mul_of_nonneg_left hdR hT
  have h3 : T * 1 ≤ T * R := Int.mul_le_mul_of_nonneg_left hR hT
  have h4 := Int.tdiv_nonneg h1 (by omega : (0 : Int) ≤ R)
  have hTR : (T * R).tdiv R = T := by
    rw [Int.tdiv_eq_ediv (by omega) (by omega)]
    exact Int.mul_ediv_cancel T (by omega)
  have h5 : (T * d).tdiv R ≤ T := by
    have := tdiv_mono (T * d) (T * R) R (by omega) h2
    omega
  have h6 := Int.tdiv_nonneg hT (by omega : (0 : Int) ≤ R)
  have h7 : T.tdiv R ≤ T := by
    rw [Int.tdiv_eq_ediv hT (by omega)]
    exact Int.ediv_le_self R hT
  have h8 : -(T.tdiv R) ≤ (T * d - T).tdiv R := by
    have := tdiv_mono (-T) (T * d - T) R (by omega) (by omega)
    rw [Int.neg_tdiv] at this
    exact this
  have h9 : (T * d - T).tdiv R ≤ T := by
    have := tdiv_mono (T * d - T) (T * R) R (by omega) (by omega)
    omega
  exact ⟨h1, h2, by omega, h4, h5, h6, h7, h8, h9⟩

/-- The formula of the orientations Up and Left, when no intermediate result overflows. -/
theorem fromEnd_eq (E K v mn mx : Int) (hT : 0 ≤ E - K) (hlo : mn ≤ v) (hhi : v ≤ mx)
    (hrange : mn < mx) (hR : mx - mn ≤ 2147483647)
    (hprod : (E - K) * (mx - mn) ≤ 2147483647) :
    isub (isub E K) (idiv (imul (isub E K) (isub v mn)) (isub mx mn)) =
      (E - K) - ((E - K) * (v - mn)).tdiv (mx - mn) := by
  obtain ⟨a1, a2, a3, a4, a5, _, _, _, _⟩ :=
    knob_arith (E - K) (v - mn) (mx - mn) hT (by omega) (by omega) (by omega)
  have e1 : int32 (E - K) = E - K := int32_eq _ (by omega) (by omega)
  have e2 : int32 (v - mn) = v - mn := int32_eq _ (by omega) (by omega)
  have e3 : int32 (mx - mn) = mx - mn := int32_eq _ (by omega) (by omega)
  have e4 : int32 ((E - K) * (v - mn)) = (E - K) * (v - mn) := int32_eq _ (by omega) (by omega)
  have e5 : int32 (((E - K) * (v - mn)).tdiv (mx - mn)) = ((E - K) * (v - mn)).tdiv (mx - mn) :=
    int32_eq _ (by omega) (by omega)
  have e6 : int32 ((E - K) - ((E - K) * (v - mn)).tdiv (mx - mn)) =
      (E - K) - ((E - K) * (v - mn)).tdiv (mx - mn) := int32_eq _ (by omega) (by omega)
  simp only [isub, idiv, imul, e1, e2, e3, e4, e5, e6]

/-- The formula of the orientations Down and Right, when no intermediate result overflows. -/
theorem fromStart_eq (E K v mn mx : Int) (hT : 0 ≤ E - K) (hlo : mn ≤ v) (hhi : v ≤ mx)
    (hrange : mn < mx) (hR : mx - mn ≤ 2147483647)
    (hprod : (E - K) * (mx - mn) ≤ 2147483647) :
    idiv (ineg (isub (isub E K) (imul (isub E K) (isub v mn)))) (isub mx mn) =
      ((E - K) * (v - mn) - (E - K)).tdiv (mx - mn) := by
  obtain ⟨a1, a2, a3, _, _, a6, a7, a8, a9⟩ :=
    knob_arith (E - K) (v - mn) (mx - mn) hT (by omega) (by omega) (by omega)
  have e1 : int32 (E - K) = E - K := int32_eq _ (by omega) (by omega)
  have e2 : int32 (v - mn) = v - mn := int32_eq _ (by omega) (by omega)
  have e3 : int32 (mx - mn) = mx - mn := int32_eq _ (by omega) (by omega)
  have e4 : int32 ((E - K) * (v - mn)) = (E - K) * (v - mn) := int32_eq _ (by omega) (by omega)
  have e5 : int32 ((E - K) - (E - K) * (v - mn)) = (E - K) - (E - K) * (v - mn) :=
    int32_eq _ (by omega) (by omega)
  have e6 : int32 (-((E - K) - (E - K) * (v - mn))) = (E - K) * (v - mn) - (E - K) := by
    rw [int32_eq _ (by omega) (by omega)]
    omega
  have e7 : int32 (((E - K) * (v - mn) - (E - K)).tdiv (mx - mn)) =
      ((E - K) * (v - mn) - (E - K)).tdiv (mx - mn) := int32_eq _ (by omega) (by omega)
  simp only [isub, idiv, imul, ineg, e1, e2, e3, e4, e5, e6, e7]

/-- The offset `calcKnob` gives the knob, by orientation. -/
theorem knobOffset_eq (s : RDSlider) (knob_size : QSize) (w h : Int) :
    knobOffset s knob_size w h =
      match s.rdslider_orient with
      | .Up =>
        isub (isub h knob_size.height)
          (idiv (imul (isub h knob_size.height) (isub s.value s.minimum))
            (isub s.maximum s.minimum))
      | .Down =>
        idiv (ineg (isub (isub h knob_size.height)
          (imul (isub h knob_size.height) (isub s.value s.minimum))))
          (isub s.maximum s.minimum)
      | .Left =>
        isub (isub w knob_size.width)
          (idiv (imul (isub w knob_size.width) (isub s.value s.minimum))
            (isub s.maximum s.minimum))
      | .Right =>
        idiv (ineg (isub (isub w knob_size.width)
          (imul (isub w knob_size.width) (isub s.value s.minimum))))
          (isub s.maximum s.minimum) := by
  unfold knobOffset RDSlider.calcKnob
  cases ho : s.rdslider_orient <;> simp only [] <;> split_ifs <;> rfl

/-- The offset of the knob in closed form, when no intermediate result overflows: the travel
less the scaled value for Up and Left, the scaled value less the travel, divided by the width
of the range, for Down and Right. -/
theorem knobOffset_closed (s : RDSlider) (knob_size : QSize) (w h : Int)
    (hT : 0 ≤ knobTravel s knob_size w h) (hlo : s.minimum ≤ s.value)
    (hhi : s.value ≤ s.maximum) (hrange : s.minimum < s.maximum)
    (hR : s.maximum - s.minimum ≤ 2147483647)
    (hprod : knobTravel s knob_size w h * (s.maximum - s.minimum) ≤ 2147483647) :
    knobOffset s knob_size w h =
      if s.rdslider_orient = .Up ∨ s.rdslider_orient = .Left then
        knobTravel s knob_size w h -
          (knobTravel s knob_size w h * (s.value - s.minimum)).tdiv (s.maximum - s.minimum)
      else
        (knobTravel s knob_size w h * (s.value - s.minimum) - knobTravel s knob_size w h).tdiv
          (s.maximum - s.minimum) := by
  rw [knobOffset_eq]
  unfold knobTravel at hT hprod ⊢
  cases ho : s.rdslider_orient <;> simp only [ho] at hT hprod ⊢
  · rw [fromEnd_eq _ _ _ _ _ hT hlo hhi hrange hR hprod]; simp
  · rw [fromStart_eq _ _ _ _ _ hT hlo hhi hrange hR hprod]; simp
  · rw [fromEnd_eq _ _ _ _ _ hT hlo hhi hrange hR hprod]; simp
  · rw [fromStart_eq _ _ _ _ _ hT hlo hhi hrange hR hprod]; simp

/-- C30: for a range with minimum < maximum, a value within it and a widget extent not smaller
than the knob extent (no intermediate result overflowing an `int`), `RDSlider::calcKnob`
places the knob of an Up or Left slider at an offset within the travel
[0, widget extent - knob extent], non-increasing in the value. For Down and Right the offset
is the travel times (value - minimum - 1) divided by the width of the range, truncated: it is
non-decreasing in the value and never above the travel, but at the minimum it is minus the
quotient of travel and range width, which is negative whenever the travel is not smaller than
the range width. -/
theorem calcKnob_offset (s : RDSlider) (knob_size : QSize) (w h : Int)
    (hT : 0 ≤ knobTravel s knob_size w h) (hlo : s.minimum ≤ s.value)
    (hhi : s.value ≤ s.maximum) (hrange : s.minimum < s.maximum)
    (hR : s.maximum - s.minimum ≤ 2147483647)
    (hprod : knobTravel s knob_size w h * (s.maximum - s.minimum) ≤ 2147483647) :
    ((s.rdslider_orient = .Up ∨ s.rdslider_orient = .Left) →
      0 ≤ knobOffset s knob_size w h ∧
      knobOffset s knob_size w h ≤ knobTravel s knob_size w h ∧
      ∀ v, s.value ≤ v → v ≤ s.maximum →
        knobOffset { s with value := v } knob_size w h ≤ knobOffset s knob_size w h) ∧
    ((s.rdslider_orient = .Down ∨ s.rdslider_orient = .Right) →
      -((knobTravel s knob_size w h).tdiv (s.maximum - s.minimum)) ≤
        knobOffset s knob_size w h ∧
      knobOffset s knob_size w h ≤ knobTravel s knob_size w h ∧
      (∀ v, s.value ≤ v → v ≤ s.maximum →
        knobOffset s knob_size w h ≤ knobOffset { s with value := v } knob_size w h) ∧
      (s.value = s.minimum →
        knobOffset s knob_size w h =
          -((knobTravel s knob_size w h).tdiv (s.maximum - s.minimum)) ∧
        (s.maximum - s.minimum ≤ knobTravel s knob_size w h →
          knobOffset s knob_size w h < 0))) := by
  have hc := knobOffset_closed s knob_size w h hT hlo hhi hrange hR hprod
  obtain ⟨a1, a2, a3, a4, a5, a6, a7, a8, a9⟩ :=
    knob_arith (knobTravel s knob_size w h) (s.value - s.minimum) (s.maximum - s.minimum) hT
      (by omega) (by omega) (by omega)
  have hmono : ∀ v, s.value ≤ v →
      knobTravel s knob_size w h * (s.value - s.minimum) ≤
        knobTravel s knob_size w h * (v - s.minimum) :=
    fun v hv => Int.mul_le_mul_of_nonneg_left (by omega) hT
  refine ⟨?_, ?_⟩
  · intro ho
    rw [hc, if_pos ho]
    refine ⟨by omega, by omega, ?_⟩
    intro v hv hvmax
    have hc' := knobOffset_closed { s with value := v } knob_size w h hT
      (show s.minimum ≤ v by omega) hvmax hrange hR hprod
    have ho' : ({ s with value := v } : RDSlider).rdslider_orient = .Up ∨
        ({ s with value := v } : RDSlider).rdslider_orient = .Left := ho
    rw [hc', if_pos ho']
    have := tdiv_mono _ _ (s.maximum - s.minimum) (by omega) (hmono v hv)
    have ht : knobTravel { s with value := v } knob_size w h = knobTravel s knob_size w h := rfl
    simp only [ht]
    omega
  · intro ho
    have hno : ¬ (s.rdslider_orient = .Up ∨ s.rdslider_orient = .Left) := by
      rcases ho with h1 | h1 <;> rw [h1] <;> simp
    rw [hc, if_neg hno]
    refine ⟨a8, a9, ?_, ?_⟩
    · intro v hv hvmax
      have hc' := knobOffset_closed { s with value := v } knob_size w h hT
        (show s.minimum ≤ v by omega) hvmax hrange hR hprod
      have hno' : ¬ (({ s with value := v } : RDSlider).rdslider_orient = .Up ∨
          ({ s with value := v } : RDSlider).rdslider_orient = .Left) := hno
      rw [hc', if_neg hno']
      have ht : knobTravel { s with value := v } knob_size w h = knobTravel s knob_size w h :=
        rfl
      simp only [ht]
      exact tdiv_mono _ _ (s.maximum - s.minimum) (by omega) (by have := hmono v hv; omega)
    · intro hmin
      have hz : knobTravel s knob_size w h * (s.value - s.minimum) -
          knobTravel s knob_size w h = -knobTravel s knob_size w h := by
        rw [hmin]
        simp
      rw [hz, Int.neg_tdiv]
      refine ⟨rfl, ?_⟩
      intro hge
      have h1 : 1 ≤ (knobTravel s knob_size w h).tdiv (s.maximum - s.minimum) := by
        have := tdiv_mono (s.maximum - s.minimum) (knobTravel s knob_size w h)
          (s.maximum - s.minimum) (by omega) hge
        rw [Int.tdiv_self (by omega)] at this
        exact this
      omega

/-- C30, witness: a Right slider 200 pixels wide with the range 0..100 and a knob 20 pixels
wide, its value at the minimum: `calcKnob` places the knob at x = -1, outside the travel
0..180. -/
theorem calcKnob_offset_witness :
    knobOffset (restingSlider .Right 0) ⟨20, 10⟩ 200 20 = -1 ∧
    knobTravel (restingSlider .Right 0) ⟨20, 10⟩ 200 20 = 180 ∧
    knobOffset (restingSlider .Right 0) ⟨20, 10⟩ 200 20 < 0 :=
  ⟨by decide, by decide,
   ((((calcKnob_offset (restingSlider .Right 0) ⟨20, 10⟩ 200 20
      (by decide) (by decide) (by decide) (by decide) (by decide) (by decide)).2
        (Or.inr rfl)).2.2.2) rfl).2 (by decide)⟩

end Rivendell
